import Mathlib

/-!
Verification development for the audit-ai-backend financial assistant.

This file gives a shallow embedding, in Lean 4, of the analytics /
monitoring / tool-calling core of the backend, translated from the
TypeScript sources:

* transactionRepository, alertRepository, budgetRepository,
  goalRepository, analyticsRepository, conversationRepository,
  notificationRepository  (SQL queries become pure list functions over an
  explicit database state `Db`);
* financialIntelligenceService (forecastCashFlow, calculateGrowthRate,
  detectAnomalies, detectRecurringPatterns);
* notificationService (monitorCashBalance, monitorBudgets, monitorGoals,
  monitorTrends, runAllMonitoring);
* the Gemini chat orchestrator (GeminiAccountantService.chat), with the
  external model call represented by an `Except` valued outcome parameter.

Modelling conventions, used throughout:

* JS numbers are modelled as rationals (ℚ); `Math.round` is `round`
  (round half up, matching JS), `Math.ceil` is `⌈·⌉`.
* ISO date strings are modelled as calendar dates `CalDate`; string
  comparison of ISO dates coincides with chronological comparison, which
  we realise through the epoch-day number `toEpochDay` (the standard
  civil-from-days correspondence).  SQLite timestamps attached to created
  rows are modelled by the creation-day taken from an explicit `Clock`.
* `JSON.stringify` of the small alert payload objects is modelled by a
  structured payload type `AlertData` plus a rendering function
  `renderData`; the braces of the JSON object and the exact JS number
  formatting are elided (stand-in `numStr`), which is harmless for the
  substring checks the code performs on these blobs.
* Text the code builds with toLocaleString/toFixed is likewise rendered
  through `numStr`; apostrophes and emoji in message literals are elided.
  The dedup logic only inspects the fixed keyword parts of the messages.
* SQL result ordering (`ORDER BY`) is embedded where a caller could
  observe it through indexing (monthly trends); where callers are
  order-insensitive (existence checks, sums) the ordering clause is
  dropped with a note at the definition.
-/

namespace AuditAI

/-! ### Generic list helpers -/

/-- First-occurrence deduplication, the order in which better-sqlite3
returns `GROUP BY` groups over our list-modelled tables. -/
def uniq {α : Type} [DecidableEq α] (l : List α) : List α :=
  l.foldl (fun acc x => if x ∈ acc then acc else acc ++ [x]) []

/-- Insert into a list keeping a greatest-first order described by `ge`. -/
def insertOrd {α : Type} (ge : α → α → Bool) (x : α) : List α → List α
  | [] => [x]
  | y :: ys => if ge x y then x :: y :: ys else y :: insertOrd ge x ys

/-- Insertion sort, greatest first; models SQL `ORDER BY ... DESC`. -/
def sortDesc {α : Type} (ge : α → α → Bool) (l : List α) : List α :=
  l.foldr (insertOrd ge) []

theorem mem_insertOrd {α : Type} (ge : α → α → Bool) (x : α) (l : List α) (z : α) :
    z ∈ insertOrd ge x l ↔ z = x ∨ z ∈ l := by
  induction l with
  | nil => simp [insertOrd]
  | cons y ys ih =>
      by_cases h : ge x y = true
      · simp [insertOrd, h]
      · simp only [insertOrd, h, if_neg]
        simp [ih]
        tauto

theorem mem_sortDesc {α : Type} (ge : α → α → Bool) (l : List α) (z : α) :
    z ∈ sortDesc ge l ↔ z ∈ l := by
  induction l with
  | nil => simp [sortDesc]
  | cons y ys ih =>
      simp only [sortDesc, List.foldr_cons] at *
      rw [mem_insertOrd, ih]
      simp

/-! ### Characters and SQL LIKE

SQLite's `LIKE` is case-insensitive for the ASCII letters A-Z; `%`
matches any sequence of characters and `_` any single character.  The
matcher below is structurally recursive on the pattern; `suffixAny f s`
tests `f` on every suffix of `s`, which is exactly the behaviour of a
`%` wildcard. -/

/-- ASCII lower-casing, as SQLite applies to `LIKE` operands. -/
def lowChar (c : Char) : Char :=
  if 'A' ≤ c ∧ c ≤ 'Z' then Char.ofNat (c.toNat + 32) else c

/-- Does `f` hold on some suffix of the list (the list itself included)? -/
def suffixAny (f : List Char → Bool) : List Char → Bool
  | [] => f []
  | c :: s => f (c :: s) || suffixAny f s

/-- SQLite `LIKE` pattern matching (no ESCAPE clause). -/
def likeM : List Char → List Char → Bool
  | [], s => s.isEmpty
  | c :: p, s =>
    if c = '%' then suffixAny (likeM p) s
    else
      match s with
      | [] => false
      | d :: s2 =>
          (if c = '_' then true else lowChar c == lowChar d) && likeM p s2

/-- The pattern the repository builds for a vendor name: `%vendor%`. -/
def likePattern (vendor : String) : List Char :=
  '%' :: (vendor.data ++ ['%'])

/-! ### Calendar dates -/

/-- A calendar date, standing for an ISO `YYYY-MM-DD` date string. -/
structure CalDate where
  y : Int
  m : Nat
  d : Nat
deriving DecidableEq

/-- Days since 1970-01-01 of a civil date (standard civil-from-days
correspondence).  Chronological comparison of ISO date strings is
comparison of these numbers. -/
def toEpochDay (dt : CalDate) : Int :=
  let yv : Int := if dt.m ≤ 2 then dt.y - 1 else dt.y
  let era : Int := Int.fdiv yv 400
  let yoe : Int := yv - era * 400
  let mp : Int := Int.emod (Int.ofNat dt.m + 9) 12
  let doy : Int := Int.fdiv (153 * mp + 2) 5 + Int.ofNat dt.d - 1
  let doe : Int := yoe * 365 + Int.fdiv yoe 4 - Int.fdiv yoe 100 + doy
  era * 146097 + doe - 719468

/-- Epoch day of `dt` shifted by `k` calendar months, keeping the
day-of-month and normalising overflow the way SQLite's
`date(d, k || ' months')` and the JS `Date` constructor do. -/
def monthsPlus (dt : CalDate) (k : Int) : Int :=
  let t : Int := dt.y * 12 + (Int.ofNat dt.m - 1) + k
  toEpochDay ⟨Int.fdiv t 12, (Int.emod t 12).toNat + 1, 1⟩ + (Int.ofNat dt.d - 1)

/-- Year and month of `dt` shifted by `k` months (normalised). -/
def monthShift (dt : CalDate) (k : Nat) : Int × Nat :=
  let t : Int := dt.y * 12 + (Int.ofNat dt.m - 1) + (k : Int)
  (Int.fdiv t 12, (Int.emod t 12).toNat + 1)

/-- The wall clock of a run: the current calendar day (`date('now')`,
`toDateString`) and the current millisecond timestamp (`Date.now()`). -/
structure Clock where
  today : CalDate
  nowMs : Int
deriving DecidableEq

/-! ### Data model -/

inductive TxnType | income | expense
deriving DecidableEq

inductive Severity | info | warning | critical
deriving DecidableEq

inductive AlertType | budget_overrun | low_cash | anomaly | goal_progress | trend | custom
deriving DecidableEq

inductive Freq | daily | weekly | monthly | quarterly | yearly
deriving DecidableEq

inductive GoalStatus | active | completed | cancelled
deriving DecidableEq

inductive Role | user | model
deriving DecidableEq

inductive Period | monthly | quarterly | yearly
deriving DecidableEq

inductive BStatus | under | on_track | over
deriving DecidableEq

structure Txn where
  id : Nat
  user_id : String
  date : CalDate
  description : String
  amount : ℚ
  category : String
  type : TxnType
deriving DecidableEq

structure Budget where
  id : Nat
  user_id : String
  category : String
  amount : ℚ
  period : Period
  start_date : CalDate
  end_date : Option CalDate
  alert_threshold : Option ℚ
deriving DecidableEq

structure BudgetVariance where
  budget : Budget
  actual : ℚ
  variance : ℚ
  variancePercentage : ℚ
  status : BStatus
deriving DecidableEq

structure FinancialGoal where
  id : Nat
  user_id : String
  goal_type : String
  target_amount : ℚ
  current_amount : ℚ
  deadline : Option CalDate
  description : Option String
  status : GoalStatus
  created_at : Option Int
deriving DecidableEq

structure GoalProgress where
  goal : FinancialGoal
  progress_percentage : ℚ
  remaining_amount : ℚ
  days_remaining : Option Int
  on_track : Bool
deriving DecidableEq

/-- Stand-in rendering of a JS number inside template strings and JSON
blobs.  The dedup logic only inspects fixed keyword substrings of the
rendered text, so the exact format is immaterial. -/
def numStr (q : ℚ) : String :=
  toString q.num ++ "p" ++ toString q.den

/-- Structured model of the small objects the monitors pass through
`JSON.stringify` into the alert `data` column. -/
inductive AlertData where
  | cashLow (current_balance threshold : ℚ)
  | budgetCat (category : String) (budget actual : ℚ)
  | goalRisk (goal_id : Nat) (progress : ℚ)
  | goalMilestone (goal_id : Nat) (milestone : Nat)
  | trendPrevCur (isRevenue : Bool) (previous current : ℚ)
  | anomalyTx (transaction_id : Nat)
deriving DecidableEq

/-- Lower-case hexadecimal digit (for the `\uNNNN` escapes of
`JSON.stringify`). -/
def hexDigit (n : Nat) : Char :=
  if n < 10 then Char.ofNat (48 + n) else Char.ofNat (87 + n)

/-- The escaping `JSON.stringify` applies inside a string value: quote
and backslash are backslash-escaped, control characters become their
two-character or `\u00NN` escapes, everything else passes through. -/
def jsonEscChar (ch : Char) : List Char :=
  if ch = '"' then ['\\', '"']
  else if ch = '\\' then ['\\', '\\']
  else if 32 ≤ ch.toNat then [ch]
  else if ch = Char.ofNat 8 then ['\\', 'b']
  else if ch = Char.ofNat 9 then ['\\', 't']
  else if ch = Char.ofNat 10 then ['\\', 'n']
  else if ch = Char.ofNat 12 then ['\\', 'f']
  else if ch = Char.ofNat 13 then ['\\', 'r']
  else ['\\', 'u', '0', '0', hexDigit (ch.toNat / 16), hexDigit (ch.toNat % 16)]

/-- `JSON.stringify` escaping of a whole string value. -/
def jsonEscape (s : String) : String :=
  ⟨s.data.foldr (fun ch acc => jsonEscChar ch ++ acc) []⟩

/-- A string `JSON.stringify` leaves unchanged: no quote, no backslash,
no control character. -/
def jsonPlain (s : String) : Prop :=
  ∀ ch ∈ s.data, ¬ch = '"' ∧ ¬ch = '\\' ∧ 32 ≤ ch.toNat

/-- Rendering of the `data` payload, mirroring the field order of the
objects passed to `JSON.stringify` (outer braces elided); the one
free-form string value, the budget category, is escaped exactly as
`JSON.stringify` escapes it. -/
def renderData : AlertData → String
  | .cashLow b t =>
      "\"current_balance\":" ++ numStr b ++ ",\"threshold\":" ++ numStr t
  | .budgetCat c b a =>
      "\"category\":\"" ++ jsonEscape c ++ "\",\"budget\":" ++ numStr b ++ ",\"actual\":" ++ numStr a
  | .goalRisk g p =>
      "\"goal_id\":" ++ toString g ++ ",\"progress\":" ++ numStr p
  | .goalMilestone g m =>
      "\"goal_id\":" ++ toString g ++ ",\"milestone\":" ++ toString m
  | .trendPrevCur _ p c =>
      "\"previous\":" ++ numStr p ++ ",\"current\":" ++ numStr c
  | .anomalyTx t =>
      "\"transaction_id\":" ++ toString t

structure Alert where
  id : Nat
  user_id : String
  alert_type : AlertType
  severity : Severity
  title : String
  message : String
  data : Option AlertData
  read : Nat
  dismissed : Nat
  created_at : CalDate
deriving DecidableEq

structure Anomaly where
  id : Nat
  user_id : String
  transaction_id : Nat
  anomaly_type : String
  severity : ℚ
  description : String
  reviewed : Nat
  false_positive : Nat
deriving DecidableEq

structure RecurringTxn where
  id : Nat
  user_id : String
  description : String
  amount : ℚ
  category : String
  type : TxnType
  frequency : Freq
  confidence : ℚ
  last_occurrence : CalDate
  next_expected : Int
deriving DecidableEq

structure CashFlowForecast where
  id : Nat
  user_id : String
  forecast_y : Int
  forecast_m : Nat
  projected_income : ℚ
  projected_expenses : ℚ
  projected_balance : ℚ
  confidence_level : ℚ
  assumptions : String
deriving DecidableEq

structure ConvMessage where
  id : Nat
  user_id : String
  role : Role
  content : String
deriving DecidableEq

structure Notification where
  id : Nat
  user_id : String
  title : String
  message : String
  ntype : String
deriving DecidableEq

/-- The persistent store (the SQLite database), with the auto-increment
rowid counters made explicit. -/
structure Db where
  transactions : List Txn
  budgets : List Budget
  goals : List FinancialGoal
  alerts : List Alert
  anomalies : List Anomaly
  recurrings : List RecurringTxn
  forecasts : List CashFlowForecast
  conversations : List ConvMessage
  notifications : List Notification
  nextTxnId : Nat
  nextAlertId : Nat
  nextAnomalyId : Nat
  nextRecurringId : Nat
  nextForecastId : Nat
  nextConvId : Nat
  nextNotifId : Nat
deriving DecidableEq

/-! ### transactionRepository -/

namespace TransactionRepository

/-- `addTransaction`: INSERT INTO transactions; returns the new rowid. -/
def addTransaction (user_id : String) (date : CalDate) (description : String)
    (amount : ℚ) (category : String) (ty : TxnType) (s : Db) : Db × Nat :=
  let tid := s.nextTxnId
  ({ s with
      transactions := s.transactions ++ [⟨tid, user_id, date, description, amount, category, ty⟩],
      nextTxnId := tid + 1 }, tid)

structure FinSummary where
  revenue : ℚ
  expenses : ℚ
  profit : ℚ
deriving DecidableEq

/-- `getFinancialSummary`: SUMs of income and expense amounts; the SQL
`|| 0` null-fallbacks are the empty-sum-is-zero convention here. -/
def getFinancialSummary (uid : String) (s : Db) : FinSummary :=
  let mine := s.transactions.filter (fun t => t.user_id == uid)
  let revenue := (mine.map (fun t => if t.type = TxnType.income then t.amount else 0)).sum
  let expenses := (mine.map (fun t => if t.type = TxnType.expense then t.amount else 0)).sum
  ⟨revenue, expenses, revenue - expenses⟩

/-- `getTransactionsByCategory` without the optional date bounds, as its
caller `detectAnomalies` invokes it.  The `ORDER BY date DESC` is
dropped: the caller only averages the amounts. -/
def getTransactionsByCategory (uid category : String) (s : Db) : List Txn :=
  s.transactions.filter (fun t => t.user_id == uid && t.category == category)

/-- `getAnomalousTransactions`: for each (category, type) group of the
user's transactions with at least 3 rows, the rows whose amount exceeds
the group mean times `threshold`, sorted amount-descending per group. -/
def getAnomalousTransactions (uid : String) (threshold : ℚ) (s : Db) : List Txn :=
  let mine := s.transactions.filter (fun t => t.user_id == uid)
  let pairs := uniq (mine.map (fun t => (t.category, t.type)))
  pairs.foldl (fun acc pr =>
    let grp := mine.filter (fun t => t.category == pr.1 && decide (t.type = pr.2))
    if 3 ≤ grp.length then
      let avgAmount := (grp.map Txn.amount).sum / (grp.length : ℚ)
      acc ++ sortDesc (fun a b => decide (a.amount ≥ b.amount))
        (grp.filter (fun t => decide (t.amount > avgAmount * threshold)))
    else acc) []

structure RecurPattern where
  description : String
  category : String
  type : TxnType
  avg_amount : ℚ
  occurrence_count : Nat
  first_date : CalDate
  last_date : CalDate
deriving DecidableEq

/-- MIN(date) over a group (chronological = ISO-string minimum). -/
def minDateOf (l : List Txn) : CalDate :=
  l.foldl (fun acc t => if toEpochDay t.date < toEpochDay acc then t.date else acc)
    (match l with | [] => ⟨0, 1, 1⟩ | t :: _ => t.date)

/-- MAX(date) over a group. -/
def maxDateOf (l : List Txn) : CalDate :=
  l.foldl (fun acc t => if toEpochDay acc < toEpochDay t.date then t.date else acc)
    (match l with | [] => ⟨0, 1, 1⟩ | t :: _ => t.date)

/-- `detectRecurringTransactions`: GROUP BY (description, category, type)
HAVING count ≥ 3, with AVG(amount), MIN(date), MAX(date), sorted by
occurrence count descending. -/
def detectRecurringTransactions (uid : String) (s : Db) : List RecurPattern :=
  let mine := s.transactions.filter (fun t => t.user_id == uid)
  let triples := uniq (mine.map (fun t => (t.description, t.category, t.type)))
  let pats := triples.foldl (fun acc tr =>
    let grp := mine.filter (fun t =>
      t.description == tr.1 && t.category == tr.2.1 && decide (t.type = tr.2.2))
    if 3 ≤ grp.length then
      acc ++ [⟨tr.1, tr.2.1, tr.2.2, (grp.map Txn.amount).sum / (grp.length : ℚ),
              grp.length, minDateOf grp, maxDateOf grp⟩]
    else acc) []
  sortDesc (fun a b => decide (a.occurrence_count ≥ b.occurrence_count)) pats

/-- The row-matching predicate of `bulkUpdateCategory`'s UPDATE:
`user_id = ? AND description LIKE '%' || vendor || '%'`. -/
def bulkMatch (uid vendorName : String) (t : Txn) : Bool :=
  t.user_id == uid && likeM (likePattern vendorName) t.description.data

/-- `bulkUpdateCategory`: UPDATE ... SET category; returns
`info.changes`, the number of rows the WHERE clause matched. -/
def bulkUpdateCategory (uid vendorName newCategory : String) (s : Db) : Db × Nat :=
  ({ s with transactions := s.transactions.map (fun t =>
      if bulkMatch uid vendorName t then { t with category := newCategory } else t) },
   (s.transactions.filter (bulkMatch uid vendorName)).length)

end TransactionRepository

/-! ### alertRepository -/

namespace AlertRepository

/-- `createAlert` (all call sites pass read = dismissed = 0; the
`|| 0` fallbacks are therefore inlined); `created_at` is the SQLite
CURRENT_TIMESTAMP, modelled by the clock's current day. -/
def createAlert (c : Clock) (uid : String) (ty : AlertType) (sev : Severity)
    (title msg : String) (payload : Option AlertData) (s : Db) : Db :=
  { s with
      alerts := s.alerts ++ [⟨s.nextAlertId, uid, ty, sev, title, msg, payload, 0, 0, c.today⟩],
      nextAlertId := s.nextAlertId + 1 }

/-- `getAlerts` with its read/dismissed visibility switches; the
`ORDER BY created_at DESC` is dropped (all callers use existence
checks and counts only). -/
def getAlerts (uid : String) (includeRead includeDismissed : Bool) (s : Db) : List Alert :=
  s.alerts.filter (fun a => a.user_id == uid
    && (includeRead || a.read == 0)
    && (includeDismissed || a.dismissed == 0))

/-- `createAnomaly` (callers pass reviewed = false_positive = 0). -/
def createAnomaly (uid : String) (tid : Nat) (atype : String) (sev : ℚ)
    (desc : String) (s : Db) : Db :=
  { s with
      anomalies := s.anomalies ++ [⟨s.nextAnomalyId, uid, tid, atype, sev, desc, 0, 0⟩],
      nextAnomalyId := s.nextAnomalyId + 1 }

/-- `getAnomalies`; `ORDER BY severity DESC, detected_at DESC` dropped
(callers check membership only). -/
def getAnomalies (uid : String) (includeReviewed : Bool) (s : Db) : List Anomaly :=
  s.anomalies.filter (fun a => a.user_id == uid && (includeReviewed || a.reviewed == 0))

/-- `createRecurringTransaction`. -/
def createRecurringTransaction (uid desc : String) (amt : ℚ) (cat : String)
    (ty : TxnType) (fr : Freq) (conf : ℚ) (lastOcc : CalDate) (nextExp : Int)
    (s : Db) : Db :=
  { s with
      recurrings := s.recurrings ++
        [⟨s.nextRecurringId, uid, desc, amt, cat, ty, fr, conf, lastOcc, nextExp⟩],
      nextRecurringId := s.nextRecurringId + 1 }

/-- `getRecurringTransactions`; ordering dropped (membership only). -/
def getRecurringTransactions (uid : String) (s : Db) : List RecurringTxn :=
  s.recurrings.filter (fun r => r.user_id == uid)

end AlertRepository

/-! ### budgetRepository -/

namespace BudgetRepository

/-- The JS default `budget.alert_threshold || 0.9`: both a missing and a
zero (falsy) threshold fall back to 0.9. -/
def thresholdOr (t : Option ℚ) : ℚ :=
  match t with
  | none => 9 / 10
  | some v => if v = 0 then 9 / 10 else v

/-- `getActiveBudgets`: start_date ≤ today and (no end_date or
today ≤ end_date); `ORDER BY category` dropped (callers map over it). -/
def getActiveBudgets (uid : String) (c : Clock) (s : Db) : List Budget :=
  s.budgets.filter (fun b => b.user_id == uid
    && decide (toEpochDay b.start_date ≤ toEpochDay c.today)
    && (match b.end_date with
        | none => true
        | some e => decide (toEpochDay c.today ≤ toEpochDay e)))

/-- The SUM of the user's expense transactions of a category inside the
requested range (the inner query of `getBudgetVariance`). -/
def actualSpend (uid category : String) (startD endD : CalDate) (s : Db) : ℚ :=
  ((s.transactions.filter (fun t => t.user_id == uid
      && t.category == category
      && decide (toEpochDay startD ≤ toEpochDay t.date)
      && decide (toEpochDay t.date ≤ toEpochDay endD)
      && decide (t.type = TxnType.expense))).map Txn.amount).sum

/-- The variance record `getBudgetVariance` builds for one budget. -/
def varianceOf (uid : String) (startD endD : CalDate) (s : Db) (b : Budget) : BudgetVariance :=
  let actual := actualSpend uid b.category startD endD s
  let variance := b.amount - actual
  let variancePercentage := if 0 < b.amount then variance / b.amount * 100 else 0
  let threshold := thresholdOr b.alert_threshold
  let status := if b.amount < actual then BStatus.over
    else if actual < b.amount * threshold then BStatus.under
    else BStatus.on_track
  ⟨b, actual, variance, variancePercentage, status⟩

/-- `getBudgetVariance`: per active budget, the sum of the user's expense
transactions of that category inside [startD, endD], and the derived
variance fields and status. -/
def getBudgetVariance (uid : String) (startD endD : CalDate) (c : Clock) (s : Db) :
    List BudgetVariance :=
  (getActiveBudgets uid c s).map (varianceOf uid startD endD s)

/-- The filter of `checkBudgetAlerts`:
`v.status === 'over' || v.actual / v.budget.amount >= threshold`.
A zero budget amount makes the JS quotient Infinity (when actual > 0,
so the comparison holds) or NaN (when actual = 0, so it fails); the
conditional spells this out since ℚ has no such values. -/
def nearThreshold (v : BudgetVariance) : Bool :=
  decide (v.status = BStatus.over) ||
    (if v.budget.amount = 0 then decide (0 < v.actual)
     else decide (v.actual / v.budget.amount ≥ thresholdOr v.budget.alert_threshold))

/-- `checkBudgetAlerts`: variance over the current calendar month
(first of the month to today), filtered to over/near-threshold rows. -/
def checkBudgetAlerts (uid : String) (c : Clock) (s : Db) : List BudgetVariance :=
  (getBudgetVariance uid ⟨c.today.y, c.today.m, 1⟩ c.today c s).filter nearThreshold

end BudgetRepository

/-! ### goalRepository -/

namespace GoalRepository

/-- `getGoals`, with the optional status restriction; `ORDER BY
created_at DESC` dropped (stored order is creation order and callers are
membership-insensitive to it). -/
def getGoals (uid : String) (st : Option GoalStatus) (s : Db) : List FinancialGoal :=
  s.goals.filter (fun g => g.user_id == uid
    && (match st with | none => true | some v => decide (g.status = v)))

/-- `getGoalProgress`: progress percentage, remaining amount, whole-day
ceilings for the deadline arithmetic, and the 90%-of-expected on-track
heuristic.  `new Date(goal.deadline)` is UTC midnight of that day, so
its millisecond value is the epoch day times 86400000; a missing
`created_at` falls back to `now` as in the source. -/
def getGoalProgress (uid : String) (c : Clock) (s : Db) : List GoalProgress :=
  (getGoals uid (some GoalStatus.active) s).map (fun g =>
    let pct : ℚ := if 0 < g.target_amount then g.current_amount / g.target_amount * 100 else 0
    let remaining := g.target_amount - g.current_amount
    match g.deadline with
    | none => ⟨g, pct, remaining, none, true⟩
    | some dl =>
        let dlMs : ℚ := ((toEpochDay dl * 86400000 : Int) : ℚ)
        let days : Int := ⌈(dlMs - (c.nowMs : ℚ)) / 86400000⌉
        let createdMs : ℚ := ((g.created_at.getD c.nowMs : Int) : ℚ)
        let totalDays : Int := ⌈(dlMs - createdMs) / 86400000⌉
        let elapsedDays : Int := ⌈((c.nowMs : ℚ) - createdMs) / 86400000⌉
        let expected : ℚ := if 0 < totalDays then ((elapsedDays : ℚ) / (totalDays : ℚ)) * 100 else 0
        ⟨g, pct, remaining, some days, decide (pct ≥ expected * (9 / 10))⟩)

/-- The SELECT of `checkGoalCompletion`: the user's active goals whose
current amount has reached the target. -/
def completionDue (uid : String) (g : FinancialGoal) : Bool :=
  g.user_id == uid && decide (g.status = GoalStatus.active)
    && decide (g.target_amount ≤ g.current_amount)

/-- `checkGoalCompletion`: select the due goals, then UPDATE each of them
(by rowid, guarded by the JS truthiness check `if (goal.id)`) to status
completed; the selected rows are returned. -/
def checkGoalCompletion (uid : String) (s : Db) : Db × List FinancialGoal :=
  let completedGoals := s.goals.filter (completionDue uid)
  let newGoals := completedGoals.foldl (fun gs g =>
      if g.id == 0 then gs
      else gs.map (fun g2 => if g2.id == g.id then { g2 with status := GoalStatus.completed } else g2))
    s.goals
  ({ s with goals := newGoals }, completedGoals)

end GoalRepository

/-! ### analyticsRepository -/

namespace AnalyticsRepository

structure TrendData where
  period_y : Int
  period_m : Nat
  income : ℚ
  expenses : ℚ
  profit : ℚ
deriving DecidableEq

/-- `getMonthlyTrends`: transactions of the trailing `months` months
(SQLite `date('now', '-N months')` cutoff), grouped by calendar month
(`strftime('%Y-%m')`), newest month first. -/
def getMonthlyTrends (uid : String) (months : Nat) (c : Clock) (s : Db) : List TrendData :=
  let cutoff := monthsPlus c.today (-(months : Int))
  let rows := s.transactions.filter (fun t => t.user_id == uid
    && decide (cutoff ≤ toEpochDay t.date))
  let keys := uniq (rows.map (fun t => (t.date.y, t.date.m)))
  let sorted := sortDesc (fun a b =>
    decide (b.1 < a.1 ∨ (a.1 = b.1 ∧ b.2 ≤ a.2))) keys
  sorted.map (fun k =>
    let grp := rows.filter (fun t => decide (t.date.y = k.1) && decide (t.date.m = k.2))
    ⟨k.1, k.2,
     (grp.map (fun t => if t.type = TxnType.income then t.amount else 0)).sum,
     (grp.map (fun t => if t.type = TxnType.expense then t.amount else 0)).sum,
     (grp.map (fun t => if t.type = TxnType.income then t.amount else -t.amount)).sum⟩)

/-- `saveForecast`: INSERT INTO cash_flow_forecasts. -/
def saveForecast (uid : String) (fy : Int) (fm : Nat) (pi pe pb cl : ℚ)
    (assumptions : String) (s : Db) : Db :=
  { s with
      forecasts := s.forecasts ++ [⟨s.nextForecastId, uid, fy, fm, pi, pe, pb, cl, assumptions⟩],
      nextForecastId := s.nextForecastId + 1 }

end AnalyticsRepository

/-! ### conversationRepository and notificationRepository -/

namespace ConversationRepository

/-- `saveMessage`: INSERT INTO conversations (the uuid message_id is
subsumed by the rowid in this model). -/
def saveMessage (uid : String) (role : Role) (content : String) (s : Db) : Db :=
  { s with
      conversations := s.conversations ++ [⟨s.nextConvId, uid, role, content⟩],
      nextConvId := s.nextConvId + 1 }

end ConversationRepository

namespace NotificationRepository

/-- `createNotification`. -/
def createNotification (uid title msg ntype : String) (s : Db) : Db :=
  { s with
      notifications := s.notifications ++ [⟨s.nextNotifId, uid, title, msg, ntype⟩],
      nextNotifId := s.nextNotifId + 1 }

end NotificationRepository

/-! ### financialIntelligenceService -/

namespace FinancialIntelligenceService

/-- `calculateGrowthRate`: oldest-vs-newest growth over the series
(which arrives newest first), divided by the number of steps. -/
def calculateGrowthRate (values : List ℚ) : ℚ :=
  if values.length < 2 then 0
  else
    let first := values.getLastD 0
    let last := values.headD 0
    if first = 0 then 0
    else ((last - first) / first) / ((values.length : ℚ) - 1)

structure CashFlowProjection where
  month_y : Int
  month_m : Nat
  projected_income : ℚ
  projected_expenses : ℚ
  projected_balance : ℚ
  confidence : ℚ
deriving DecidableEq

/-- The assumptions audit string saved with each forecast row. -/
def assumptionsText (n : Nat) (gI gE : ℚ) : String :=
  "Based on " ++ toString n ++ " months of historical data with " ++ numStr (gI * 100)
    ++ "% income growth and " ++ numStr (gE * 100) ++ "% expense growth"

/-- The projection loop of `forecastCashFlow` (`for i = 1..months`):
`i` is the current loop index, `rem` the remaining iterations, `bal` the
running (unrounded) balance.  The pushed projection carries
`Math.round`ed figures; the persisted forecast row carries the raw
ones, exactly as in the source. -/
def fcLoop (uid : String) (c : Clock) (avgI avgE gI gE : ℚ) (assumptions : String) :
    Nat → Nat → ℚ → Db → Db × List CashFlowProjection
  | _, 0, _, s => (s, [])
  | i, rem + 1, bal, s =>
    let ym := monthShift c.today i
    let projectedIncome := avgI * (1 + gI) ^ i
    let projectedExpenses := avgE * (1 + gE) ^ i
    let bal2 := bal + (projectedIncome - projectedExpenses)
    let confidence := max (1 / 2) (9 / 10 - (i : ℚ) * (1 / 10))
    let proj : CashFlowProjection :=
      ⟨ym.1, ym.2, ((round projectedIncome : Int) : ℚ), ((round projectedExpenses : Int) : ℚ),
       ((round bal2 : Int) : ℚ), confidence⟩
    let s2 := AnalyticsRepository.saveForecast uid ym.1 ym.2 projectedIncome projectedExpenses
      bal2 confidence assumptions s
    let next := fcLoop uid c avgI avgE gI gE assumptions (i + 1) rem bal2 s2
    (next.1, proj :: next.2)

/-- `forecastCashFlow`: trailing 6-month trends, empty result below 2
months of data, otherwise the growth-extrapolated projection loop
seeded with the financial-summary profit. -/
def forecastCashFlow (uid : String) (months : Nat) (c : Clock) (s : Db) :
    Db × List CashFlowProjection :=
  let trends := AnalyticsRepository.getMonthlyTrends uid 6 c s
  if trends.length < 2 then (s, [])
  else
    let avgIncome := (trends.map AnalyticsRepository.TrendData.income).sum / (trends.length : ℚ)
    let avgExpenses := (trends.map AnalyticsRepository.TrendData.expenses).sum / (trends.length : ℚ)
    let incomeGrowth := calculateGrowthRate (trends.map AnalyticsRepository.TrendData.income)
    let expenseGrowth := calculateGrowthRate (trends.map AnalyticsRepository.TrendData.expenses)
    let summary := TransactionRepository.getFinancialSummary uid s
    fcLoop uid c avgIncome avgExpenses incomeGrowth expenseGrowth
      (assumptionsText trends.length incomeGrowth expenseGrowth) 1 months summary.profit s

/-- Anomaly record description text. -/
def anomalyDescription (t : Txn) (sev : ℚ) : String :=
  "Transaction of $" ++ numStr t.amount ++ " for " ++ t.description ++ " is "
    ++ numStr sev ++ "x higher than average for " ++ t.category

/-- Anomaly alert message text. -/
def anomalyAlertMessage (t : Txn) : String :=
  "A transaction of $" ++ numStr t.amount ++ " for \"" ++ t.description
    ++ "\" is significantly higher than your typical " ++ t.category ++ " expenses."

/-- The processing of one flagged transaction inside `detectAnomalies`:
skip when a non-reviewed anomaly record for the transaction already
exists (or the id is falsy), otherwise record an anomaly whose severity
is the amount over the mean of all transactions of the category (both
types — this is `getTransactionsByCategory`, not the per-(category,type)
mean of the detector), and raise an anomaly alert. -/
def anomalyStep (uid : String) (c : Clock) (st : Db) (t : Txn) : Db :=
  let existing := AlertRepository.getAnomalies uid false st
  let alreadyRecorded := existing.any (fun a => a.transaction_id == t.id)
  if alreadyRecorded then st
  else if t.id == 0 then st
  else
    let categoryTransactions := TransactionRepository.getTransactionsByCategory uid t.category st
    let avg := (categoryTransactions.map Txn.amount).sum / (categoryTransactions.length : ℚ)
    let severity := t.amount / avg
    let st1 := AlertRepository.createAnomaly uid t.id "unusual_amount" severity
      (anomalyDescription t severity) st
    AlertRepository.createAlert c uid AlertType.anomaly
      (if 5 < severity then Severity.critical else Severity.warning)
      "Unusual Transaction Detected" (anomalyAlertMessage t)
      (some (AlertData.anomalyTx t.id)) st1

/-- `detectAnomalies`. -/
def detectAnomalies (uid : String) (c : Clock) (s : Db) : Db :=
  (TransactionRepository.getAnomalousTransactions uid 3 s).foldl (anomalyStep uid c) s

/-- The frequency classification of `detectRecurringPatterns`. -/
def classifyFrequency (avgDaysBetween : ℚ) : Freq :=
  if avgDaysBetween ≤ 2 then Freq.daily
  else if avgDaysBetween ≤ 9 then Freq.weekly
  else if avgDaysBetween ≤ 40 then Freq.monthly
  else if avgDaysBetween ≤ 120 then Freq.quarterly
  else Freq.yearly

/-- `calculateNextExpected` (as an epoch day; the JS setDate/setMonth
normalisation is month arithmetic with day-overflow carried). -/
def calculateNextExpected (lastDate : CalDate) (f : Freq) : Int :=
  match f with
  | Freq.daily => toEpochDay lastDate + 1
  | Freq.weekly => toEpochDay lastDate + 7
  | Freq.monthly => monthsPlus lastDate 1
  | Freq.quarterly => monthsPlus lastDate 3
  | Freq.yearly => monthsPlus lastDate 12

/-- The recurring row `detectRecurringPatterns` builds for a pattern
(the id is the rowid the insert will assign). -/
def recurringOf (uid : String) (rid : Nat) (p : TransactionRepository.RecurPattern) :
    RecurringTxn :=
  let daysDiff : ℚ := ((toEpochDay p.last_date - toEpochDay p.first_date : Int) : ℚ)
  let avgDaysBetween := daysDiff / ((p.occurrence_count : ℚ) - 1)
  let frequency := classifyFrequency avgDaysBetween
  ⟨rid, uid, p.description, p.avg_amount, p.category, p.type, frequency,
   min (19 / 20) ((p.occurrence_count : ℚ) / 10), p.last_date,
   calculateNextExpected p.last_date frequency⟩

/-- One pattern of `detectRecurringPatterns`: skip when a recurring row
with the same description and category already exists (the type is not
part of the check), otherwise insert and report the new row. -/
def recurringStep (uid : String) (acc : Db × List RecurringTxn)
    (p : TransactionRepository.RecurPattern) : Db × List RecurringTxn :=
  let existing := AlertRepository.getRecurringTransactions uid acc.1
  let alreadyExists := existing.any (fun r =>
    r.description == p.description && r.category == p.category)
  if alreadyExists then acc
  else
    let r := recurringOf uid acc.1.nextRecurringId p
    (AlertRepository.createRecurringTransaction uid r.description r.amount r.category r.type
      r.frequency r.confidence r.last_occurrence r.next_expected acc.1,
     acc.2 ++ [r])

/-- `detectRecurringPatterns`. -/
def detectRecurringPatterns (uid : String) (s : Db) : Db × List RecurringTxn :=
  (TransactionRepository.detectRecurringTransactions uid s).foldl (recurringStep uid) (s, [])

end FinancialIntelligenceService

/-! ### notificationService (the monitoring subsystem) -/

namespace NotificationService

/-- Substring test on an optional data blob: `a.data?.includes(x)`
(undefined data is falsy). -/
def dataIncl (d : Option AlertData) (needle : String) : Bool :=
  match d with
  | none => false
  | some payload => decide (needle.data <:+: (renderData payload).data)

/-- Low-cash alert message. -/
def lowCashMessage (profit threshold : ℚ) : String :=
  "Your cash balance is $" ++ numStr profit
    ++ ", which is below the recommended threshold of $" ++ numStr threshold ++ "."

/-- `monitorCashBalance` (default threshold 5000): alert when the
profit is below the threshold, unless a visible low-cash alert of today
already exists. -/
def monitorCashBalance (uid : String) (threshold : ℚ) (c : Clock) (s : Db) : Db :=
  let summary := TransactionRepository.getFinancialSummary uid s
  if summary.profit < threshold then
    let existingAlerts := AlertRepository.getAlerts uid false false s
    let hasRecentCashAlert := existingAlerts.any (fun a =>
      decide (a.alert_type = AlertType.low_cash) && decide (a.created_at = c.today))
    if hasRecentCashAlert then s
    else AlertRepository.createAlert c uid AlertType.low_cash
      (if summary.profit < threshold * (1 / 2) then Severity.critical else Severity.warning)
      "Low Cash Reserves" (lowCashMessage summary.profit threshold)
      (some (AlertData.cashLow summary.profit threshold)) s
  else s

/-- Budget alert message. -/
def budgetAlertMessage (v : BudgetVariance) : String :=
  "You have spent $" ++ numStr v.actual ++ " against a budget of $"
    ++ numStr v.budget.amount ++ " (" ++ numStr |v.variancePercentage| ++ "% over)."

/-- The same-day same-category dedup check of `monitorBudgets`. -/
def budgetBlocked (uid : String) (c : Clock) (st : Db) (v : BudgetVariance) : Bool :=
  (AlertRepository.getAlerts uid false false st).any (fun a =>
    decide (a.alert_type = AlertType.budget_overrun)
      && dataIncl a.data v.budget.category && decide (a.created_at = c.today))

/-- One variance of the `monitorBudgets` loop. -/
def budgetStep (uid : String) (c : Clock) (st : Db) (v : BudgetVariance) : Db :=
  if budgetBlocked uid c st v then st
  else AlertRepository.createAlert c uid AlertType.budget_overrun
    (if v.budget.amount * (6 / 5) < v.actual then Severity.critical else Severity.warning)
    (v.budget.category ++ " Budget Alert") (budgetAlertMessage v)
    (some (AlertData.budgetCat v.budget.category v.budget.amount v.actual)) st

/-- `monitorBudgets`. -/
def monitorBudgets (uid : String) (c : Clock) (s : Db) : Db :=
  (BudgetRepository.checkBudgetAlerts uid c s).foldl (budgetStep uid c) s

/-- Goal at-risk condition: `progress.days_remaining &&
progress.days_remaining < 30 && !progress.on_track` (a zero
days_remaining is falsy). -/
def goalRiskCondition (p : GoalProgress) : Bool :=
  match p.days_remaining with
  | none => false
  | some d => decide (d ≠ 0) && decide (d < 30) && !p.on_track

/-- Goal milestone condition: progress in [50, 55) and on track. -/
def goalMilestoneCondition (p : GoalProgress) : Bool :=
  decide (50 ≤ p.progress_percentage) && decide (p.progress_percentage < 55) && p.on_track

/-- The same-day same-goal dedup check of the at-risk branch. -/
def goalRiskBlocked (uid : String) (c : Clock) (st : Db) (p : GoalProgress) : Bool :=
  (AlertRepository.getAlerts uid false false st).any (fun a =>
    decide (a.alert_type = AlertType.goal_progress)
      && dataIncl a.data (toString p.goal.id) && decide (a.created_at = c.today))

/-- The any-day milestone dedup check (read and dismissed alerts
included, message must mention 50%). -/
def goalMilestoneBlocked (uid : String) (st : Db) (p : GoalProgress) : Bool :=
  (AlertRepository.getAlerts uid true true st).any (fun a =>
    decide (a.alert_type = AlertType.goal_progress)
      && dataIncl a.data (toString p.goal.id)
      && decide ("50%".data <:+: a.message.data))

/-- At-risk alert message. -/
def goalRiskMessage (p : GoalProgress) : String :=
  "You are " ++ numStr p.progress_percentage ++ "% towards your goal with "
    ++ toString (p.days_remaining.getD 0) ++ " days remaining. You may need to accelerate progress."

/-- Milestone alert message (contains the literal `50%` the dedup
check looks for). -/
def goalMilestoneMessage (p : GoalProgress) : String :=
  "You have reached 50% of your " ++ (p.goal.description.getD p.goal.goal_type)
    ++ " goal. Keep up the great work!"

/-- The at-risk branch of one `monitorGoals` iteration. -/
def goalRiskPart (uid : String) (c : Clock) (st : Db) (p : GoalProgress) : Db :=
  if goalRiskCondition p then
    if goalRiskBlocked uid c st p then st
    else AlertRepository.createAlert c uid AlertType.goal_progress Severity.warning
      ("Goal At Risk: " ++ (p.goal.description.getD p.goal.goal_type))
      (goalRiskMessage p) (some (AlertData.goalRisk p.goal.id p.progress_percentage)) st
  else st

/-- The milestone branch of one `monitorGoals` iteration (checked
against the state the at-risk branch left). -/
def goalMilestonePart (uid : String) (c : Clock) (st : Db) (p : GoalProgress) : Db :=
  if goalMilestoneCondition p then
    if goalMilestoneBlocked uid st p then st
    else AlertRepository.createAlert c uid AlertType.goal_progress Severity.info
      "Halfway There!" (goalMilestoneMessage p)
      (some (AlertData.goalMilestone p.goal.id 50)) st
  else st

/-- One progress entry of the `monitorGoals` loop: the at-risk branch,
then the milestone branch (their conditions disagree on `on_track`, so
at most one fires per entry). -/
def goalStep (uid : String) (c : Clock) (st : Db) (p : GoalProgress) : Db :=
  goalMilestonePart uid c (goalRiskPart uid c st p) p

/-- `monitorGoals`. -/
def monitorGoals (uid : String) (c : Clock) (s : Db) : Db :=
  (GoalRepository.getGoalProgress uid c s).foldl (goalStep uid c) s

/-- Revenue-decline alert message (contains the keyword `revenue` the
dedup check looks for). -/
def revenueDropMessage (prev cur : ℚ) : String :=
  "Your revenue dropped by " ++ numStr ((prev - cur) / prev * 100)
    ++ "% this month compared to last month. From $" ++ numStr prev ++ " to $" ++ numStr cur ++ "."

/-- Expense-spike alert message (contains the keyword `expenses`). -/
def expenseSpikeMessage (prev cur : ℚ) : String :=
  "Your expenses increased by " ++ numStr ((cur - prev) / prev * 100)
    ++ "% this month. From $" ++ numStr prev ++ " to $" ++ numStr cur ++ "."

/-- Same-day dedup check of the trend branches, keyed on a keyword of
the message text. -/
def trendBlocked (uid : String) (c : Clock) (keyword : String) (st : Db) : Bool :=
  (AlertRepository.getAlerts uid false false st).any (fun a =>
    decide (a.alert_type = AlertType.trend)
      && decide (keyword.data <:+: a.message.data) && decide (a.created_at = c.today))

/-- The revenue-drop branch of `monitorTrends`. -/
def trendRevPart (uid : String) (c : Clock) (latestMonth previousMonth : AnalyticsRepository.TrendData)
    (s : Db) : Db :=
  if latestMonth.income < previousMonth.income * (4 / 5) then
    if trendBlocked uid c "revenue" s then s
    else AlertRepository.createAlert c uid AlertType.trend Severity.warning
      "Revenue Decline Detected" (revenueDropMessage previousMonth.income latestMonth.income)
      (some (AlertData.trendPrevCur true previousMonth.income latestMonth.income)) s
  else s

/-- The expense-spike branch of `monitorTrends` (checked against the
state the revenue branch left). -/
def trendExpPart (uid : String) (c : Clock) (latestMonth previousMonth : AnalyticsRepository.TrendData)
    (s : Db) : Db :=
  if previousMonth.expenses * (6 / 5) < latestMonth.expenses then
    if trendBlocked uid c "expenses" s then s
    else AlertRepository.createAlert c uid AlertType.trend Severity.warning
      "Expense Spike Detected" (expenseSpikeMessage previousMonth.expenses latestMonth.expenses)
      (some (AlertData.trendPrevCur false previousMonth.expenses latestMonth.expenses)) s
  else s

/-- `monitorTrends`: on the trailing 3-month trends, alert on a >20%
revenue drop and on a >20% expense rise month over month. -/
def monitorTrends (uid : String) (c : Clock) (s : Db) : Db :=
  match AnalyticsRepository.getMonthlyTrends uid 3 c s with
  | latestMonth :: previousMonth :: _ =>
      trendExpPart uid c latestMonth previousMonth
        (trendRevPart uid c latestMonth previousMonth s)
  | _ => s

/-- `runAllMonitoring`: the five monitoring passes in source order. -/
def runAllMonitoring (uid : String) (c : Clock) (s : Db) : Db :=
  FinancialIntelligenceService.detectAnomalies uid c
    (monitorTrends uid c
      (monitorGoals uid c
        (monitorBudgets uid c
          (monitorCashBalance uid 5000 c s))))

end NotificationService

/-! ### GeminiAccountantService.chat

The external model round-trips are represented by outcome parameters:
`r1` is the first `chat.sendMessage(userMessage)` (an exception
carrying an optional message text, or a text reply, or a function
call), and `r2` the optional second send that returns the function
response to the model. -/

namespace GeminiService

structure AddTxnArgs where
  description : String
  amount : ℚ
  type : TxnType
  category : String
  date : Option CalDate
deriving DecidableEq

/-- The function call emitted by the model, already dispatched by name
(`other` is any name outside the declared set). -/
inductive ToolCall where
  | addTransaction (args : AddTxnArgs)
  | generateReport (rtype : String)
  | other (name : String)
deriving DecidableEq

inductive ToolResult where
  | success (message : String) (transactionId : Option Nat)
  | failure (message : String)
deriving DecidableEq

inductive GeminiResponse where
  | text (t : String)
  | functionCall (call : ToolCall)
deriving DecidableEq

/-- The dispatch of an intercepted function call: `addTransaction`
writes the transaction (date defaulting to today) and a notification;
`generateReport` is a placeholder; an unknown name yields the structured
`Unknown function` error result. -/
def dispatchToolCall (uid : String) (c : Clock) (call : ToolCall) (s : Db) : Db × ToolResult :=
  match call with
  | ToolCall.addTransaction args =>
      let ins := TransactionRepository.addTransaction uid (args.date.getD c.today)
        args.description args.amount args.category args.type s
      (NotificationRepository.createNotification uid "New Transaction"
        ("Added " ++ (match args.type with
          | TxnType.income => "income"
          | TxnType.expense => "expense") ++ ": " ++ args.description ++ " - $" ++ numStr args.amount)
        "success" ins.1,
       ToolResult.success "Transaction added successfully" (some ins.2))
  | ToolCall.generateReport rtype =>
      (s, ToolResult.success ("Report of type " ++ rtype ++ " generated.") none)
  | ToolCall.other _ => (s, ToolResult.failure "Unknown function")

/-- The identity / API-key diagnostic (emoji elided). -/
def identityErrorText : String :=
  "AI Identity Error: Your API Key is missing or unregistered in the live settings. Please check your Railway Environment Variables."

/-- The fetch-failure diagnostic (apostrophes elided). -/
def fetchErrorText (apiKeyLength : Nat) : String :=
  "Connection Error: Gemini API is unreachable (fetch failed). This could be due to your local internet connection, a firewall, or Googles servers being temporarily down. (Hint: Your API Key length is "
    ++ toString apiKeyLength ++ ")"

/-- The generic diagnostic. -/
def genericErrorText (m : String) : String :=
  "Connection Error: " ++ m ++ ". (Hint: Check your API Key)"

/-- `error.message?.includes(x)`: false on a missing message. -/
def errIncl (e : Option String) (needle : String) : Bool :=
  match e with
  | none => false
  | some m => decide (needle.data <:+: m.data)

/-- The catch block of `chat`: classify the failure by string matching
on the error message (`error.message || "Unknown error"` treats an
empty message as missing). -/
def classifyError (e : Option String) (apiKeyLength : Nat) : String :=
  if errIncl e "403" || errIncl e "identity" then identityErrorText
  else if errIncl e "fetch failed" then fetchErrorText apiKeyLength
  else genericErrorText (match e with
    | none => "Unknown error"
    | some m => if m = "" then "Unknown error" else m)

/-- `GeminiAccountantService.chat`, one conversation turn.  On a text
reply the user and model messages are saved (in that order, after the
model has answered) and the text returned.  On a function call the
tool is dispatched and the second round-trip's text returned — this
path saves no conversation rows.  A failure of either round-trip is
caught and classified; the catch path saves nothing either. -/
def chat (uid userMessage : String) (r1 : Except (Option String) GeminiResponse)
    (r2 : Except (Option String) String) (apiKeyLength : Nat) (c : Clock) (s : Db) :
    Db × String :=
  match r1 with
  | Except.error e => (s, classifyError e apiKeyLength)
  | Except.ok (GeminiResponse.functionCall call) =>
      let step := dispatchToolCall uid c call s
      match r2 with
      | Except.error e => (step.1, classifyError e apiKeyLength)
      | Except.ok t2 => (step.1, t2)
  | Except.ok (GeminiResponse.text t) =>
      let s1 := ConversationRepository.saveMessage uid Role.user userMessage s
      let s2 := ConversationRepository.saveMessage uid Role.model t s1
      (s2, t)

end GeminiService

/-! ### Shared helper lemmas -/

/-- A string is an infix of any concatenation that contains it as a
middle component (char-list view). -/
theorem infix_middle (a : List Char) (pre post : List Char) :
    a <:+: pre ++ a ++ post :=
  ⟨pre, post, rfl⟩

theorem infix_of_left {a l : List Char} (r : List Char) (h : a <:+: l) :
    a <:+: l ++ r := by
  obtain ⟨s, t, hst⟩ := h
  exact ⟨s, t ++ r, by rw [← hst]; simp⟩

theorem infix_of_right {a l : List Char} (r : List Char) (h : a <:+: l) :
    a <:+: r ++ l := by
  obtain ⟨s, t, hst⟩ := h
  exact ⟨r ++ s, t, by rw [← hst]; simp⟩

/-- Generic post-condition of a guarded-insert fold: if processing an
item establishes its guard and processing other items preserves it,
every item of the list is guarded at the end of the fold. -/
theorem foldl_all_blocked {σ α : Type} (step : σ → α → σ) (blk : σ → α → Prop)
    (hpres : ∀ st v w, blk st v → blk (step st w) v)
    (hestab : ∀ st v, blk (step st v) v)
    (l : List α) (st : σ) : ∀ v ∈ l, blk (List.foldl step st l) v := by
  have haux : ∀ (l2 : List α) (st2 : σ) (v : α), blk st2 v → blk (List.foldl step st2 l2) v := by
    intro l2
    induction l2 with
    | nil => intro st2 v h; simpa using h
    | cons w l2 ih => intro st2 v h; exact ih (step st2 w) v (hpres st2 v w h)
  intro v hv
  induction l generalizing st with
  | nil => cases hv
  | cons w l ih =>
      rcases List.mem_cons.mp hv with h | h
      · subst h
        exact haux l (step st v) v (hestab st v)
      · exact ih (step st w) h

/-- Generic no-op property of a guarded-insert fold: if every item of
the list is already guarded, the fold leaves the state unchanged. -/
theorem foldl_all_blocked_id {σ α : Type} (step : σ → α → σ) (blk : σ → α → Prop)
    (hid : ∀ st v, blk st v → step st v = st)
    (l : List α) (st : σ) (h : ∀ v ∈ l, blk st v) : List.foldl step st l = st := by
  induction l with
  | nil => rfl
  | cons w l ih =>
      have hw := hid st w (h w (List.mem_cons_self w l))
      simp only [List.foldl_cons, hw]
      exact ih (fun v hv => h v (List.mem_cons_of_mem w hv))

/-- A fold preserves any state invariant its step preserves. -/
theorem foldl_preserve {σ α : Type} (step : σ → α → σ) (inv : σ → Prop)
    (hstep : ∀ st v, inv st → inv (step st v))
    (l : List α) (st : σ) (h : inv st) : inv (List.foldl step st l) := by
  induction l generalizing st with
  | nil => simpa using h
  | cons w l ih => exact ih (step st w) (hstep st w h)

/-- A fold preserves any state invariant its step preserves on the
list's members. -/
theorem foldl_preserve_mem {σ α : Type} (step : σ → α → σ) (inv : σ → Prop) (l : List α)
    (hstep : ∀ st v, v ∈ l → inv st → inv (step st v))
    (st : σ) (h : inv st) : inv (List.foldl step st l) := by
  induction l generalizing st with
  | nil => simpa using h
  | cons w l ih =>
      exact ih (fun st2 v hv hi => hstep st2 v (List.mem_cons_of_mem w hv) hi)
        (step st w) (hstep st w (List.mem_cons_self w l) h)

theorem mem_uniq {α : Type} [DecidableEq α] (l : List α) (x : α) :
    x ∈ uniq l ↔ x ∈ l := by
  have haux : ∀ (l2 : List α) (acc : List α),
      x ∈ l2.foldl (fun acc x => if x ∈ acc then acc else acc ++ [x]) acc ↔ x ∈ acc ∨ x ∈ l2 := by
    intro l2
    induction l2 with
    | nil => intro acc; simp
    | cons y l2 ih =>
        intro acc
        by_cases hy : y ∈ acc
        · simp only [List.foldl_cons, if_pos hy, ih]
          constructor
          · rintro (h | h)
            · exact Or.inl h
            · exact Or.inr (List.mem_cons_of_mem y h)
          · rintro (h | h)
            · exact Or.inl h
            · rcases List.mem_cons.mp h with h | h
              · exact Or.inl (h ▸ hy)
              · exact Or.inr h
        · simp only [List.foldl_cons, if_neg hy, ih]
          simp only [List.mem_append, List.mem_singleton, List.mem_cons]
          tauto
  unfold uniq
  rw [haux l []]
  simp

/-! ### Concrete fixtures used by witnesses and counterexamples -/

/-- The empty database (fresh store, rowid counters at 1). -/
def emptyDb : Db :=
  ⟨[], [], [], [], [], [], [], [], [], 1, 1, 1, 1, 1, 1, 1⟩

/-- A fixed clock: 2025-06-15. -/
def clock0 : Clock := ⟨⟨2025, 6, 15⟩, 1750000000000⟩

/-! ## C7 — orchestrator error handling -/

/-- C7: when the external model call throws, `chat` does not propagate
the exception: it returns the diagnostic produced by the catch block —
an identity message when the error mentions 403 or identity, a network
message when it mentions fetch failed, a generic connection message
otherwise — and the store (in particular the conversation log) is left
entirely unchanged; a failure of the second (function-response)
round-trip likewise appends no conversation rows. -/
theorem C7_chat_model_failure (uid msg : String) (e : Option String)
    (r2 : Except (Option String) String) (call : GeminiService.ToolCall)
    (k : Nat) (c : Clock) (s : Db) :
    (GeminiService.chat uid msg (Except.error e) r2 k c s).1 = s ∧
    (GeminiService.chat uid msg (Except.error e) r2 k c s).2 = GeminiService.classifyError e k ∧
    ((GeminiService.chat uid msg
        (Except.ok (GeminiService.GeminiResponse.functionCall call))
        (Except.error e) k c s).1).conversations = s.conversations ∧
    (GeminiService.chat uid msg
        (Except.ok (GeminiService.GeminiResponse.functionCall call))
        (Except.error e) k c s).2 = GeminiService.classifyError e k ∧
    ((GeminiService.errIncl e "403" || GeminiService.errIncl e "identity") = true →
      GeminiService.classifyError e k = GeminiService.identityErrorText) ∧
    ((GeminiService.errIncl e "403" || GeminiService.errIncl e "identity") = false →
      GeminiService.errIncl e "fetch failed" = true →
      GeminiService.classifyError e k = GeminiService.fetchErrorText k) ∧
    ((GeminiService.errIncl e "403" || GeminiService.errIncl e "identity") = false →
      GeminiService.errIncl e "fetch failed" = false →
      GeminiService.classifyError e k = GeminiService.genericErrorText
        (match e with
         | none => "Unknown error"
         | some m => if m = "" then "Unknown error" else m)) := by
  refine ⟨rfl, rfl, ?_, ?_, ?_, ?_, ?_⟩
  · cases call <;> rfl
  · cases call <;> rfl
  · intro h; simp [GeminiService.classifyError, h]
  · intro h1 h2; simp [GeminiService.classifyError, h1, h2]
  · intro h1 h2; simp [GeminiService.classifyError, h1, h2]

/-- Witness for C7 at a concrete 403 failure and a concrete fetch
failure, on the empty store. -/
theorem C7_chat_model_failure_witness :
    (GeminiService.chat "u" "hi" (Except.error (some "Request failed with status 403"))
      (Except.ok "x") 9 clock0 emptyDb).1 = emptyDb ∧
    GeminiService.classifyError (some "Request failed with status 403") 9 =
      GeminiService.identityErrorText ∧
    GeminiService.classifyError (some "fetch failed") 9 = GeminiService.fetchErrorText 9 := by
  refine ⟨(C7_chat_model_failure "u" "hi" (some "Request failed with status 403")
      (Except.ok "x") (GeminiService.ToolCall.generateReport "pdf") 9 clock0 emptyDb).1,
    (C7_chat_model_failure "u" "hi" (some "Request failed with status 403")
      (Except.ok "x") (GeminiService.ToolCall.generateReport "pdf") 9 clock0 emptyDb).2.2.2.2.1
      (by decide),
    (C7_chat_model_failure "u" "hi" (some "fetch failed")
      (Except.ok "x") (GeminiService.ToolCall.generateReport "pdf") 9 clock0 emptyDb).2.2.2.2.2.1
      (by decide) (by decide)⟩

/-! ## C2 — conversation persistence of a chat turn -/

/-- C2 counterexample: a turn that completes successfully through the
function-call path (the model calls `generateReport`, the function
response round-trip returns text) appends zero conversation rows, not
two. -/
theorem C2_counterexample :
    (GeminiService.chat "u" "hello"
      (Except.ok (GeminiService.GeminiResponse.functionCall
        (GeminiService.ToolCall.generateReport "pdf")))
      (Except.ok "Report done") 0 clock0 emptyDb).2 = "Report done" ∧
    ((GeminiService.chat "u" "hello"
      (Except.ok (GeminiService.GeminiResponse.functionCall
        (GeminiService.ToolCall.generateReport "pdf")))
      (Except.ok "Report done") 0 clock0 emptyDb).1).conversations = [] := by
  exact ⟨rfl, rfl⟩

/-- C2 as amended: a turn that completes successfully *without* a
function call appends exactly two conversation rows — the user message
then the model text, both persisted after the model has answered — and
changes nothing else; a turn that goes through the function-call path
appends no conversation rows at all (the dispatched tool may write
transactions and notifications, but the conversation log is untouched),
and the second round-trip text is returned. -/
theorem C2_chat_persistence (uid msg t t2 : String) (call : GeminiService.ToolCall)
    (r2 : Except (Option String) String) (k : Nat) (c : Clock) (s : Db) :
    ((GeminiService.chat uid msg (Except.ok (GeminiService.GeminiResponse.text t)) r2 k c s).1.conversations
        = s.conversations ++ [⟨s.nextConvId, uid, Role.user, msg⟩, ⟨s.nextConvId + 1, uid, Role.model, t⟩]) ∧
    ((GeminiService.chat uid msg (Except.ok (GeminiService.GeminiResponse.text t)) r2 k c s).2 = t) ∧
    ((GeminiService.chat uid msg (Except.ok (GeminiService.GeminiResponse.text t)) r2 k c s).1.transactions
        = s.transactions) ∧
    ((GeminiService.chat uid msg (Except.ok (GeminiService.GeminiResponse.text t)) r2 k c s).1.alerts
        = s.alerts) ∧
    ((GeminiService.chat uid msg (Except.ok (GeminiService.GeminiResponse.text t)) r2 k c s).1.anomalies
        = s.anomalies) ∧
    ((GeminiService.chat uid msg (Except.ok (GeminiService.GeminiResponse.text t)) r2 k c s).1.notifications
        = s.notifications) ∧
    ((GeminiService.chat uid msg
        (Except.ok (GeminiService.GeminiResponse.functionCall call)) (Except.ok t2) k c s).1.conversations
        = s.conversations) ∧
    ((GeminiService.chat uid msg
        (Except.ok (GeminiService.GeminiResponse.functionCall call)) (Except.ok t2) k c s).2 = t2) := by
  refine ⟨?_, rfl, rfl, rfl, rfl, rfl, ?_, ?_⟩
  · simp [GeminiService.chat, ConversationRepository.saveMessage]
  · cases call <;> rfl
  · cases call <;> rfl

/-! ## C10 — bulk recategorisation by vendor substring -/

/-- Case-insensitive containment (ASCII), the spec-side reading of the
`LIKE '%vendor%'` match for a wildcard-free vendor string. -/
def containsCI (needle hay : String) : Prop :=
  (needle.data.map lowChar) <:+: (hay.data.map lowChar)

/-- A vendor string without SQL LIKE wildcards. -/
def noWildcards (v : String) : Prop :=
  ∀ ch ∈ v.data, ¬ch = '%' ∧ ¬ch = '_'

instance instDecContainsCI (n h : String) : Decidable (containsCI n h) :=
  inferInstanceAs (Decidable ((n.data.map lowChar) <:+: (h.data.map lowChar)))

instance instDecNoWildcards (v : String) : Decidable (noWildcards v) :=
  inferInstanceAs (Decidable (∀ ch ∈ v.data, ¬ch = '%' ∧ ¬ch = '_'))

theorem suffixAny_iff (f : List Char → Bool) (s : List Char) :
    suffixAny f s = true ↔ ∃ s1 s2, s = s1 ++ s2 ∧ f s2 = true := by
  induction s with
  | nil =>
      simp only [suffixAny]
      constructor
      · intro h; exact ⟨[], [], rfl, h⟩
      · rintro ⟨s1, s2, h, hf⟩
        rcases List.append_eq_nil.mp h.symm with ⟨rfl, rfl⟩
        exact hf
  | cons c s ih =>
      simp only [suffixAny, Bool.or_eq_true, ih]
      constructor
      · rintro (h | ⟨s1, s2, rfl, hf⟩)
        · exact ⟨[], c :: s, rfl, h⟩
        · exact ⟨c :: s1, s2, rfl, hf⟩
      · rintro ⟨s1, s2, heq, hf⟩
        cases s1 with
        | nil =>
            left
            simpa [← List.nil_append s2 ▸ heq] using hf
        | cons a s1 =>
            rcases List.cons_eq_cons.mp heq with ⟨rfl, rfl⟩
            exact Or.inr ⟨s1, s2, rfl, hf⟩

theorem likeM_lit (v : List Char) (hv : ∀ ch ∈ v, ¬ch = '%' ∧ ¬ch = '_') (s : List Char) :
    likeM (v ++ ['%']) s = true ↔ (v.map lowChar) <+: (s.map lowChar) := by
  induction v generalizing s with
  | nil =>
      simp only [List.nil_append, List.map_nil]
      rw [show likeM ['%'] s = suffixAny (likeM []) s from rfl, suffixAny_iff]
      constructor
      · intro _; exact ⟨s.map lowChar, rfl⟩
      · intro _; exact ⟨s, [], by simp, rfl⟩
  | cons a v ih =>
      have ha := hv a (List.mem_cons_self a v)
      cases s with
      | nil =>
          simp only [List.cons_append, likeM, if_neg ha.1, List.map_nil, List.map_cons]
          constructor
          · intro h; cases h
          · rintro ⟨t, ht⟩; cases ht
      | cons d s2 =>
          have hstep : likeM ((a :: v) ++ ['%']) (d :: s2)
              = ((lowChar a == lowChar d) && likeM (v ++ ['%']) s2) := by
            simp only [List.cons_append, likeM, if_neg ha.1, if_neg ha.2, List.append_eq]
          rw [hstep, Bool.and_eq_true, beq_iff_eq, ih (fun ch hch => hv ch (List.mem_cons_of_mem a hch))]
          simp only [List.map_cons]
          constructor
          · rintro ⟨h1, t, ht⟩
            exact ⟨t, by simp [h1, ht]⟩
          · rintro ⟨t, ht⟩
            rcases List.cons_eq_cons.mp ht with ⟨h1, h2⟩
            exact ⟨h1, t, h2⟩

theorem likeM_pattern_iff (v : String) (hv : noWildcards v) (d : List Char) :
    likeM (likePattern v) d = true ↔ (v.data.map lowChar) <:+: (d.map lowChar) := by
  unfold likePattern
  rw [show likeM ('%' :: (v.data ++ ['%'])) d = suffixAny (likeM (v.data ++ ['%'])) d from rfl,
    suffixAny_iff]
  constructor
  · rintro ⟨s1, s2, rfl, hf⟩
    obtain ⟨t, ht⟩ := (likeM_lit v.data hv s2).mp hf
    exact ⟨s1.map lowChar, t, by simp [← ht]⟩
  · rintro ⟨p, t, hpt⟩
    refine ⟨d.take p.length, d.drop p.length, (List.take_append_drop _ _).symm, ?_⟩
    apply (likeM_lit v.data hv _).mpr
    refine ⟨t, ?_⟩
    have hd : d.map lowChar = p ++ (v.data.map lowChar ++ t) := by
      rw [← hpt]; simp [List.append_assoc]
    have hcalc : (d.drop p.length).map lowChar = v.data.map lowChar ++ t := by
      calc (d.drop p.length).map lowChar
          = (d.map lowChar).drop p.length := List.map_drop _ _ _
        _ = (p ++ (v.data.map lowChar ++ t)).drop p.length := by rw [hd]
        _ = v.data.map lowChar ++ t := List.drop_left _ _
    exact hcalc.symm

theorem bool_eq_of_iff {a b : Bool} (h : a = true ↔ b = true) : a = b := by
  cases a <;> cases b <;> simp_all

theorem bulkMatch_iff (uid vendor : String) (hv : noWildcards vendor) (t : Txn) :
    TransactionRepository.bulkMatch uid vendor t = true ↔
      t.user_id = uid ∧ containsCI vendor t.description := by
  unfold TransactionRepository.bulkMatch
  rw [Bool.and_eq_true, beq_iff_eq, likeM_pattern_iff vendor hv]
  exact Iff.rfl

/-- C10 counterexample: SQLite LIKE is case-insensitive for ASCII, so
`bulkUpdateCategory "u" "abc" "New"` recategorises a transaction whose
description is `"ABC"` and reports one changed row, although `"ABC"`
does not contain the substring `"abc"`. -/
theorem C10_counterexample :
    ((TransactionRepository.bulkUpdateCategory "u" "abc" "New"
        { emptyDb with transactions := [⟨1, "u", ⟨2025, 6, 1⟩, "ABC", 5, "Old", TxnType.expense⟩] }).1.transactions
      = [⟨1, "u", ⟨2025, 6, 1⟩, "ABC", 5, "New", TxnType.expense⟩]) ∧
    (TransactionRepository.bulkUpdateCategory "u" "abc" "New"
        { emptyDb with transactions := [⟨1, "u", ⟨2025, 6, 1⟩, "ABC", 5, "Old", TxnType.expense⟩] }).2 = 1 ∧
    ¬ ("abc".data <:+: "ABC".data) := by
  refine ⟨rfl, rfl, by decide⟩

/-- C10 as amended: for a vendor string without LIKE wildcards,
`bulkUpdateCategory` sets the category of exactly those transactions
owned by the user whose description contains the vendor string
*case-insensitively* (ASCII), returns the number of matching rows, and
changes nothing else — other users' rows, non-matching rows, every
other field of the updated rows, and every other table are untouched. -/
theorem C10_bulkUpdateCategory (uid vendor cat : String) (s : Db) (hv : noWildcards vendor) :
    ((TransactionRepository.bulkUpdateCategory uid vendor cat s).1.transactions =
      s.transactions.map (fun t =>
        if t.user_id = uid ∧ containsCI vendor t.description then { t with category := cat } else t)) ∧
    ((TransactionRepository.bulkUpdateCategory uid vendor cat s).2 =
      (s.transactions.filter (fun t =>
        decide (t.user_id = uid ∧ containsCI vendor t.description))).length) ∧
    ((TransactionRepository.bulkUpdateCategory uid vendor cat s).1.budgets = s.budgets) ∧
    ((TransactionRepository.bulkUpdateCategory uid vendor cat s).1.goals = s.goals) ∧
    ((TransactionRepository.bulkUpdateCategory uid vendor cat s).1.alerts = s.alerts) ∧
    ((TransactionRepository.bulkUpdateCategory uid vendor cat s).1.conversations = s.conversations) ∧
    (∀ t ∈ s.transactions, ¬(t.user_id = uid ∧ containsCI vendor t.description) →
      t ∈ (TransactionRepository.bulkUpdateCategory uid vendor cat s).1.transactions) ∧
    (∀ t ∈ s.transactions, t.user_id = uid → containsCI vendor t.description →
      { t with category := cat } ∈ (TransactionRepository.bulkUpdateCategory uid vendor cat s).1.transactions) := by
  have hpt : ∀ t : Txn, TransactionRepository.bulkMatch uid vendor t
      = decide (t.user_id = uid ∧ containsCI vendor t.description) := by
    intro t
    apply bool_eq_of_iff
    rw [bulkMatch_iff uid vendor hv t, decide_eq_true_eq]
  have hmap : (TransactionRepository.bulkUpdateCategory uid vendor cat s).1.transactions =
      s.transactions.map (fun t =>
        if t.user_id = uid ∧ containsCI vendor t.description then { t with category := cat } else t) := by
    show s.transactions.map _ = _
    apply List.map_congr_left
    intro t _
    rw [hpt t]
    by_cases h : t.user_id = uid ∧ containsCI vendor t.description
    · simp [h]
    · simp [h]
  refine ⟨hmap, ?_, rfl, rfl, rfl, rfl, ?_, ?_⟩
  · show (s.transactions.filter _).length = _
    rw [List.filter_congr (fun t _ => hpt t)]
  · intro t ht hne
    rw [hmap]
    exact List.mem_map.mpr ⟨t, ht, by simp [if_neg hne]⟩
  · intro t ht h1 h2
    rw [hmap]
    exact List.mem_map.mpr ⟨t, ht, by simp [if_pos (And.intro h1 h2)]⟩

/-- Witness for C10 at a concrete wildcard-free vendor. -/
theorem C10_bulkUpdateCategory_witness :
    noWildcards "abc" ∧
    (TransactionRepository.bulkUpdateCategory "u" "abc" "New" emptyDb).1.budgets = emptyDb.budgets :=
  ⟨by decide, (C10_bulkUpdateCategory "u" "abc" "New" emptyDb (by decide)).2.2.1⟩

/-! ## C4 — budget variance -/

/-- The budget of the worked example: amount 1000, default threshold. -/
def budget1000 : Budget := ⟨1, "u", "Ops", 1000, Period.monthly, ⟨2025, 1, 1⟩, none, none⟩

/-- A store with that budget and a single June expense of `a`. -/
def dbSpend (a : ℚ) : Db :=
  { emptyDb with
      budgets := [budget1000],
      transactions := [⟨1, "u", ⟨2025, 6, 10⟩, "spend", a, "Ops", TxnType.expense⟩] }

/-- C4: every variance row returned by `getBudgetVariance` belongs to an
active budget and carries actual = the sum of the owner's expense
transactions of that category in the requested range, variance =
amount − actual, variancePercentage = variance/amount×100 (for positive
amounts), and — for a threshold that is a genuine fraction (≤ 1, which
covers the 0.9 default) — status over exactly when actual > amount,
under exactly when actual < amount×threshold, and on_track otherwise;
in particular amount 1000 with actual 1100 yields (over, −100, −10),
actual 800 yields under, and actual 950 yields on_track. -/
theorem C4_budgetVariance :
    (∀ (uid : String) (startD endD : CalDate) (c : Clock) (s : Db) (v : BudgetVariance),
      v ∈ BudgetRepository.getBudgetVariance uid startD endD c s →
      0 < v.budget.amount →
      BudgetRepository.thresholdOr v.budget.alert_threshold ≤ 1 →
      v.budget ∈ BudgetRepository.getActiveBudgets uid c s ∧
      v.actual = BudgetRepository.actualSpend uid v.budget.category startD endD s ∧
      v.variance = v.budget.amount - v.actual ∧
      v.variancePercentage = v.variance / v.budget.amount * 100 ∧
      (v.status = BStatus.over ↔ v.budget.amount < v.actual) ∧
      (v.status = BStatus.under ↔
        v.actual < v.budget.amount * BudgetRepository.thresholdOr v.budget.alert_threshold) ∧
      (v.status = BStatus.on_track ↔
        (v.budget.amount * BudgetRepository.thresholdOr v.budget.alert_threshold ≤ v.actual ∧
         v.actual ≤ v.budget.amount))) ∧
    BudgetRepository.getBudgetVariance "u" ⟨2025, 6, 1⟩ ⟨2025, 6, 30⟩ clock0 (dbSpend 1100)
      = [⟨budget1000, 1100, -100, -10, BStatus.over⟩] ∧
    (BudgetRepository.getBudgetVariance "u" ⟨2025, 6, 1⟩ ⟨2025, 6, 30⟩ clock0 (dbSpend 800)).map
      BudgetVariance.status = [BStatus.under] ∧
    (BudgetRepository.getBudgetVariance "u" ⟨2025, 6, 1⟩ ⟨2025, 6, 30⟩ clock0 (dbSpend 950)).map
      BudgetVariance.status = [BStatus.on_track] := by
  refine ⟨?_, ?_, ?_, ?_⟩
  · intro uid startD endD c s v hv hamt hthr
    obtain ⟨b, hb, rfl⟩ := List.mem_map.mp hv
    simp only [BudgetRepository.varianceOf] at hamt hthr ⊢
    set A := BudgetRepository.actualSpend uid b.category startD endD s with hA
    set T := BudgetRepository.thresholdOr b.alert_threshold with hT
    have hTB : b.amount * T ≤ b.amount := by
      calc b.amount * T ≤ b.amount * 1 := mul_le_mul_of_nonneg_left hthr (le_of_lt hamt)
        _ = b.amount := mul_one _
    refine ⟨hb, by trivial, by trivial, ?_, ?_, ?_, ?_⟩
    · rw [if_pos hamt]
    · by_cases h1 : b.amount < A
      · rw [if_pos h1]
        exact iff_of_true rfl h1
      · rw [if_neg h1]
        by_cases h2 : A < b.amount * T
        · rw [if_pos h2]
          exact iff_of_false (fun hc => BStatus.noConfusion hc) h1
        · rw [if_neg h2]
          exact iff_of_false (fun hc => BStatus.noConfusion hc) h1
    · by_cases h1 : b.amount < A
      · rw [if_pos h1]
        have hn : ¬A < b.amount * T :=
          fun hc => absurd (lt_trans hc (lt_of_le_of_lt hTB h1)) (lt_irrefl A)
        exact iff_of_false (fun hc => BStatus.noConfusion hc) hn
      · rw [if_neg h1]
        by_cases h2 : A < b.amount * T
        · rw [if_pos h2]
          exact iff_of_true rfl h2
        · rw [if_neg h2]
          exact iff_of_false (fun hc => BStatus.noConfusion hc) h2
    · by_cases h1 : b.amount < A
      · rw [if_pos h1]
        exact iff_of_false (fun hc => BStatus.noConfusion hc)
          (fun h => absurd h1 (not_lt.mpr h.2))
      · rw [if_neg h1]
        by_cases h2 : A < b.amount * T
        · rw [if_pos h2]
          exact iff_of_false (fun hc => BStatus.noConfusion hc)
            (fun h => absurd h2 (not_lt.mpr h.1))
        · rw [if_neg h2]
          exact iff_of_true rfl ⟨not_lt.mp h2, not_lt.mp h1⟩
  · norm_num +decide [BudgetRepository.getBudgetVariance, BudgetRepository.getActiveBudgets,
      BudgetRepository.varianceOf, BudgetRepository.actualSpend, BudgetRepository.thresholdOr,
      dbSpend, budget1000, emptyDb, clock0]
  · norm_num +decide [BudgetRepository.getBudgetVariance, BudgetRepository.getActiveBudgets,
      BudgetRepository.varianceOf, BudgetRepository.actualSpend, BudgetRepository.thresholdOr,
      dbSpend, budget1000, emptyDb, clock0]
  · norm_num +decide [BudgetRepository.getBudgetVariance, BudgetRepository.getActiveBudgets,
      BudgetRepository.varianceOf, BudgetRepository.actualSpend, BudgetRepository.thresholdOr,
      dbSpend, budget1000, emptyDb, clock0]

/-- Witness for C4 on the worked example (the quantified part applied at
the concrete over-budget row). -/
theorem C4_budgetVariance_witness :
    (BudgetRepository.varianceOf "u" ⟨2025, 6, 1⟩ ⟨2025, 6, 30⟩ (dbSpend 1100) budget1000).status
      = BStatus.over ↔
    budget1000.amount <
      BudgetRepository.actualSpend "u" budget1000.category ⟨2025, 6, 1⟩ ⟨2025, 6, 30⟩ (dbSpend 1100) := by
  have happ := (C4_budgetVariance.1 "u" ⟨2025, 6, 1⟩ ⟨2025, 6, 30⟩ clock0 (dbSpend 1100)
    (BudgetRepository.varianceOf "u" ⟨2025, 6, 1⟩ ⟨2025, 6, 30⟩ (dbSpend 1100) budget1000)
    (by
      refine List.mem_map.mpr ⟨budget1000, ?_, rfl⟩
      norm_num +decide [BudgetRepository.getActiveBudgets, dbSpend, budget1000, emptyDb, clock0])
    (by norm_num [BudgetRepository.varianceOf, budget1000])
    (by norm_num [BudgetRepository.varianceOf, BudgetRepository.thresholdOr, budget1000]))
  exact happ.2.2.2.2.1

/-! ## C9 — goal auto-completion -/

/-- The fold of per-goal UPDATEs in `checkGoalCompletion`, computed in
closed form: a row is completed exactly when its id is the id of one of
the selected goals (ids 0 being skipped by the JS truthiness guard). -/
theorem goal_foldUpd (comp : List FinancialGoal) (l : List FinancialGoal) :
    comp.foldl (fun gs g =>
        if g.id == 0 then gs
        else gs.map (fun g2 => if g2.id == g.id then { g2 with status := GoalStatus.completed } else g2)) l
      = l.map (fun g2 =>
          if g2.id ∈ (comp.filter (fun g => !(g.id == 0))).map FinancialGoal.id
          then { g2 with status := GoalStatus.completed } else g2) := by
  induction comp generalizing l with
  | nil =>
      simp
  | cons g comp ih =>
      simp only [List.foldl_cons, List.filter_cons]
      by_cases hg : g.id = 0
      · rw [if_pos (by simpa using hg), if_neg (by simpa using hg)]
        exact ih l
      · rw [if_neg (by simpa using hg), if_pos (by simpa using hg)]
        rw [ih, List.map_map]
        set M := (comp.filter (fun g => !(g.id == 0))).map FinancialGoal.id with hM
        apply List.map_congr_left
        intro g2 _
        simp only [Function.comp_apply, List.map_cons, List.mem_cons]
        by_cases h2 : g2.id = g.id
        · by_cases h3 : g2.id ∈ M
          · simp [h2, h3]
          · simp [h2, h3]
        · by_cases h3 : g2.id ∈ M
          · simp [h2, h3]
          · simp [h2, h3]

/-- C9: a completion check selects exactly the owner's active goals with
current ≥ target, transitions each of them (and nothing else) to status
completed, returns the selected rows, and afterwards the transitioned
goal shows up in the owner's completed goal set while no active goal
carries its id; rows not due for completion are untouched. -/
theorem C9_goal_completion (uid : String) (s : Db)
    (hids : (s.goals.map FinancialGoal.id).Nodup)
    (hpos : ∀ g ∈ s.goals, g.id ≠ 0) :
    ((GoalRepository.checkGoalCompletion uid s).2 =
        s.goals.filter (GoalRepository.completionDue uid)) ∧
    ((GoalRepository.checkGoalCompletion uid s).1.goals =
        s.goals.map (fun g =>
          if GoalRepository.completionDue uid g then { g with status := GoalStatus.completed } else g)) ∧
    (∀ g ∈ s.goals, GoalRepository.completionDue uid g →
        g ∈ (GoalRepository.checkGoalCompletion uid s).2 ∧
        { g with status := GoalStatus.completed } ∈
          GoalRepository.getGoals uid (some GoalStatus.completed)
            (GoalRepository.checkGoalCompletion uid s).1 ∧
        (∀ g2 ∈ GoalRepository.getGoals uid (some GoalStatus.active)
            (GoalRepository.checkGoalCompletion uid s).1, g2.id ≠ g.id)) ∧
    (∀ g ∈ s.goals, ¬GoalRepository.completionDue uid g = true →
        g ∈ (GoalRepository.checkGoalCompletion uid s).1.goals) := by
  have hcomp : (GoalRepository.checkGoalCompletion uid s).2 =
      s.goals.filter (GoalRepository.completionDue uid) := rfl
  have hfilter0 : (s.goals.filter (GoalRepository.completionDue uid)).filter
      (fun g => !(g.id == 0)) = s.goals.filter (GoalRepository.completionDue uid) := by
    apply List.filter_eq_self.mpr
    intro g hg
    have hmem := List.mem_filter.mp hg
    simpa using hpos g hmem.1
  have hmain : (GoalRepository.checkGoalCompletion uid s).1.goals =
      s.goals.map (fun g =>
        if GoalRepository.completionDue uid g then { g with status := GoalStatus.completed } else g) := by
    show (s.goals.filter (GoalRepository.completionDue uid)).foldl _ s.goals = _
    rw [goal_foldUpd, hfilter0]
    apply List.map_congr_left
    intro g2 hg2
    by_cases hdue : GoalRepository.completionDue uid g2
    · rw [if_pos hdue, if_pos]
      exact List.mem_map.mpr ⟨g2, List.mem_filter.mpr ⟨hg2, hdue⟩, rfl⟩
    · rw [if_neg hdue, if_neg]
      intro hmem
      obtain ⟨g3, hg3, hid⟩ := List.mem_map.mp hmem
      have hg3s := (List.mem_filter.mp hg3).1
      have hg3due := (List.mem_filter.mp hg3).2
      have : g3 = g2 := List.inj_on_of_nodup_map hids hg3s hg2 hid
      exact hdue (this ▸ hg3due)
  refine ⟨hcomp, hmain, ?_, ?_⟩
  · intro g hg hdue
    refine ⟨?_, ?_, ?_⟩
    · rw [hcomp]
      exact List.mem_filter.mpr ⟨hg, hdue⟩
    · have huser : g.user_id = uid := by
        unfold GoalRepository.completionDue at hdue
        simp only [Bool.and_eq_true, beq_iff_eq, decide_eq_true_eq] at hdue
        exact hdue.1.1
      apply List.mem_filter.mpr
      constructor
      · rw [hmain]
        exact List.mem_map.mpr ⟨g, hg, by rw [if_pos hdue]⟩
      · simp [huser]
    · intro g2 hg2 hideq
      have hg2m := List.mem_filter.mp hg2
      have hg2goals := hg2m.1
      have hg2act : g2.status = GoalStatus.active := by
        have := hg2m.2
        simp only [Bool.and_eq_true, decide_eq_true_eq] at this
        exact this.2
      rw [hmain] at hg2goals
      obtain ⟨g3, hg3, hg3eq⟩ := List.mem_map.mp hg2goals
      by_cases hdue3 : GoalRepository.completionDue uid g3
      · rw [if_pos hdue3] at hg3eq
        rw [← hg3eq] at hg2act
        exact GoalStatus.noConfusion hg2act
      · rw [if_neg hdue3] at hg3eq
        have heq3 : g3 = g := List.inj_on_of_nodup_map hids hg3 hg (by rw [hg3eq]; exact hideq)
        exact hdue3 (heq3 ▸ hdue)
  · intro g hg hnot
    rw [hmain]
    exact List.mem_map.mpr ⟨g, hg, by rw [if_neg hnot]⟩

/-- Witness for C9: a goal with target 1000 and current 1000 completes. -/
theorem C9_goal_completion_witness :
    { (⟨1, "u", "savings", 1000, 1000, none, none, GoalStatus.active, none⟩ : FinancialGoal)
        with status := GoalStatus.completed } ∈
      GoalRepository.getGoals "u" (some GoalStatus.completed)
        (GoalRepository.checkGoalCompletion "u"
          { emptyDb with goals := [⟨1, "u", "savings", 1000, 1000, none, none, GoalStatus.active, none⟩] }).1 := by
  have happ := (C9_goal_completion "u"
    { emptyDb with goals := [⟨1, "u", "savings", 1000, 1000, none, none, GoalStatus.active, none⟩] }
    (by simp [emptyDb]) (by simp [emptyDb])).2.2.1
  have hmem : (⟨1, "u", "savings", 1000, 1000, none, none, GoalStatus.active, none⟩ : FinancialGoal)
      ∈ ({ emptyDb with goals := [⟨1, "u", "savings", 1000, 1000, none, none, GoalStatus.active, none⟩] } : Db).goals := by
    simp [emptyDb]
  have hdue : GoalRepository.completionDue "u"
      (⟨1, "u", "savings", 1000, 1000, none, none, GoalStatus.active, none⟩ : FinancialGoal) = true := by
    norm_num [GoalRepository.completionDue]
  exact (happ _ hmem hdue).2.1

/-! ## C6 — recurring-pattern classification -/

/-- Membership in an accumulate-only fold: the result holds the seed
plus one block per list element. -/
theorem foldl_append_mem {α β : Type} (f : List α → β → List α) (h : β → List α)
    (hf : ∀ acc x, f acc x = acc ++ h x) (l : List β) (init : List α) (z : α) :
    z ∈ l.foldl f init ↔ z ∈ init ∨ ∃ x ∈ l, z ∈ h x := by
  induction l generalizing init with
  | nil => simp
  | cons x l ih =>
      simp only [List.foldl_cons, ih, hf, List.mem_append, List.mem_cons]
      constructor
      · rintro ((h1 | h1) | ⟨y, hy, hz⟩)
        · exact Or.inl h1
        · exact Or.inr ⟨x, Or.inl rfl, h1⟩
        · exact Or.inr ⟨y, Or.inr hy, hz⟩
      · rintro (h1 | ⟨y, (rfl | hy), hz⟩)
        · exact Or.inl (Or.inl h1)
        · exact Or.inl (Or.inr hz)
        · exact Or.inr ⟨y, hy, hz⟩

/-- Every pattern reported by `detectRecurringTransactions` is a
(description, category, type) group of the user with at least three
occurrences, carrying that group's average amount, count and date
range. -/
theorem recurPattern_mem (uid : String) (s : Db) (p : TransactionRepository.RecurPattern) :
    p ∈ TransactionRepository.detectRecurringTransactions uid s →
    ∃ tr ∈ uniq ((s.transactions.filter (fun t => t.user_id == uid)).map
        (fun t => (t.description, t.category, t.type))),
      (let grp := (s.transactions.filter (fun t => t.user_id == uid)).filter (fun t =>
          t.description == tr.1 && t.category == tr.2.1 && decide (t.type = tr.2.2))
       3 ≤ grp.length ∧
       p = ⟨tr.1, tr.2.1, tr.2.2, (grp.map Txn.amount).sum / (grp.length : ℚ),
            grp.length, TransactionRepository.minDateOf grp, TransactionRepository.maxDateOf grp⟩) := by
  intro hp
  unfold TransactionRepository.detectRecurringTransactions at hp
  rw [mem_sortDesc] at hp
  rw [foldl_append_mem _ (fun tr =>
    (let grp := (s.transactions.filter (fun t => t.user_id == uid)).filter (fun t =>
        t.description == tr.1 && t.category == tr.2.1 && decide (t.type = tr.2.2))
     if 3 ≤ grp.length then
       [⟨tr.1, tr.2.1, tr.2.2, (grp.map Txn.amount).sum / (grp.length : ℚ),
         grp.length, TransactionRepository.minDateOf grp, TransactionRepository.maxDateOf grp⟩]
     else []))
    (fun acc tr => by
      simp only
      by_cases hc : 3 ≤ ((s.transactions.filter (fun t => t.user_id == uid)).filter (fun t =>
          t.description == tr.1 && t.category == tr.2.1 && decide (t.type = tr.2.2))).length
      · rw [if_pos hc, if_pos hc]
      · rw [if_neg hc, if_neg hc, List.append_nil])] at hp
  rcases hp with h | ⟨tr, htr, hz⟩
  · cases h
  · refine ⟨tr, htr, ?_⟩
    simp only at hz ⊢
    by_cases hc : 3 ≤ ((s.transactions.filter (fun t => t.user_id == uid)).filter (fun t =>
        t.description == tr.1 && t.category == tr.2.1 && decide (t.type = tr.2.2))).length
    · rw [if_pos hc] at hz
      rcases List.mem_singleton.mp hz with rfl
      exact ⟨hc, rfl⟩
    · rw [if_neg hc] at hz
      cases hz

/-- Every recurring row reported by `detectRecurringPatterns` arises
from one detected pattern through `recurringOf`. -/
theorem detectRecurring_snd_mem (uid : String) (s : Db) (r : RecurringTxn) :
    r ∈ (FinancialIntelligenceService.detectRecurringPatterns uid s).2 →
    ∃ p ∈ TransactionRepository.detectRecurringTransactions uid s,
      ∃ rid, r = FinancialIntelligenceService.recurringOf uid rid p := by
  have haux : ∀ (l : List TransactionRepository.RecurPattern) (acc : Db × List RecurringTxn),
      r ∈ (l.foldl (FinancialIntelligenceService.recurringStep uid) acc).2 →
      r ∈ acc.2 ∨ ∃ p ∈ l, ∃ rid, r = FinancialIntelligenceService.recurringOf uid rid p := by
    intro l
    induction l with
    | nil => intro acc h; exact Or.inl h
    | cons p l ih =>
        intro acc h
        rcases ih (FinancialIntelligenceService.recurringStep uid acc p) h with h2 | ⟨q, hq, hrid⟩
        · unfold FinancialIntelligenceService.recurringStep at h2
          by_cases hb : ((AlertRepository.getRecurringTransactions uid acc.1).any (fun r2 =>
              r2.description == p.description && r2.category == p.category)) = true
          · rw [if_pos hb] at h2
            exact Or.inl h2
          · rw [if_neg hb] at h2
            simp only [List.mem_append, List.mem_singleton] at h2
            rcases h2 with h2 | h2
            · exact Or.inl h2
            · exact Or.inr ⟨p, List.mem_cons_self p l, acc.1.nextRecurringId, h2⟩
        · exact Or.inr ⟨q, List.mem_cons_of_mem p hq, hrid⟩
  intro hr
  rcases haux _ (s, []) hr with h | h
  · cases h
  · exact h

/-- The three-transaction worked example of the spec: a "Spotify"
subscription on the first of three consecutive months. -/
def spotifyDb : Db :=
  { emptyDb with transactions := [
      ⟨1, "u", ⟨2025, 1, 1⟩, "Spotify", 10, "Software", TxnType.expense⟩,
      ⟨2, "u", ⟨2025, 2, 1⟩, "Spotify", 10, "Software", TxnType.expense⟩,
      ⟨3, "u", ⟨2025, 3, 1⟩, "Spotify", 10, "Software", TxnType.expense⟩] }

/-- C6: every recurring row produced by detection comes from an exact
(description, category, type) group with at least 3 occurrences, its
frequency is classified from the average inter-occurrence gap (days
between first and last occurrence divided by count − 1) with the
2/9/40/120-day cutoffs, and its confidence is min(0.95, count/10); in
particular three monthly "Spotify" transactions yield frequency
monthly with confidence 0.3. -/
theorem C6_recurring_classification :
    (∀ (uid : String) (s : Db) (r : RecurringTxn),
      r ∈ (FinancialIntelligenceService.detectRecurringPatterns uid s).2 →
      ∃ p ∈ TransactionRepository.detectRecurringTransactions uid s,
        3 ≤ p.occurrence_count ∧
        r.description = p.description ∧ r.category = p.category ∧ r.type = p.type ∧
        r.amount = p.avg_amount ∧
        r.frequency = FinancialIntelligenceService.classifyFrequency
          (((toEpochDay p.last_date - toEpochDay p.first_date : Int) : ℚ) /
            ((p.occurrence_count : ℚ) - 1)) ∧
        r.confidence = min (19 / 20) ((p.occurrence_count : ℚ) / 10)) ∧
    (∀ g : ℚ,
      (g ≤ 2 → FinancialIntelligenceService.classifyFrequency g = Freq.daily) ∧
      (2 < g → g ≤ 9 → FinancialIntelligenceService.classifyFrequency g = Freq.weekly) ∧
      (9 < g → g ≤ 40 → FinancialIntelligenceService.classifyFrequency g = Freq.monthly) ∧
      (40 < g → g ≤ 120 → FinancialIntelligenceService.classifyFrequency g = Freq.quarterly) ∧
      (120 < g → FinancialIntelligenceService.classifyFrequency g = Freq.yearly)) ∧
    ((FinancialIntelligenceService.detectRecurringPatterns "u" spotifyDb).2.map
        (fun r => (r.frequency, r.confidence)) = [(Freq.monthly, 3 / 10)]) := by
  refine ⟨?_, ?_, ?_⟩
  · intro uid s r hr
    obtain ⟨p, hp, rid, rfl⟩ := detectRecurring_snd_mem uid s r hr
    obtain ⟨tr, -, hc, hpeq⟩ := recurPattern_mem uid s p hp
    refine ⟨p, hp, ?_, rfl, rfl, rfl, rfl, rfl, rfl⟩
    rw [hpeq]
    exact hc
  · intro g
    refine ⟨?_, ?_, ?_, ?_, ?_⟩
    · intro h
      unfold FinancialIntelligenceService.classifyFrequency
      rw [if_pos h]
    · intro h1 h2
      unfold FinancialIntelligenceService.classifyFrequency
      rw [if_neg (not_le.mpr h1), if_pos h2]
    · intro h1 h2
      unfold FinancialIntelligenceService.classifyFrequency
      rw [if_neg (not_le.mpr (by linarith)), if_neg (not_le.mpr h1), if_pos h2]
    · intro h1 h2
      unfold FinancialIntelligenceService.classifyFrequency
      rw [if_neg (not_le.mpr (by linarith)), if_neg (not_le.mpr (by linarith)),
        if_neg (not_le.mpr h1), if_pos h2]
    · intro h1
      unfold FinancialIntelligenceService.classifyFrequency
      rw [if_neg (not_le.mpr (by linarith)), if_neg (not_le.mpr (by linarith)),
        if_neg (not_le.mpr (by linarith)), if_neg (not_le.mpr h1)]
  · norm_num +decide [FinancialIntelligenceService.detectRecurringPatterns,
      FinancialIntelligenceService.recurringStep, FinancialIntelligenceService.recurringOf,
      FinancialIntelligenceService.classifyFrequency,
      TransactionRepository.detectRecurringTransactions, TransactionRepository.minDateOf,
      TransactionRepository.maxDateOf, AlertRepository.getRecurringTransactions,
      AlertRepository.createRecurringTransaction, uniq, sortDesc, insertOrd,
      spotifyDb, emptyDb,
      (by decide : toEpochDay ⟨2025, 1, 1⟩ = 20089),
      (by decide : toEpochDay ⟨2025, 3, 1⟩ = 20148)]

/-- Witness for C6: the classifier applied at the worked example's
29.5-day average gap. -/
theorem C6_recurring_classification_witness :
    FinancialIntelligenceService.classifyFrequency (59 / 2) = Freq.monthly ∧
    FinancialIntelligenceService.classifyFrequency 1 = Freq.daily :=
  ⟨(C6_recurring_classification.2.1 (59 / 2)).2.2.1 (by norm_num) (by norm_num),
   (C6_recurring_classification.2.1 1).1 (by norm_num)⟩

/-! ## C3 — anomaly flagging and severity -/

/-- The (category, type) group of a user's transactions, as the
detector's per-group query filters it. -/
def pairGroup (uid : String) (cat : String) (ty : TxnType) (s : Db) : List Txn :=
  (s.transactions.filter (fun t => t.user_id == uid)).filter
    (fun t => t.category == cat && decide (t.type = ty))

/-- Mean amount of a (category, type) group. -/
def pairMean (uid : String) (cat : String) (ty : TxnType) (s : Db) : ℚ :=
  ((pairGroup uid cat ty s).map Txn.amount).sum / ((pairGroup uid cat ty s).length : ℚ)

/-- Mean amount over all of the user's transactions of a category
(income and expense alike) — the denominator `detectAnomalies` actually
uses for severity. -/
def catMean (uid : String) (cat : String) (s : Db) : ℚ :=
  ((TransactionRepository.getTransactionsByCategory uid cat s).map Txn.amount).sum /
    ((TransactionRepository.getTransactionsByCategory uid cat s).length : ℚ)

theorem anomalous_mem_iff (uid : String) (thr : ℚ) (s : Db) (t : Txn) :
    t ∈ TransactionRepository.getAnomalousTransactions uid thr s ↔
      t ∈ s.transactions ∧ t.user_id = uid ∧
      3 ≤ (pairGroup uid t.category t.type s).length ∧
      pairMean uid t.category t.type s * thr < t.amount := by
  unfold TransactionRepository.getAnomalousTransactions
  rw [foldl_append_mem _ (fun pr =>
      (let grp := (s.transactions.filter (fun t2 => t2.user_id == uid)).filter
        (fun t2 => t2.category == pr.1 && decide (t2.type = pr.2))
       if 3 ≤ grp.length then
         sortDesc (fun a b => decide (a.amount ≥ b.amount))
           (grp.filter (fun t2 => decide (t2.amount > ((grp.map Txn.amount).sum / (grp.length : ℚ)) * thr)))
       else []))
    (fun acc pr => by
      simp only
      by_cases hc : 3 ≤ ((s.transactions.filter (fun t2 => t2.user_id == uid)).filter
          (fun t2 => t2.category == pr.1 && decide (t2.type = pr.2))).length
      · rw [if_pos hc, if_pos hc]
      · rw [if_neg hc, if_neg hc, List.append_nil])]
  constructor
  · rintro (h | ⟨pr, hpr, hz⟩)
    · cases h
    · simp only at hz
      by_cases hc : 3 ≤ ((s.transactions.filter (fun t2 => t2.user_id == uid)).filter
          (fun t2 => t2.category == pr.1 && decide (t2.type = pr.2))).length
      · rw [if_pos hc, mem_sortDesc] at hz
        have hz2 := List.mem_filter.mp hz
        have hz3 := List.mem_filter.mp hz2.1
        have hmine := List.mem_filter.mp hz3.1
        have hcat : t.category = pr.1 ∧ t.type = pr.2 := by
          have := hz3.2
          simp only [Bool.and_eq_true, beq_iff_eq, decide_eq_true_eq] at this
          exact this
        have hpr2 : pr = (t.category, t.type) := by
          cases pr
          simp only [Prod.mk.injEq]
          exact ⟨hcat.1.symm, hcat.2.symm⟩
        subst hpr2
        refine ⟨hmine.1, by simpa using hmine.2, ?_, ?_⟩
        · exact hc
        · have := hz2.2
          simp only [decide_eq_true_eq] at this
          exact this
      · rw [if_neg hc] at hz
        cases hz
  · rintro ⟨hmem, huser, hcount, hamt⟩
    unfold pairMean at hamt
    unfold pairGroup at hcount hamt
    refine Or.inr ⟨(t.category, t.type), ?_, ?_⟩
    · rw [mem_uniq]
      exact List.mem_map.mpr ⟨t, List.mem_filter.mpr ⟨hmem, by simpa using huser⟩, rfl⟩
    · simp only
      rw [if_pos hcount, mem_sortDesc]
      refine List.mem_filter.mpr ⟨List.mem_filter.mpr
        ⟨List.mem_filter.mpr ⟨hmem, by simpa using huser⟩, by simp⟩, ?_⟩
      simpa using hamt

/-- `anomalyStep` leaves the transaction table untouched. -/
theorem anomalyStep_transactions (uid : String) (c : Clock) (st : Db) (t : Txn) :
    (FinancialIntelligenceService.anomalyStep uid c st t).transactions = st.transactions := by
  simp only [FinancialIntelligenceService.anomalyStep]
  by_cases h1 : ((AlertRepository.getAnomalies uid false st).any
      (fun a2 => a2.transaction_id == t.id)) = true
  · rw [if_pos h1]
  · rw [if_neg h1]
    by_cases h2 : (t.id == 0) = true
    · rw [if_pos h2]
    · rw [if_neg h2]
      rfl

theorem detectAnomalies_new_severity (uid : String) (c : Clock) (s : Db) (a : Anomaly) :
    a ∈ (FinancialIntelligenceService.detectAnomalies uid c s).anomalies →
    a ∈ s.anomalies ∨ ∃ t ∈ TransactionRepository.getAnomalousTransactions uid 3 s,
      a.transaction_id = t.id ∧ a.severity = t.amount / catMean uid t.category s := by
  have haux : ∀ (l : List Txn) (st : Db), st.transactions = s.transactions →
      a ∈ (l.foldl (FinancialIntelligenceService.anomalyStep uid c) st).anomalies →
      a ∈ st.anomalies ∨ ∃ t ∈ l, a.transaction_id = t.id ∧
        a.severity = t.amount / catMean uid t.category s := by
    intro l
    induction l with
    | nil => intro st _ h; exact Or.inl h
    | cons t l ih =>
        intro st hst h
        have hst2 : (FinancialIntelligenceService.anomalyStep uid c st t).transactions
            = s.transactions := by rw [anomalyStep_transactions, hst]
        rcases ih _ hst2 h with h2 | ⟨t2, ht2, hres⟩
        · unfold FinancialIntelligenceService.anomalyStep at h2
          by_cases hrec : ((AlertRepository.getAnomalies uid false st).any
              (fun a2 => a2.transaction_id == t.id)) = true
          · rw [if_pos hrec] at h2
            exact Or.inl h2
          · rw [if_neg hrec] at h2
            by_cases hid : (t.id == 0) = true
            · rw [if_pos hid] at h2
              exact Or.inl h2
            · rw [if_neg hid] at h2
              simp only [AlertRepository.createAlert, AlertRepository.createAnomaly,
                List.mem_append, List.mem_singleton] at h2
              rcases h2 with h2 | h2
              · exact Or.inl h2
              · refine Or.inr ⟨t, List.mem_cons_self t l, ?_, ?_⟩
                · rw [h2]
                · rw [h2]
                  show t.amount /
                      (((TransactionRepository.getTransactionsByCategory uid t.category st).map
                          Txn.amount).sum /
                        ((TransactionRepository.getTransactionsByCategory uid t.category st).length : ℚ))
                    = t.amount / catMean uid t.category s
                  unfold catMean TransactionRepository.getTransactionsByCategory
                  rw [hst]
        · exact Or.inr ⟨t2, List.mem_cons_of_mem t ht2, hres⟩
  intro h
  rcases haux _ s rfl h with h | h
  · exact Or.inl h
  · exact Or.inr h

/-- The store of the severity counterexample: category A holds four
expenses (10, 10, 10, 100) and one income of 1000. -/
def dbC3 : Db :=
  { emptyDb with transactions := [
      ⟨1, "u", ⟨2025, 1, 5⟩, "a1", 10, "A", TxnType.expense⟩,
      ⟨2, "u", ⟨2025, 1, 6⟩, "a2", 10, "A", TxnType.expense⟩,
      ⟨3, "u", ⟨2025, 1, 7⟩, "a3", 10, "A", TxnType.expense⟩,
      ⟨4, "u", ⟨2025, 1, 8⟩, "big", 100, "A", TxnType.expense⟩,
      ⟨5, "u", ⟨2025, 1, 9⟩, "inc", 1000, "A", TxnType.income⟩] }

/-- C3 counterexample: the 100-expense is flagged against the
(A, expense) mean 32.5, but the recorded severity is 100/226 = 50/113
(the category mean 226 also counts the 1000 income), not
100/32.5 = 40/13 as the claim states. -/
theorem C3_counterexample :
    ((FinancialIntelligenceService.detectAnomalies "u" clock0 dbC3).anomalies.map
        Anomaly.severity = [50 / 113]) ∧
    pairMean "u" "A" TxnType.expense dbC3 = 65 / 2 ∧
    ((50 : ℚ) / 113 ≠ 100 / (65 / 2)) := by
  refine ⟨?_, ?_, by norm_num⟩
  · norm_num +decide [FinancialIntelligenceService.detectAnomalies,
      FinancialIntelligenceService.anomalyStep, FinancialIntelligenceService.anomalyDescription,
      FinancialIntelligenceService.anomalyAlertMessage,
      TransactionRepository.getAnomalousTransactions,
      TransactionRepository.getTransactionsByCategory,
      AlertRepository.getAnomalies, AlertRepository.createAnomaly, AlertRepository.createAlert,
      uniq, sortDesc, insertOrd, dbC3, emptyDb]
  · norm_num +decide [pairMean, pairGroup, dbC3, emptyDb]

/-- C3 as amended: for every owner and (category, type) pair with at
least 3 transactions, detection flags exactly the transactions of that
pair whose amount exceeds the pair's mean times the threshold
multiplier; but each anomaly record created for a flagged transaction
has severity equal to the transaction's amount divided by the mean of
*all* the owner's transactions of that category (both types, whole
history) as recorded at detection time. -/
theorem C3_anomaly_detection :
    (∀ (uid : String) (thr : ℚ) (s : Db) (t : Txn),
      t ∈ TransactionRepository.getAnomalousTransactions uid thr s ↔
        t ∈ s.transactions ∧ t.user_id = uid ∧
        3 ≤ (pairGroup uid t.category t.type s).length ∧
        pairMean uid t.category t.type s * thr < t.amount) ∧
    (∀ (uid : String) (c : Clock) (s : Db) (a : Anomaly),
      a ∈ (FinancialIntelligenceService.detectAnomalies uid c s).anomalies →
      a ∈ s.anomalies ∨ ∃ t ∈ TransactionRepository.getAnomalousTransactions uid 3 s,
        a.transaction_id = t.id ∧ a.severity = t.amount / catMean uid t.category s) :=
  ⟨anomalous_mem_iff, detectAnomalies_new_severity⟩

/-- Witness for C3: the 100-expense of the counterexample store is
flagged. -/
theorem C3_anomaly_detection_witness :
    (⟨4, "u", ⟨2025, 1, 8⟩, "big", 100, "A", TxnType.expense⟩ : Txn) ∈
      TransactionRepository.getAnomalousTransactions "u" 3 dbC3 := by
  apply (C3_anomaly_detection.1 "u" 3 dbC3 _).mpr
  refine ⟨by simp [dbC3, emptyDb], rfl, ?_, ?_⟩
  · norm_num +decide [pairGroup, dbC3, emptyDb]
  · norm_num +decide [pairMean, pairGroup, dbC3, emptyDb]

/-! ## C5 — cash-flow forecast -/

/-- One month's net projection term: projected income minus projected
expenses of month `j` ahead. -/
def fcTerm (avgI avgE gI gE : ℚ) (j : Nat) : ℚ :=
  avgI * (1 + gI) ^ j - avgE * (1 + gE) ^ j

/-- Running balance from seed `bal` after accumulating the net terms of
months `i, i+1, ..., i+k-1`. -/
def fcBalFrom (avgI avgE gI gE bal : ℚ) (i k : Nat) : ℚ :=
  bal + (Finset.range k).sum (fun j => fcTerm avgI avgE gI gE (i + j))

/-- The spec-side closed form of the k-th (0-based) returned projection
of `forecastCashFlow`: month i = k+1 ahead, income avgI·(1+gI)^i and
expenses avgE·(1+gE)^i (rounded in the returned record), balance =
seed plus the unrounded net terms of months 1..i (rounded in the
record), confidence max(0.5, 0.9 − 0.1·i). -/
def fcSpecProj (c : Clock) (avgI avgE gI gE bal0 : ℚ) (k : Nat) : FinancialIntelligenceService.CashFlowProjection :=
  ⟨(monthShift c.today (k + 1)).1, (monthShift c.today (k + 1)).2,
   ((round (avgI * (1 + gI) ^ (k + 1)) : Int) : ℚ),
   ((round (avgE * (1 + gE) ^ (k + 1)) : Int) : ℚ),
   ((round (fcBalFrom avgI avgE gI gE bal0 1 (k + 1)) : Int) : ℚ),
   max (1 / 2) (9 / 10 - ((k + 1 : Nat) : ℚ) * (1 / 10))⟩

theorem fcBalFrom_shift (avgI avgE gI gE bal : ℚ) (i k : Nat) :
    fcBalFrom avgI avgE gI gE (bal + fcTerm avgI avgE gI gE i) (i + 1) k
      = fcBalFrom avgI avgE gI gE bal i (k + 1) := by
  unfold fcBalFrom
  rw [Finset.sum_range_succ']
  have hcongr : (Finset.range k).sum (fun j => fcTerm avgI avgE gI gE (i + (j + 1)))
      = (Finset.range k).sum (fun j => fcTerm avgI avgE gI gE (i + 1 + j)) := by
    apply Finset.sum_congr rfl
    intro j _
    rw [show i + (j + 1) = i + 1 + j from by omega]
  rw [hcongr]
  simp only [Nat.add_zero]
  ring

/-- Closed form of the `forecastCashFlow` projection loop. -/
theorem fcLoop_snd (uid : String) (c : Clock) (avgI avgE gI gE : ℚ) (A : String) :
    ∀ (rem i : Nat) (bal : ℚ) (s : Db),
      (FinancialIntelligenceService.fcLoop uid c avgI avgE gI gE A i rem bal s).2 =
        (List.range rem).map (fun k =>
          ⟨(monthShift c.today (i + k)).1, (monthShift c.today (i + k)).2,
           ((round (avgI * (1 + gI) ^ (i + k)) : Int) : ℚ),
           ((round (avgE * (1 + gE) ^ (i + k)) : Int) : ℚ),
           ((round (fcBalFrom avgI avgE gI gE bal i (k + 1)) : Int) : ℚ),
           max (1 / 2) (9 / 10 - ((i + k : Nat) : ℚ) * (1 / 10))⟩) := by
  intro rem
  induction rem with
  | zero => intro i bal s; rfl
  | succ rem ih =>
      intro i bal s
      rw [show FinancialIntelligenceService.fcLoop uid c avgI avgE gI gE A i (rem + 1) bal s
          = (let ym := monthShift c.today i
             let projectedIncome := avgI * (1 + gI) ^ i
             let projectedExpenses := avgE * (1 + gE) ^ i
             let bal2 := bal + (projectedIncome - projectedExpenses)
             let confidence := max (1 / 2) (9 / 10 - (i : ℚ) * (1 / 10))
             let proj : FinancialIntelligenceService.CashFlowProjection :=
               ⟨ym.1, ym.2, ((round projectedIncome : Int) : ℚ), ((round projectedExpenses : Int) : ℚ),
                ((round bal2 : Int) : ℚ), confidence⟩
             let s2 := AnalyticsRepository.saveForecast uid ym.1 ym.2 projectedIncome
               projectedExpenses bal2 confidence A s
             let next := FinancialIntelligenceService.fcLoop uid c avgI avgE gI gE A (i + 1) rem bal2 s2
             (next.1, proj :: next.2)) from rfl]
      simp only
      rw [List.range_succ_eq_map, List.map_cons, List.map_map]
      congr 1
      · simp only [FinancialIntelligenceService.CashFlowProjection.mk.injEq]
        refine ⟨rfl, rfl, rfl, rfl, ?_, rfl⟩
        have hb : bal + (avgI * (1 + gI) ^ i - avgE * (1 + gE) ^ i)
            = fcBalFrom avgI avgE gI gE bal i (0 + 1) := by
          unfold fcBalFrom fcTerm
          simp
        rw [hb]
      · rw [ih]
        apply List.map_congr_left
        intro k _
        simp only [Function.comp_apply]
        have h1 : i + 1 + k = i + (k + 1) := by omega
        have h2 : fcBalFrom avgI avgE gI gE (bal + (avgI * (1 + gI) ^ i - avgE * (1 + gE) ^ i))
            (i + 1) (k + 1) = fcBalFrom avgI avgE gI gE bal i (k + 1 + 1) := by
          have := fcBalFrom_shift avgI avgE gI gE bal i (k + 1)
          unfold fcTerm at this
          exact this
        rw [h1, h2]

/-- The two-month store of the rounding counterexample: incomes 2 and 1
in April and May 2025. -/
def dbC5 : Db :=
  { emptyDb with transactions := [
      ⟨1, "u", ⟨2025, 4, 1⟩, "inc2", 2, "Sales", TxnType.income⟩,
      ⟨2, "u", ⟨2025, 5, 1⟩, "inc1", 1, "Sales", TxnType.income⟩] }

/-- C5 counterexample: with avgIncome 1.5 and income growth −0.5, the
first projected income is 1.5·0.5 = 0.75, but the returned projection
carries the rounded value 1 — the returned field is not
avgIncome×(1+growth)^i. -/
theorem C5_counterexample :
    ((FinancialIntelligenceService.forecastCashFlow "u" 1 clock0 dbC5).2.map
        FinancialIntelligenceService.CashFlowProjection.projected_income = [1]) ∧
    (((AnalyticsRepository.getMonthlyTrends "u" 6 clock0 dbC5).map
        AnalyticsRepository.TrendData.income).sum /
          ((AnalyticsRepository.getMonthlyTrends "u" 6 clock0 dbC5).length : ℚ)) *
      (1 + FinancialIntelligenceService.calculateGrowthRate
        ((AnalyticsRepository.getMonthlyTrends "u" 6 clock0 dbC5).map
          AnalyticsRepository.TrendData.income)) ^ 1 = 3 / 4 ∧
    ((1 : ℚ) ≠ 3 / 4) := by
  refine ⟨?_, ?_, by norm_num⟩
  · norm_num +decide [FinancialIntelligenceService.forecastCashFlow,
      FinancialIntelligenceService.fcLoop, FinancialIntelligenceService.calculateGrowthRate,
      FinancialIntelligenceService.assumptionsText,
      AnalyticsRepository.getMonthlyTrends, AnalyticsRepository.saveForecast,
      TransactionRepository.getFinancialSummary,
      uniq, sortDesc, insertOrd, dbC5, emptyDb, clock0, round_eq]
  · norm_num +decide [FinancialIntelligenceService.calculateGrowthRate,
      AnalyticsRepository.getMonthlyTrends, uniq, sortDesc, insertOrd, dbC5, emptyDb, clock0]

/-- C5 as amended: `forecastCashFlow` returns the empty sequence when
fewer than 2 months of trailing trend data exist; otherwise it returns
`months` projections whose i-th entry carries avgIncome×(1+incomeGrowth)^i
and avgExpenses×(1+expenseGrowth)^i *rounded to the nearest integer*,
a balance that accumulates the unrounded net projections onto the
financial-summary profit (rounded in the returned record), and
confidence exactly max(0.5, 0.9 − 0.1×i) — a sequence that is
monotonically non-increasing, floored at 0.5, and equal to
[0.8, 0.7, 0.6] for 3 months. -/
theorem C5_forecast (uid : String) (months : Nat) (c : Clock) (s : Db) :
    ((AnalyticsRepository.getMonthlyTrends uid 6 c s).length < 2 →
      (FinancialIntelligenceService.forecastCashFlow uid months c s).2 = []) ∧
    (2 ≤ (AnalyticsRepository.getMonthlyTrends uid 6 c s).length →
      (FinancialIntelligenceService.forecastCashFlow uid months c s).2 =
        (List.range months).map (fcSpecProj c
          (((AnalyticsRepository.getMonthlyTrends uid 6 c s).map
              AnalyticsRepository.TrendData.income).sum /
            ((AnalyticsRepository.getMonthlyTrends uid 6 c s).length : ℚ))
          (((AnalyticsRepository.getMonthlyTrends uid 6 c s).map
              AnalyticsRepository.TrendData.expenses).sum /
            ((AnalyticsRepository.getMonthlyTrends uid 6 c s).length : ℚ))
          (FinancialIntelligenceService.calculateGrowthRate
            ((AnalyticsRepository.getMonthlyTrends uid 6 c s).map
              AnalyticsRepository.TrendData.income))
          (FinancialIntelligenceService.calculateGrowthRate
            ((AnalyticsRepository.getMonthlyTrends uid 6 c s).map
              AnalyticsRepository.TrendData.expenses))
          (TransactionRepository.getFinancialSummary uid s).profit)) ∧
    (∀ (avgI avgE gI gE b : ℚ) (i j : Nat), i ≤ j →
      (fcSpecProj c avgI avgE gI gE b j).confidence ≤ (fcSpecProj c avgI avgE gI gE b i).confidence ∧
      1 / 2 ≤ (fcSpecProj c avgI avgE gI gE b i).confidence) ∧
    (2 ≤ (AnalyticsRepository.getMonthlyTrends uid 6 c s).length → months = 3 →
      (FinancialIntelligenceService.forecastCashFlow uid months c s).2.map
          FinancialIntelligenceService.CashFlowProjection.confidence = [4 / 5, 7 / 10, 3 / 5]) := by
  have hmono : ∀ (avgI avgE gI gE b : ℚ) (i j : Nat), i ≤ j →
      (fcSpecProj c avgI avgE gI gE b j).confidence ≤ (fcSpecProj c avgI avgE gI gE b i).confidence ∧
      1 / 2 ≤ (fcSpecProj c avgI avgE gI gE b i).confidence := by
    intro avgI avgE gI gE b i j hij
    constructor
    · show max (1 / 2) (9 / 10 - ((j + 1 : Nat) : ℚ) * (1 / 10))
        ≤ max (1 / 2) (9 / 10 - ((i + 1 : Nat) : ℚ) * (1 / 10))
      apply max_le_max (le_refl _)
      have : ((i : ℚ)) ≤ (j : ℚ) := by exact_mod_cast hij
      push_cast
      linarith
    · exact le_max_left _ _
  have hmain : 2 ≤ (AnalyticsRepository.getMonthlyTrends uid 6 c s).length →
      (FinancialIntelligenceService.forecastCashFlow uid months c s).2 =
        (List.range months).map (fcSpecProj c
          (((AnalyticsRepository.getMonthlyTrends uid 6 c s).map
              AnalyticsRepository.TrendData.income).sum /
            ((AnalyticsRepository.getMonthlyTrends uid 6 c s).length : ℚ))
          (((AnalyticsRepository.getMonthlyTrends uid 6 c s).map
              AnalyticsRepository.TrendData.expenses).sum /
            ((AnalyticsRepository.getMonthlyTrends uid 6 c s).length : ℚ))
          (FinancialIntelligenceService.calculateGrowthRate
            ((AnalyticsRepository.getMonthlyTrends uid 6 c s).map
              AnalyticsRepository.TrendData.income))
          (FinancialIntelligenceService.calculateGrowthRate
            ((AnalyticsRepository.getMonthlyTrends uid 6 c s).map
              AnalyticsRepository.TrendData.expenses))
          (TransactionRepository.getFinancialSummary uid s).profit) := by
    intro hlen
    unfold FinancialIntelligenceService.forecastCashFlow
    rw [if_neg (not_lt.mpr hlen)]
    simp only
    rw [fcLoop_snd]
    apply List.map_congr_left
    intro k _
    unfold fcSpecProj
    rw [show 1 + k = k + 1 from by omega]
  refine ⟨?_, hmain, hmono, ?_⟩
  · intro hlen
    unfold FinancialIntelligenceService.forecastCashFlow
    rw [if_pos hlen]
  · intro hlen hm
    subst hm
    rw [hmain hlen]
    rw [show List.range 3 = [0, 1, 2] from rfl]
    simp only [List.map_cons, List.map_nil, fcSpecProj]
    norm_num

/-- Witness for C5: the empty-store forecast is empty, and the
confidence bound holds at concrete indices. -/
theorem C5_forecast_witness :
    (FinancialIntelligenceService.forecastCashFlow "u" 5 clock0 emptyDb).2 = [] ∧
    (1 : ℚ) / 2 ≤ (fcSpecProj clock0 0 0 0 0 0 2).confidence :=
  ⟨(C5_forecast "u" 5 clock0 emptyDb).1
      (by norm_num [AnalyticsRepository.getMonthlyTrends, uniq, sortDesc, emptyDb]),
   ((C5_forecast "u" 5 clock0 emptyDb).2.2.1 0 0 0 0 0 2 3 (by norm_num)).2⟩

/-! ## C8 — idempotence of detection -/

/-- A non-reviewed anomaly record for the transaction already exists —
the lookup-before-insert guard of `detectAnomalies`. -/
def anomRecorded (uid : String) (st : Db) (t : Txn) : Prop :=
  ((AlertRepository.getAnomalies uid false st).any (fun a => a.transaction_id == t.id)) = true

/-- The full skip condition of one `detectAnomalies` iteration (the JS
truthiness guard on the rowid included). -/
def anomBlk (uid : String) (st : Db) (t : Txn) : Prop :=
  anomRecorded uid st t ∨ t.id = 0

/-- A recurring row with the pattern's description and category already
exists — the lookup-before-insert guard of `detectRecurringPatterns`. -/
def recBlk (uid : String) (st : Db) (p : TransactionRepository.RecurPattern) : Prop :=
  ((AlertRepository.getRecurringTransactions uid st).any (fun r =>
    r.description == p.description && r.category == p.category)) = true

theorem anomalyStep_eq_of_blk (uid : String) (c : Clock) (st : Db) (t : Txn)
    (h : anomBlk uid st t) : FinancialIntelligenceService.anomalyStep uid c st t = st := by
  simp only [FinancialIntelligenceService.anomalyStep]
  rcases h with h | h
  · unfold anomRecorded at h
    rw [if_pos h]
  · by_cases h1 : ((AlertRepository.getAnomalies uid false st).any
        (fun a2 => a2.transaction_id == t.id)) = true
    · rw [if_pos h1]
    · rw [if_neg h1, if_pos (by simpa using h)]

theorem anomalyStep_anomalies_mem (uid : String) (c : Clock) (st : Db) (w : Txn)
    (a : Anomaly) (h : a ∈ st.anomalies) :
    a ∈ (FinancialIntelligenceService.anomalyStep uid c st w).anomalies := by
  simp only [FinancialIntelligenceService.anomalyStep]
  by_cases h1 : ((AlertRepository.getAnomalies uid false st).any
      (fun a2 => a2.transaction_id == w.id)) = true
  · rw [if_pos h1]; exact h
  · rw [if_neg h1]
    by_cases h2 : (w.id == 0) = true
    · rw [if_pos h2]; exact h
    · rw [if_neg h2]
      show a ∈ st.anomalies ++ _
      exact List.mem_append.mpr (Or.inl h)

theorem anomRecorded_mono (uid : String) (st st2 : Db) (t : Txn)
    (hsub : ∀ a ∈ st.anomalies, a ∈ st2.anomalies)
    (h : anomRecorded uid st t) : anomRecorded uid st2 t := by
  unfold anomRecorded AlertRepository.getAnomalies at h ⊢
  rw [List.any_eq_true] at h ⊢
  obtain ⟨a, ha, hp⟩ := h
  have hmem := List.mem_filter.mp ha
  exact ⟨a, List.mem_filter.mpr ⟨hsub a hmem.1, hmem.2⟩, hp⟩

theorem anomBlk_pres (uid : String) (c : Clock) (st : Db) (v w : Txn)
    (h : anomBlk uid st v) :
    anomBlk uid (FinancialIntelligenceService.anomalyStep uid c st w) v := by
  rcases h with h | h
  · exact Or.inl (anomRecorded_mono uid st _ v (anomalyStep_anomalies_mem uid c st w) h)
  · exact Or.inr h

theorem anomRecorded_after_create (uid : String) (c : Clock) (st : Db) (t : Txn)
    (ty : AlertType) (sv : Severity) (ti ms : String) (pd : Option AlertData)
    (aty : String) (sev : ℚ) (desc : String) :
    anomRecorded uid (AlertRepository.createAlert c uid ty sv ti ms pd
      (AlertRepository.createAnomaly uid t.id aty sev desc st)) t := by
  unfold anomRecorded AlertRepository.getAnomalies
  rw [List.any_eq_true]
  refine ⟨⟨st.nextAnomalyId, uid, t.id, aty, sev, desc, 0, 0⟩, ?_, by simp⟩
  apply List.mem_filter.mpr
  refine ⟨?_, by simp⟩
  show _ ∈ st.anomalies ++ _
  exact List.mem_append.mpr (Or.inr (List.mem_singleton.mpr rfl))

theorem anomBlk_estab (uid : String) (c : Clock) (st : Db) (t : Txn) :
    anomBlk uid (FinancialIntelligenceService.anomalyStep uid c st t) t := by
  by_cases h1 : ((AlertRepository.getAnomalies uid false st).any
      (fun a2 => a2.transaction_id == t.id)) = true
  · rw [anomalyStep_eq_of_blk uid c st t (Or.inl h1)]
    exact Or.inl h1
  · by_cases h2 : t.id = 0
    · exact Or.inr h2
    · left
      simp only [FinancialIntelligenceService.anomalyStep, if_neg h1,
        if_neg (by simpa using h2 : ¬(t.id == 0) = true)]
      apply anomRecorded_after_create

/-- `detectAnomalies` never changes the transaction table. -/
theorem detectAnomalies_transactions (uid : String) (c : Clock) (s : Db) :
    (FinancialIntelligenceService.detectAnomalies uid c s).transactions = s.transactions := by
  unfold FinancialIntelligenceService.detectAnomalies
  exact foldl_preserve (FinancialIntelligenceService.anomalyStep uid c)
    (fun st => st.transactions = s.transactions)
    (fun st v hv => by
      show (FinancialIntelligenceService.anomalyStep uid c st v).transactions = s.transactions
      rw [anomalyStep_transactions]
      exact hv) _ s rfl

/-- `getAnomalousTransactions` depends only on the transaction table. -/
theorem getAnomalous_congr (uid : String) (thr : ℚ) (st s : Db)
    (h : st.transactions = s.transactions) :
    TransactionRepository.getAnomalousTransactions uid thr st =
      TransactionRepository.getAnomalousTransactions uid thr s := by
  unfold TransactionRepository.getAnomalousTransactions
  rw [h]

theorem detectAnomalies_idem (uid : String) (c : Clock) (s : Db) :
    FinancialIntelligenceService.detectAnomalies uid c
        (FinancialIntelligenceService.detectAnomalies uid c s) =
      FinancialIntelligenceService.detectAnomalies uid c s := by
  have htx := detectAnomalies_transactions uid c s
  have hblocked : ∀ t ∈ TransactionRepository.getAnomalousTransactions uid 3 s,
      anomBlk uid (FinancialIntelligenceService.detectAnomalies uid c s) t :=
    foldl_all_blocked _ (anomBlk uid) (fun st v w => anomBlk_pres uid c st v w)
      (fun st v => anomBlk_estab uid c st v) _ s
  show (TransactionRepository.getAnomalousTransactions uid 3
      (FinancialIntelligenceService.detectAnomalies uid c s)).foldl
    (FinancialIntelligenceService.anomalyStep uid c)
    (FinancialIntelligenceService.detectAnomalies uid c s) = _
  rw [getAnomalous_congr uid 3 _ s htx]
  exact foldl_all_blocked_id _ (anomBlk uid)
    (fun st v => anomalyStep_eq_of_blk uid c st v) _ _ hblocked

theorem recurringStep_eq_of_blk (uid : String) (acc : Db × List RecurringTxn)
    (p : TransactionRepository.RecurPattern) (h : recBlk uid acc.1 p) :
    FinancialIntelligenceService.recurringStep uid acc p = acc := by
  simp only [FinancialIntelligenceService.recurringStep]
  unfold recBlk at h
  rw [if_pos h]

theorem recurringStep_recurrings_mem (uid : String) (acc : Db × List RecurringTxn)
    (w : TransactionRepository.RecurPattern) (r : RecurringTxn) (h : r ∈ acc.1.recurrings) :
    r ∈ (FinancialIntelligenceService.recurringStep uid acc w).1.recurrings := by
  simp only [FinancialIntelligenceService.recurringStep]
  by_cases h1 : ((AlertRepository.getRecurringTransactions uid acc.1).any (fun r2 =>
      r2.description == w.description && r2.category == w.category)) = true
  · rw [if_pos h1]; exact h
  · rw [if_neg h1]
    show r ∈ acc.1.recurrings ++ _
    exact List.mem_append.mpr (Or.inl h)

theorem recBlk_mono (uid : String) (st st2 : Db) (p : TransactionRepository.RecurPattern)
    (hsub : ∀ r ∈ st.recurrings, r ∈ st2.recurrings)
    (h : recBlk uid st p) : recBlk uid st2 p := by
  unfold recBlk AlertRepository.getRecurringTransactions at h ⊢
  rw [List.any_eq_true] at h ⊢
  obtain ⟨r, hr, hp⟩ := h
  have hmem := List.mem_filter.mp hr
  exact ⟨r, List.mem_filter.mpr ⟨hsub r hmem.1, hmem.2⟩, hp⟩

theorem recBlk_estab (uid : String) (acc : Db × List RecurringTxn)
    (p : TransactionRepository.RecurPattern) :
    recBlk uid (FinancialIntelligenceService.recurringStep uid acc p).1 p := by
  by_cases h1 : recBlk uid acc.1 p
  · rw [recurringStep_eq_of_blk uid acc p h1]
    exact h1
  · simp only [FinancialIntelligenceService.recurringStep]
    rw [if_neg (by unfold recBlk at h1; exact h1 :
      ¬((AlertRepository.getRecurringTransactions uid acc.1).any (fun r2 =>
        r2.description == p.description && r2.category == p.category)) = true)]
    unfold recBlk AlertRepository.getRecurringTransactions
    rw [List.any_eq_true]
    refine ⟨FinancialIntelligenceService.recurringOf uid acc.1.nextRecurringId p, ?_, ?_⟩
    · apply List.mem_filter.mpr
      constructor
      · show _ ∈ acc.1.recurrings ++ _
        refine List.mem_append.mpr (Or.inr (List.mem_singleton.mpr ?_))
        rfl
      · simp [FinancialIntelligenceService.recurringOf]
    · simp [FinancialIntelligenceService.recurringOf]

theorem recurringStep_transactions (uid : String) (acc : Db × List RecurringTxn)
    (p : TransactionRepository.RecurPattern) :
    (FinancialIntelligenceService.recurringStep uid acc p).1.transactions = acc.1.transactions := by
  simp only [FinancialIntelligenceService.recurringStep]
  by_cases h1 : ((AlertRepository.getRecurringTransactions uid acc.1).any (fun r2 =>
      r2.description == p.description && r2.category == p.category)) = true
  · rw [if_pos h1]
  · rw [if_neg h1]
    rfl

/-- `detectRecurringTransactions` depends only on the transaction table. -/
theorem detectRecurringTx_congr (uid : String) (st s : Db)
    (h : st.transactions = s.transactions) :
    TransactionRepository.detectRecurringTransactions uid st =
      TransactionRepository.detectRecurringTransactions uid s := by
  unfold TransactionRepository.detectRecurringTransactions
  rw [h]

theorem detectRecurring_fst_transactions (uid : String) (s : Db) :
    (FinancialIntelligenceService.detectRecurringPatterns uid s).1.transactions
      = s.transactions := by
  unfold FinancialIntelligenceService.detectRecurringPatterns
  exact foldl_preserve (FinancialIntelligenceService.recurringStep uid)
    (fun acc => acc.1.transactions = s.transactions)
    (fun acc v hv => by
      show (FinancialIntelligenceService.recurringStep uid acc v).1.transactions = s.transactions
      rw [recurringStep_transactions]
      exact hv) _ (s, []) rfl

/-- C8: running detection a second time with no intervening change is a
no-op — `detectAnomalies` leaves the store exactly as the first run
left it (no new anomaly rows, no new alerts), and
`detectRecurringPatterns` likewise changes nothing and reports an empty
list of newly created recurring rows. -/
theorem C8_detection_idempotent (uid : String) (c : Clock) (s : Db) :
    FinancialIntelligenceService.detectAnomalies uid c
        (FinancialIntelligenceService.detectAnomalies uid c s) =
      FinancialIntelligenceService.detectAnomalies uid c s ∧
    (FinancialIntelligenceService.detectRecurringPatterns uid
        (FinancialIntelligenceService.detectRecurringPatterns uid s).1).1 =
      (FinancialIntelligenceService.detectRecurringPatterns uid s).1 ∧
    (FinancialIntelligenceService.detectRecurringPatterns uid
        (FinancialIntelligenceService.detectRecurringPatterns uid s).1).2 = [] := by
  refine ⟨detectAnomalies_idem uid c s, ?_⟩
  have htx := detectRecurring_fst_transactions uid s
  have hblocked : ∀ p ∈ TransactionRepository.detectRecurringTransactions uid s,
      recBlk uid (((TransactionRepository.detectRecurringTransactions uid s).foldl
        (FinancialIntelligenceService.recurringStep uid) (s, [])).1) p :=
    foldl_all_blocked (FinancialIntelligenceService.recurringStep uid)
      (fun acc p => recBlk uid acc.1 p)
      (fun acc v w h => recBlk_mono uid acc.1 _ v
        (recurringStep_recurrings_mem uid acc w) h)
      (fun acc v => recBlk_estab uid acc v) _ (s, [])
  have hrun2 : (TransactionRepository.detectRecurringTransactions uid
        (FinancialIntelligenceService.detectRecurringPatterns uid s).1).foldl
      (FinancialIntelligenceService.recurringStep uid)
      ((FinancialIntelligenceService.detectRecurringPatterns uid s).1, []) =
      ((FinancialIntelligenceService.detectRecurringPatterns uid s).1, []) := by
    rw [detectRecurringTx_congr uid _ s htx]
    exact foldl_all_blocked_id _ (fun acc p => recBlk uid acc.1 p)
      (fun acc v h => recurringStep_eq_of_blk uid acc v h) _ _ hblocked
  constructor
  · show ((TransactionRepository.detectRecurringTransactions uid
      (FinancialIntelligenceService.detectRecurringPatterns uid s).1).foldl
      (FinancialIntelligenceService.recurringStep uid)
      ((FinancialIntelligenceService.detectRecurringPatterns uid s).1, [])).1 = _
    rw [hrun2]
  · show ((TransactionRepository.detectRecurringTransactions uid
      (FinancialIntelligenceService.detectRecurringPatterns uid s).1).foldl
      (FinancialIntelligenceService.recurringStep uid)
      ((FinancialIntelligenceService.detectRecurringPatterns uid s).1, [])).2 = _
    rw [hrun2]

/-! ## C1 — same-day alert deduplication

The dedup key of an alert is its type together with a discriminator
read off the data payload: the category for budget alerts, the goal id
for goal alerts, the transaction id for anomaly alerts. -/

/-- Alert discriminators. -/
inductive Discr where
  | cashD
  | budgetD (category : String)
  | goalD (goal_id : Nat)
  | trendD (isRevenue : Bool)
  | anomalyD (transaction_id : Nat)
deriving DecidableEq

/-- The discriminator carried by a data payload. -/
def discrOfData : Option AlertData → Option Discr
  | some (AlertData.cashLow _ _) => some Discr.cashD
  | some (AlertData.budgetCat ct _ _) => some (Discr.budgetD ct)
  | some (AlertData.goalRisk g _) => some (Discr.goalD g)
  | some (AlertData.goalMilestone g _) => some (Discr.goalD g)
  | some (AlertData.trendPrevCur r _ _) => some (Discr.trendD r)
  | some (AlertData.anomalyTx t) => some (Discr.anomalyD t)
  | none => none

/-- The deduplication key of an alert. -/
def keyOf (a : Alert) : AlertType × Option Discr :=
  (a.alert_type, discrOfData a.data)

/-- The owner's alerts created on the clock's current day. -/
def todayAlerts (uid : String) (c : Clock) (st : Db) : List Alert :=
  st.alerts.filter (fun a => a.user_id == uid && decide (a.created_at = c.today))

theorem mem_todayAlerts (uid : String) (c : Clock) (st : Db) (a : Alert) :
    a ∈ todayAlerts uid c st ↔ a ∈ st.alerts ∧ a.user_id = uid ∧ a.created_at = c.today := by
  unfold todayAlerts
  rw [List.mem_filter]
  simp [Bool.and_eq_true, and_assoc]

theorem todayAlerts_create (uid : String) (c : Clock) (st : Db) (ty : AlertType)
    (sv : Severity) (ti ms : String) (pd : Option AlertData) :
    todayAlerts uid c (AlertRepository.createAlert c uid ty sv ti ms pd st)
      = todayAlerts uid c st
        ++ [⟨st.nextAlertId, uid, ty, sv, ti, ms, pd, 0, 0, c.today⟩] := by
  unfold todayAlerts AlertRepository.createAlert
  show List.filter _ (st.alerts ++ _) = _
  rw [List.filter_append]
  simp

theorem createAlert_anomalies (c : Clock) (uid : String) (ty : AlertType) (sv : Severity)
    (ti ms : String) (pd : Option AlertData) (s : Db) :
    (AlertRepository.createAlert c uid ty sv ti ms pd s).anomalies = s.anomalies := rfl

theorem todayAlerts_createAnomaly (uid : String) (c : Clock) (tid : Nat) (aty : String)
    (sev : ℚ) (desc : String) (s : Db) :
    todayAlerts uid c (AlertRepository.createAnomaly uid tid aty sev desc s)
      = todayAlerts uid c s := rfl

/-- A monitoring pass only appends alert and anomaly rows; the
transaction, budget, and goal tables are untouched. -/
def DbExt (s s2 : Db) : Prop :=
  s2.transactions = s.transactions ∧ s2.budgets = s.budgets ∧ s2.goals = s.goals ∧
  (∀ a ∈ s.alerts, a ∈ s2.alerts) ∧ (∀ a ∈ s.anomalies, a ∈ s2.anomalies)

theorem DbExt_refl (s : Db) : DbExt s s :=
  ⟨rfl, rfl, rfl, fun _ h => h, fun _ h => h⟩

theorem DbExt_trans {s1 s2 s3 : Db} (h1 : DbExt s1 s2) (h2 : DbExt s2 s3) : DbExt s1 s3 :=
  ⟨h2.1.trans h1.1, h2.2.1.trans h1.2.1, h2.2.2.1.trans h1.2.2.1,
   fun a h => h2.2.2.2.1 a (h1.2.2.2.1 a h),
   fun a h => h2.2.2.2.2 a (h1.2.2.2.2 a h)⟩

theorem createAlert_ext (c : Clock) (uid : String) (ty : AlertType) (sv : Severity)
    (ti ms : String) (pd : Option AlertData) (s : Db) :
    DbExt s (AlertRepository.createAlert c uid ty sv ti ms pd s) :=
  ⟨rfl, rfl, rfl,
   fun a h => by
     show a ∈ s.alerts ++ _
     exact List.mem_append.mpr (Or.inl h),
   fun _ h => h⟩

theorem createAnomaly_ext (uid : String) (tid : Nat) (aty : String) (sev : ℚ)
    (desc : String) (s : Db) :
    DbExt s (AlertRepository.createAnomaly uid tid aty sev desc s) :=
  ⟨rfl, rfl, rfl, fun _ h => h,
   fun a h => by
     show a ∈ s.anomalies ++ _
     exact List.mem_append.mpr (Or.inl h)⟩

/-- Any-existence checks over `getAlerts` are monotone in the alert
table. -/
theorem getAlerts_any_mono (uid : String) (ir idm : Bool) (p : Alert → Bool) {s s2 : Db}
    (hsub : ∀ a ∈ s.alerts, a ∈ s2.alerts)
    (h : ((AlertRepository.getAlerts uid ir idm s).any p) = true) :
    ((AlertRepository.getAlerts uid ir idm s2).any p) = true := by
  unfold AlertRepository.getAlerts at h ⊢
  rw [List.any_eq_true] at h ⊢
  obtain ⟨a, ha, hp⟩ := h
  have hm := List.mem_filter.mp ha
  exact ⟨a, List.mem_filter.mpr ⟨hsub a hm.1, hm.2⟩, hp⟩

/-- An alert just created by the monitor (unread, undismissed, owned,
today) is seen by any subsequent `getAlerts` existence check whose
predicate accepts it. -/
theorem any_after_create (uid : String) (c : Clock) (st : Db) (ty : AlertType)
    (sv : Severity) (ti ms : String) (pd : Option AlertData) (ir idm : Bool) (p : Alert → Bool)
    (hp : p ⟨st.nextAlertId, uid, ty, sv, ti, ms, pd, 0, 0, c.today⟩ = true) :
    ((AlertRepository.getAlerts uid ir idm
        (AlertRepository.createAlert c uid ty sv ti ms pd st)).any p) = true := by
  unfold AlertRepository.getAlerts AlertRepository.createAlert
  rw [List.any_eq_true]
  refine ⟨⟨st.nextAlertId, uid, ty, sv, ti, ms, pd, 0, 0, c.today⟩, ?_, hp⟩
  apply List.mem_filter.mpr
  refine ⟨?_, by simp⟩
  show _ ∈ st.alerts ++ _
  exact List.mem_append.mpr (Or.inr (List.mem_singleton.mpr rfl))

/-- `JSON.stringify` escaping is the identity on escape-free strings. -/
theorem jsonEscape_plain (s : String) (h : jsonPlain s) : jsonEscape s = s := by
  have haux : ∀ l : List Char, (∀ ch ∈ l, ¬ch = '"' ∧ ¬ch = '\\' ∧ 32 ≤ ch.toNat) →
      l.foldr (fun ch acc => jsonEscChar ch ++ acc) [] = l := by
    intro l
    induction l with
    | nil => intro _; rfl
    | cons ch l ih =>
        intro h2
        have hch := h2 ch (List.mem_cons_self ch l)
        rw [List.foldr_cons, ih (fun c2 hc2 => h2 c2 (List.mem_cons_of_mem ch hc2))]
        unfold jsonEscChar
        rw [if_neg hch.1, if_neg hch.2.1, if_pos hch.2.2]
        rfl
  unfold jsonEscape
  exact congrArg String.mk (haux s.data h)

/-- The budget alert's data blob contains its category whenever the
category survives `JSON.stringify` unescaped (no quote, backslash, or
control character); for other categories the code's substring dedup
check misses the escaped blob. -/
theorem dataIncl_budget (ct : String) (b a : ℚ) (hct : jsonPlain ct) :
    NotificationService.dataIncl (some (AlertData.budgetCat ct b a)) ct = true := by
  unfold NotificationService.dataIncl
  rw [decide_eq_true_eq]
  show ct.data <:+: ("\"category\":\"" ++ jsonEscape ct ++ "\",\"budget\":" ++ numStr b
    ++ ",\"actual\":" ++ numStr a).data
  rw [jsonEscape_plain ct hct]
  simp only [String.data_append]
  exact infix_of_left _ (infix_of_left _ (infix_of_left _ (infix_of_left _
    (infix_of_right _ (List.infix_refl ct.data)))))

/-- The at-risk alert's data blob contains the goal id. -/
theorem dataIncl_goalRisk (g : Nat) (p : ℚ) :
    NotificationService.dataIncl (some (AlertData.goalRisk g p)) (toString g) = true := by
  unfold NotificationService.dataIncl renderData
  rw [decide_eq_true_eq]
  simp only [String.data_append]
  exact infix_of_left _ (infix_of_left _ (infix_of_right _ (List.infix_refl (toString g).data)))

/-- The milestone alert's data blob contains the goal id. -/
theorem dataIncl_goalMilestone (g : Nat) (m : Nat) :
    NotificationService.dataIncl (some (AlertData.goalMilestone g m)) (toString g) = true := by
  unfold NotificationService.dataIncl renderData
  rw [decide_eq_true_eq]
  simp only [String.data_append]
  exact infix_of_left _ (infix_of_left _ (infix_of_right _ (List.infix_refl (toString g).data)))

/-- The milestone alert message contains `50%`. -/
theorem msg_contains_50 (p : GoalProgress) :
    "50%".data <:+: (NotificationService.goalMilestoneMessage p).data := by
  unfold NotificationService.goalMilestoneMessage
  simp only [String.data_append]
  have h : "50%".data <:+: "You have reached 50% of your ".data := by decide
  exact infix_of_left _ (infix_of_left _ h)

/-- The revenue-decline alert message contains `revenue`. -/
theorem msg_contains_revenue (prev cur : ℚ) :
    "revenue".data <:+: (NotificationService.revenueDropMessage prev cur).data := by
  unfold NotificationService.revenueDropMessage
  simp only [String.data_append]
  have h : "revenue".data <:+: "Your revenue dropped by ".data := by decide
  exact infix_of_left _ (infix_of_left _ (infix_of_left _ (infix_of_left _
    (infix_of_left _ (infix_of_left _ h)))))

/-- The expense-spike alert message contains `expenses`. -/
theorem msg_contains_expenses (prev cur : ℚ) :
    "expenses".data <:+: (NotificationService.expenseSpikeMessage prev cur).data := by
  unfold NotificationService.expenseSpikeMessage
  simp only [String.data_append]
  have h : "expenses".data <:+: "Your expenses increased by ".data := by decide
  exact infix_of_left _ (infix_of_left _ (infix_of_left _ (infix_of_left _
    (infix_of_left _ (infix_of_left _ h)))))

/-- Inversion: a budget discriminator comes from a budget payload of
the same category. -/
theorem discr_budget_inv (d : Option AlertData) (ct : String)
    (h : discrOfData d = some (Discr.budgetD ct)) :
    ∃ b a, d = some (AlertData.budgetCat ct b a) := by
  match d with
  | none => simp [discrOfData] at h
  | some (AlertData.cashLow b t) => simp [discrOfData] at h
  | some (AlertData.budgetCat c2 b a) =>
      simp [discrOfData] at h
      exact ⟨b, a, by rw [h]⟩
  | some (AlertData.goalRisk g p) => simp [discrOfData] at h
  | some (AlertData.goalMilestone g m) => simp [discrOfData] at h
  | some (AlertData.trendPrevCur r p c2) => simp [discrOfData] at h
  | some (AlertData.anomalyTx t) => simp [discrOfData] at h

/-- The inline same-day dedup check of `monitorCashBalance`. -/
def cashBlocked (uid : String) (c : Clock) (st : Db) : Bool :=
  (AlertRepository.getAlerts uid false false st).any (fun a =>
    decide (a.alert_type = AlertType.low_cash) && decide (a.created_at = c.today))

/-- Invariant of the monitoring passes over the owner's same-day
alerts: dedup keys pairwise distinct; same-day alerts unread and
undismissed (the monitors create them so); trend alerts carry the
keyword their dedup check greps the message for; each anomaly alert is
backed by a non-reviewed anomaly record for its transaction. -/
def MonInv (uid : String) (c : Clock) (st : Db) : Prop :=
  (todayAlerts uid c st).Pairwise (fun a b => keyOf a ≠ keyOf b) ∧
  (∀ a ∈ todayAlerts uid c st, a.read = 0 ∧ a.dismissed = 0) ∧
  (∀ a ∈ todayAlerts uid c st, discrOfData a.data = some (Discr.trendD true) →
    "revenue".data <:+: a.message.data) ∧
  (∀ a ∈ todayAlerts uid c st, discrOfData a.data = some (Discr.trendD false) →
    "expenses".data <:+: a.message.data) ∧
  (∀ a ∈ todayAlerts uid c st, ∀ tid : Nat, discrOfData a.data = some (Discr.anomalyD tid) →
    ∃ rec2 ∈ st.anomalies, rec2.user_id = uid ∧ rec2.reviewed = 0 ∧ rec2.transaction_id = tid)

/-- Inserting an alert whose key no same-day alert carries (and whose
message/record side conditions hold) preserves the invariant. -/
theorem MonInv_insert (uid : String) (c : Clock) (st : Db) (ty : AlertType)
    (sv : Severity) (ti ms : String) (pd : Option AlertData)
    (hinv : MonInv uid c st)
    (hkey : ∀ a ∈ todayAlerts uid c st, (a.alert_type, discrOfData a.data) ≠ (ty, discrOfData pd))
    (hrev : discrOfData pd = some (Discr.trendD true) → "revenue".data <:+: ms.data)
    (hexp : discrOfData pd = some (Discr.trendD false) → "expenses".data <:+: ms.data)
    (hanom : ∀ tid : Nat, discrOfData pd = some (Discr.anomalyD tid) →
      ∃ rec2 ∈ st.anomalies, rec2.user_id = uid ∧ rec2.reviewed = 0 ∧ rec2.transaction_id = tid) :
    MonInv uid c (AlertRepository.createAlert c uid ty sv ti ms pd st) := by
  obtain ⟨h1, h2, h3, h4, h5⟩ := hinv
  unfold MonInv
  rw [todayAlerts_create, createAlert_anomalies]
  refine ⟨?_, ?_, ?_, ?_, ?_⟩
  · rw [List.pairwise_append]
    refine ⟨h1, List.pairwise_singleton _ _, ?_⟩
    intro a ha b hb
    rw [List.mem_singleton] at hb
    subst hb
    show keyOf a ≠ (ty, discrOfData pd)
    exact hkey a ha
  · intro a ha
    rcases List.mem_append.mp ha with h | h
    · exact h2 a h
    · rw [List.mem_singleton] at h
      subst h
      exact ⟨rfl, rfl⟩
  · intro a ha hd
    rcases List.mem_append.mp ha with h | h
    · exact h3 a h hd
    · rw [List.mem_singleton] at h
      subst h
      exact hrev hd
  · intro a ha hd
    rcases List.mem_append.mp ha with h | h
    · exact h4 a h hd
    · rw [List.mem_singleton] at h
      subst h
      exact hexp hd
  · intro a ha tid hd
    rcases List.mem_append.mp ha with h | h
    · exact h5 a h tid hd
    · rw [List.mem_singleton] at h
      subst h
      exact hanom tid hd

/-- Recording an anomaly row preserves the invariant (alerts untouched,
records only grow). -/
theorem MonInv_createAnomaly (uid : String) (c : Clock) (st : Db) (tid : Nat)
    (aty : String) (sev : ℚ) (desc : String) (hinv : MonInv uid c st) :
    MonInv uid c (AlertRepository.createAnomaly uid tid aty sev desc st) := by
  obtain ⟨h1, h2, h3, h4, h5⟩ := hinv
  unfold MonInv
  rw [todayAlerts_createAnomaly]
  refine ⟨h1, h2, h3, h4, ?_⟩
  intro a ha tid2 hd
  obtain ⟨r, hr, hprops⟩ := h5 a ha tid2 hd
  refine ⟨r, ?_, hprops⟩
  show r ∈ st.anomalies ++ _
  exact List.mem_append.mpr (Or.inl hr)

/-! ### The cash-balance phase -/

theorem cashBlocked_mono (uid : String) (c : Clock) {st st2 : Db}
    (he : DbExt st st2) (h : cashBlocked uid c st = true) : cashBlocked uid c st2 = true := by
  unfold cashBlocked at h ⊢
  exact getAlerts_any_mono uid false false _ he.2.2.2.1 h

theorem monitorCashBalance_ext (uid : String) (thr : ℚ) (c : Clock) (s : Db) :
    DbExt s (NotificationService.monitorCashBalance uid thr c s) := by
  simp only [NotificationService.monitorCashBalance]
  by_cases h1 : (TransactionRepository.getFinancialSummary uid s).profit < thr
  · rw [if_pos h1]
    by_cases h2 : cashBlocked uid c s = true
    · unfold cashBlocked at h2
      rw [if_pos h2]
      exact DbExt_refl s
    · unfold cashBlocked at h2
      rw [if_neg h2]
      exact createAlert_ext _ _ _ _ _ _ _ _
  · rw [if_neg h1]
    exact DbExt_refl s

/-- After the cash phase, a low-profit state carries a visible same-day
low-cash alert. -/
theorem monitorCashBalance_post (uid : String) (thr : ℚ) (c : Clock) (s : Db)
    (h : (TransactionRepository.getFinancialSummary uid s).profit < thr) :
    cashBlocked uid c (NotificationService.monitorCashBalance uid thr c s) = true := by
  simp only [NotificationService.monitorCashBalance]
  rw [if_pos h]
  by_cases h2 : cashBlocked uid c s = true
  · unfold cashBlocked at h2
    rw [if_pos h2]
    exact h2
  · unfold cashBlocked at h2
    rw [if_neg h2]
    unfold cashBlocked
    apply any_after_create
    simp

/-- The cash phase is a no-op when its dedup guard already holds (or
no alert is due). -/
theorem monitorCashBalance_id (uid : String) (thr : ℚ) (c : Clock) (s : Db)
    (h : (TransactionRepository.getFinancialSummary uid s).profit < thr →
      cashBlocked uid c s = true) :
    NotificationService.monitorCashBalance uid thr c s = s := by
  simp only [NotificationService.monitorCashBalance]
  by_cases h1 : (TransactionRepository.getFinancialSummary uid s).profit < thr
  · rw [if_pos h1]
    have h2 := h h1
    unfold cashBlocked at h2
    rw [if_pos h2]
  · rw [if_neg h1]

theorem monitorCashBalance_MonInv (uid : String) (thr : ℚ) (c : Clock) (s : Db)
    (hinv : MonInv uid c s) :
    MonInv uid c (NotificationService.monitorCashBalance uid thr c s) := by
  simp only [NotificationService.monitorCashBalance]
  by_cases h1 : (TransactionRepository.getFinancialSummary uid s).profit < thr
  · rw [if_pos h1]
    by_cases h2 : cashBlocked uid c s = true
    · unfold cashBlocked at h2
      rw [if_pos h2]
      exact hinv
    · have h2k := h2
      unfold cashBlocked at h2
      rw [if_neg h2]
      apply MonInv_insert uid c s _ _ _ _ _ hinv
      · intro a ha hk
        apply h2k
        have ha2 := (mem_todayAlerts uid c s a).mp ha
        have hvis := hinv.2.1 a ha
        have hty : a.alert_type = AlertType.low_cash := congrArg Prod.fst hk
        unfold cashBlocked
        rw [List.any_eq_true]
        refine ⟨a, ?_, ?_⟩
        · unfold AlertRepository.getAlerts
          apply List.mem_filter.mpr
          refine ⟨ha2.1, ?_⟩
          simp [ha2.2.1, hvis.1, hvis.2]
        · simp [hty, ha2.2.2]
      · intro hd
        simp [discrOfData] at hd
      · intro hd
        simp [discrOfData] at hd
      · intro tid hd
        simp [discrOfData] at hd
  · rw [if_neg h1]
    exact hinv

/-- New same-day alerts of the cash phase all carry the low-cash key. -/
theorem monitorCashBalance_newkeys (uid : String) (thr : ℚ) (c : Clock) (s : Db) :
    ∀ a ∈ todayAlerts uid c (NotificationService.monitorCashBalance uid thr c s),
      a ∈ todayAlerts uid c s ∨ keyOf a = (AlertType.low_cash, some Discr.cashD) := by
  intro a ha
  simp only [NotificationService.monitorCashBalance] at ha
  by_cases h1 : (TransactionRepository.getFinancialSummary uid s).profit < thr
  · rw [if_pos h1] at ha
    by_cases h2 : cashBlocked uid c s = true
    · unfold cashBlocked at h2
      rw [if_pos h2] at ha
      exact Or.inl ha
    · unfold cashBlocked at h2
      rw [if_neg h2, todayAlerts_create] at ha
      rcases List.mem_append.mp ha with h | h
      · exact Or.inl h
      · rw [List.mem_singleton] at h
        subst h
        exact Or.inr rfl
  · rw [if_neg h1] at ha
    exact Or.inl ha

/-! ### The budget phase -/

theorem budgetBlocked_mono (uid : String) (c : Clock) (v : BudgetVariance) {st st2 : Db}
    (he : DbExt st st2) (h : NotificationService.budgetBlocked uid c st v = true) :
    NotificationService.budgetBlocked uid c st2 v = true := by
  unfold NotificationService.budgetBlocked at h ⊢
  exact getAlerts_any_mono uid false false _ he.2.2.2.1 h

theorem budgetStep_id (uid : String) (c : Clock) (st : Db) (v : BudgetVariance)
    (h : NotificationService.budgetBlocked uid c st v = true) :
    NotificationService.budgetStep uid c st v = st := by
  simp only [NotificationService.budgetStep]
  rw [if_pos h]

theorem budgetStep_ext (uid : String) (c : Clock) (st : Db) (v : BudgetVariance) :
    DbExt st (NotificationService.budgetStep uid c st v) := by
  by_cases h1 : NotificationService.budgetBlocked uid c st v = true
  · rw [budgetStep_id uid c st v h1]
    exact DbExt_refl st
  · simp only [NotificationService.budgetStep]
    rw [if_neg h1]
    exact createAlert_ext _ _ _ _ _ _ _ _

theorem budgetStep_estab (uid : String) (c : Clock) (st : Db) (v : BudgetVariance)
    (hpl : jsonPlain v.budget.category) :
    NotificationService.budgetBlocked uid c (NotificationService.budgetStep uid c st v) v
      = true := by
  by_cases h1 : NotificationService.budgetBlocked uid c st v = true
  · rw [budgetStep_id uid c st v h1]
    exact h1
  · simp only [NotificationService.budgetStep]
    rw [if_neg h1]
    unfold NotificationService.budgetBlocked
    apply any_after_create
    simp only [Bool.and_eq_true, decide_eq_true_eq]
    exact ⟨⟨by trivial, dataIncl_budget v.budget.category v.budget.amount v.actual hpl⟩,
      by trivial⟩

theorem budgetStep_MonInv (uid : String) (c : Clock) (st : Db) (v : BudgetVariance)
    (hinv : MonInv uid c st) (hpl : jsonPlain v.budget.category) :
    MonInv uid c (NotificationService.budgetStep uid c st v) := by
  by_cases h1 : NotificationService.budgetBlocked uid c st v = true
  · rw [budgetStep_id uid c st v h1]
    exact hinv
  · simp only [NotificationService.budgetStep]
    rw [if_neg h1]
    apply MonInv_insert uid c st _ _ _ _ _ hinv
    · intro a ha hk
      apply h1
      have ha2 := (mem_todayAlerts uid c st a).mp ha
      have hvis := hinv.2.1 a ha
      have hty : a.alert_type = AlertType.budget_overrun := congrArg Prod.fst hk
      have hdd : discrOfData a.data = some (Discr.budgetD v.budget.category) :=
        congrArg Prod.snd hk
      obtain ⟨b2, a2, hdata⟩ := discr_budget_inv a.data _ hdd
      unfold NotificationService.budgetBlocked
      rw [List.any_eq_true]
      refine ⟨a, ?_, ?_⟩
      · unfold AlertRepository.getAlerts
        apply List.mem_filter.mpr
        refine ⟨ha2.1, ?_⟩
        simp [ha2.2.1, hvis.1, hvis.2]
      · rw [hdata]
        simp only [Bool.and_eq_true, decide_eq_true_eq]
        exact ⟨⟨hty, dataIncl_budget v.budget.category b2 a2 hpl⟩, ha2.2.2⟩
    · intro hd
      simp [discrOfData] at hd
    · intro hd
      simp [discrOfData] at hd
    · intro tid hd
      simp [discrOfData] at hd

theorem budgetStep_newkeys (uid : String) (c : Clock) (st : Db) (v : BudgetVariance) :
    ∀ a ∈ todayAlerts uid c (NotificationService.budgetStep uid c st v),
      a ∈ todayAlerts uid c st ∨
        ∃ ct, keyOf a = (AlertType.budget_overrun, some (Discr.budgetD ct)) := by
  intro a ha
  by_cases h1 : NotificationService.budgetBlocked uid c st v = true
  · rw [budgetStep_id uid c st v h1] at ha
    exact Or.inl ha
  · simp only [NotificationService.budgetStep] at ha
    rw [if_neg h1, todayAlerts_create] at ha
    rcases List.mem_append.mp ha with h | h
    · exact Or.inl h
    · rw [List.mem_singleton] at h
      subst h
      exact Or.inr ⟨v.budget.category, rfl⟩

theorem monitorBudgets_ext (uid : String) (c : Clock) (s : Db) :
    DbExt s (NotificationService.monitorBudgets uid c s) := by
  unfold NotificationService.monitorBudgets
  exact foldl_preserve (NotificationService.budgetStep uid c) (fun st => DbExt s st)
    (fun st v hv => by
      show DbExt s (NotificationService.budgetStep uid c st v)
      exact DbExt_trans hv (budgetStep_ext uid c st v)) _ s (DbExt_refl s)

/-- After the budget phase, every reported variance whose category is
escape-free has a visible same-day alert of its category (for other
categories the code's dedup guard stays blind to the escaped blob). -/
theorem monitorBudgets_post (uid : String) (c : Clock) (s : Db) :
    ∀ v ∈ BudgetRepository.checkBudgetAlerts uid c s, jsonPlain v.budget.category →
      NotificationService.budgetBlocked uid c (NotificationService.monitorBudgets uid c s) v
        = true := by
  unfold NotificationService.monitorBudgets
  exact foldl_all_blocked (NotificationService.budgetStep uid c)
    (fun st v => jsonPlain v.budget.category →
      NotificationService.budgetBlocked uid c st v = true)
    (fun st v w h hpl => budgetBlocked_mono uid c v (budgetStep_ext uid c st w) (h hpl))
    (fun st v hpl => budgetStep_estab uid c st v hpl) _ s

theorem monitorBudgets_id (uid : String) (c : Clock) (s : Db)
    (h : ∀ v ∈ BudgetRepository.checkBudgetAlerts uid c s,
      NotificationService.budgetBlocked uid c s v = true) :
    NotificationService.monitorBudgets uid c s = s := by
  unfold NotificationService.monitorBudgets
  exact foldl_all_blocked_id _
    (fun st v => NotificationService.budgetBlocked uid c st v = true)
    (fun st v hb => budgetStep_id uid c st v hb) _ s h

theorem monitorBudgets_MonInv (uid : String) (c : Clock) (s : Db) (hinv : MonInv uid c s)
    (hpl : ∀ v ∈ BudgetRepository.checkBudgetAlerts uid c s, jsonPlain v.budget.category) :
    MonInv uid c (NotificationService.monitorBudgets uid c s) := by
  unfold NotificationService.monitorBudgets
  exact foldl_preserve_mem (NotificationService.budgetStep uid c) (MonInv uid c) _
    (fun st v hv hm => by
      show MonInv uid c (NotificationService.budgetStep uid c st v)
      exact budgetStep_MonInv uid c st v hm (hpl v hv)) s hinv

theorem monitorBudgets_newkeys (uid : String) (c : Clock) (s : Db) :
    ∀ a ∈ todayAlerts uid c (NotificationService.monitorBudgets uid c s),
      a ∈ todayAlerts uid c s ∨
        ∃ ct, keyOf a = (AlertType.budget_overrun, some (Discr.budgetD ct)) := by
  unfold NotificationService.monitorBudgets
  exact foldl_preserve (NotificationService.budgetStep uid c)
    (fun st => ∀ a ∈ todayAlerts uid c st, a ∈ todayAlerts uid c s ∨
      ∃ ct, keyOf a = (AlertType.budget_overrun, some (Discr.budgetD ct)))
    (fun st v hv => by
      intro a ha
      rcases budgetStep_newkeys uid c st v a ha with h | h
      · exact hv a h
      · exact Or.inr h) _ s (fun a ha => Or.inl ha)

/-! ### The goal phase -/

/-- No same-day alert of the owner carries a given goal's key yet. -/
def NoGoalKey (uid : String) (c : Clock) (st : Db) (gid : Nat) : Prop :=
  ∀ a ∈ todayAlerts uid c st, keyOf a ≠ (AlertType.goal_progress, some (Discr.goalD gid))

/-- Both dedup guards of one goal entry hold (each conditionally on its
branch firing). -/
def gBlk (uid : String) (c : Clock) (st : Db) (p : GoalProgress) : Prop :=
  (NotificationService.goalRiskCondition p = true →
    NotificationService.goalRiskBlocked uid c st p = true) ∧
  (NotificationService.goalMilestoneCondition p = true →
    NotificationService.goalMilestoneBlocked uid st p = true)

/-- The at-risk condition requires off-track, the milestone condition
requires on-track: at most one branch fires per entry. -/
theorem goalRisk_mile_exclusive (p : GoalProgress)
    (h : NotificationService.goalRiskCondition p = true) :
    NotificationService.goalMilestoneCondition p = false := by
  unfold NotificationService.goalRiskCondition at h
  unfold NotificationService.goalMilestoneCondition
  match hd : p.days_remaining with
  | none =>
      rw [hd] at h
      cases h
  | some d =>
      rw [hd] at h
      simp only [Bool.and_eq_true, Bool.not_eq_true'] at h
      simp [h.2]

theorem gBlk_mono (uid : String) (c : Clock) (p : GoalProgress) {st st2 : Db}
    (he : DbExt st st2) (h : gBlk uid c st p) : gBlk uid c st2 p :=
  ⟨fun hr => by
     have h2 := h.1 hr
     unfold NotificationService.goalRiskBlocked at h2 ⊢
     exact getAlerts_any_mono uid false false _ he.2.2.2.1 h2,
   fun hm => by
     have h2 := h.2 hm
     unfold NotificationService.goalMilestoneBlocked at h2 ⊢
     exact getAlerts_any_mono uid true true _ he.2.2.2.1 h2⟩

theorem goalRiskPart_ext (uid : String) (c : Clock) (st : Db) (p : GoalProgress) :
    DbExt st (NotificationService.goalRiskPart uid c st p) := by
  unfold NotificationService.goalRiskPart
  by_cases hr : NotificationService.goalRiskCondition p = true
  · rw [if_pos hr]
    by_cases hrb : NotificationService.goalRiskBlocked uid c st p = true
    · rw [if_pos hrb]
      exact DbExt_refl st
    · rw [if_neg hrb]
      exact createAlert_ext _ _ _ _ _ _ _ _
  · rw [if_neg hr]
    exact DbExt_refl st

theorem goalMilestonePart_ext (uid : String) (c : Clock) (st : Db) (p : GoalProgress) :
    DbExt st (NotificationService.goalMilestonePart uid c st p) := by
  unfold NotificationService.goalMilestonePart
  by_cases hm : NotificationService.goalMilestoneCondition p = true
  · rw [if_pos hm]
    by_cases hmb : NotificationService.goalMilestoneBlocked uid st p = true
    · rw [if_pos hmb]
      exact DbExt_refl st
    · rw [if_neg hmb]
      exact createAlert_ext _ _ _ _ _ _ _ _
  · rw [if_neg hm]
    exact DbExt_refl st

theorem goalStep_ext (uid : String) (c : Clock) (st : Db) (p : GoalProgress) :
    DbExt st (NotificationService.goalStep uid c st p) := by
  unfold NotificationService.goalStep
  exact DbExt_trans (goalRiskPart_ext uid c st p)
    (goalMilestonePart_ext uid c _ p)

theorem goalStep_id (uid : String) (c : Clock) (st : Db) (p : GoalProgress)
    (h : gBlk uid c st p) : NotificationService.goalStep uid c st p = st := by
  unfold NotificationService.goalStep
  have h1 : NotificationService.goalRiskPart uid c st p = st := by
    unfold NotificationService.goalRiskPart
    by_cases hr : NotificationService.goalRiskCondition p = true
    · rw [if_pos hr, if_pos (h.1 hr)]
    · rw [if_neg hr]
  rw [h1]
  unfold NotificationService.goalMilestonePart
  by_cases hm : NotificationService.goalMilestoneCondition p = true
  · rw [if_pos hm, if_pos (h.2 hm)]
  · rw [if_neg hm]

theorem goalStep_estab (uid : String) (c : Clock) (st : Db) (p : GoalProgress) :
    gBlk uid c (NotificationService.goalStep uid c st p) p := by
  constructor
  · intro hr
    have h1 : NotificationService.goalRiskBlocked uid c
        (NotificationService.goalRiskPart uid c st p) p = true := by
      unfold NotificationService.goalRiskPart
      rw [if_pos hr]
      by_cases hrb : NotificationService.goalRiskBlocked uid c st p = true
      · rw [if_pos hrb]
        exact hrb
      · rw [if_neg hrb]
        unfold NotificationService.goalRiskBlocked
        apply any_after_create
        simp [dataIncl_goalRisk]
    have he := goalMilestonePart_ext uid c (NotificationService.goalRiskPart uid c st p) p
    unfold NotificationService.goalStep
    unfold NotificationService.goalRiskBlocked at h1 ⊢
    exact getAlerts_any_mono uid false false _ he.2.2.2.1 h1
  · intro hm
    unfold NotificationService.goalStep NotificationService.goalMilestonePart
    rw [if_pos hm]
    by_cases hmb : NotificationService.goalMilestoneBlocked uid
        (NotificationService.goalRiskPart uid c st p) p = true
    · rw [if_pos hmb]
      exact hmb
    · rw [if_neg hmb]
      unfold NotificationService.goalMilestoneBlocked
      apply any_after_create
      simp only [Bool.and_eq_true, decide_eq_true_eq]
      exact ⟨⟨by trivial, dataIncl_goalMilestone p.goal.id 50⟩, msg_contains_50 p⟩

theorem goalRiskPart_MonInv (uid : String) (c : Clock) (st : Db) (p : GoalProgress)
    (hinv : MonInv uid c st) (hng : NoGoalKey uid c st p.goal.id) :
    MonInv uid c (NotificationService.goalRiskPart uid c st p) := by
  unfold NotificationService.goalRiskPart
  by_cases hr : NotificationService.goalRiskCondition p = true
  · rw [if_pos hr]
    by_cases hrb : NotificationService.goalRiskBlocked uid c st p = true
    · rw [if_pos hrb]
      exact hinv
    · rw [if_neg hrb]
      apply MonInv_insert uid c st _ _ _ _ _ hinv
      · exact fun a ha => hng a ha
      · intro hd
        simp [discrOfData] at hd
      · intro hd
        simp [discrOfData] at hd
      · intro tid hd
        simp [discrOfData] at hd
  · rw [if_neg hr]
    exact hinv

theorem goalMilestonePart_MonInv (uid : String) (c : Clock) (st : Db) (p : GoalProgress)
    (hinv : MonInv uid c st) (hng : NoGoalKey uid c st p.goal.id) :
    MonInv uid c (NotificationService.goalMilestonePart uid c st p) := by
  unfold NotificationService.goalMilestonePart
  by_cases hm : NotificationService.goalMilestoneCondition p = true
  · rw [if_pos hm]
    by_cases hmb : NotificationService.goalMilestoneBlocked uid st p = true
    · rw [if_pos hmb]
      exact hinv
    · rw [if_neg hmb]
      apply MonInv_insert uid c st _ _ _ _ _ hinv
      · exact fun a ha => hng a ha
      · intro hd
        simp [discrOfData] at hd
      · intro hd
        simp [discrOfData] at hd
      · intro tid hd
        simp [discrOfData] at hd
  · rw [if_neg hm]
    exact hinv

theorem goalStep_MonInv (uid : String) (c : Clock) (st : Db) (p : GoalProgress)
    (hinv : MonInv uid c st) (hng : NoGoalKey uid c st p.goal.id) :
    MonInv uid c (NotificationService.goalStep uid c st p) := by
  unfold NotificationService.goalStep
  by_cases hm : NotificationService.goalMilestoneCondition p = true
  · have hr : NotificationService.goalRiskCondition p = false := by
      cases hrc : NotificationService.goalRiskCondition p
      · rfl
      · rw [goalRisk_mile_exclusive p hrc] at hm
        exact absurd hm Bool.false_ne_true
    have hrp : NotificationService.goalRiskPart uid c st p = st := by
      unfold NotificationService.goalRiskPart
      rw [hr]
      simp
    rw [hrp]
    exact goalMilestonePart_MonInv uid c st p hinv hng
  · have hmp : NotificationService.goalMilestonePart uid c
        (NotificationService.goalRiskPart uid c st p) p =
        NotificationService.goalRiskPart uid c st p := by
      unfold NotificationService.goalMilestonePart
      rw [if_neg hm]
    rw [hmp]
    exact goalRiskPart_MonInv uid c st p hinv hng

theorem goalRiskPart_newkeys (uid : String) (c : Clock) (st : Db) (p : GoalProgress) :
    ∀ a ∈ todayAlerts uid c (NotificationService.goalRiskPart uid c st p),
      a ∈ todayAlerts uid c st ∨
        keyOf a = (AlertType.goal_progress, some (Discr.goalD p.goal.id)) := by
  intro a ha
  unfold NotificationService.goalRiskPart at ha
  by_cases hr : NotificationService.goalRiskCondition p = true
  · rw [if_pos hr] at ha
    by_cases hrb : NotificationService.goalRiskBlocked uid c st p = true
    · rw [if_pos hrb] at ha
      exact Or.inl ha
    · rw [if_neg hrb, todayAlerts_create] at ha
      rcases List.mem_append.mp ha with h | h
      · exact Or.inl h
      · rw [List.mem_singleton] at h
        subst h
        exact Or.inr rfl
  · rw [if_neg hr] at ha
    exact Or.inl ha

theorem goalMilestonePart_newkeys (uid : String) (c : Clock) (st : Db) (p : GoalProgress) :
    ∀ a ∈ todayAlerts uid c (NotificationService.goalMilestonePart uid c st p),
      a ∈ todayAlerts uid c st ∨
        keyOf a = (AlertType.goal_progress, some (Discr.goalD p.goal.id)) := by
  intro a ha
  unfold NotificationService.goalMilestonePart at ha
  by_cases hm : NotificationService.goalMilestoneCondition p = true
  · rw [if_pos hm] at ha
    by_cases hmb : NotificationService.goalMilestoneBlocked uid st p = true
    · rw [if_pos hmb] at ha
      exact Or.inl ha
    · rw [if_neg hmb, todayAlerts_create] at ha
      rcases List.mem_append.mp ha with h | h
      · exact Or.inl h
      · rw [List.mem_singleton] at h
        subst h
        exact Or.inr rfl
  · rw [if_neg hm] at ha
    exact Or.inl ha

theorem goalStep_newkeys (uid : String) (c : Clock) (st : Db) (p : GoalProgress) :
    ∀ a ∈ todayAlerts uid c (NotificationService.goalStep uid c st p),
      a ∈ todayAlerts uid c st ∨
        keyOf a = (AlertType.goal_progress, some (Discr.goalD p.goal.id)) := by
  intro a ha
  unfold NotificationService.goalStep at ha
  rcases goalMilestonePart_newkeys uid c _ p a ha with h | h
  · rcases goalRiskPart_newkeys uid c st p a h with h2 | h2
    · exact Or.inl h2
    · exact Or.inr h2
  · exact Or.inr h

/-- The `monitorGoals` loop preserves the invariant when the processed
entries have pairwise distinct goal ids none of which is keyed yet. -/
theorem goalLoop_MonInv (uid : String) (c : Clock) :
    ∀ (l : List GoalProgress) (st : Db), MonInv uid c st →
      (∀ p ∈ l, NoGoalKey uid c st p.goal.id) →
      (l.map (fun p => p.goal.id)).Nodup →
      MonInv uid c (l.foldl (NotificationService.goalStep uid c) st) := by
  intro l
  induction l with
  | nil =>
      intro st hinv _ _
      simpa using hinv
  | cons p l ih =>
      intro st hinv hng hnd
      rw [List.foldl_cons]
      have hnd2 : p.goal.id ∉ l.map (fun q => q.goal.id) ∧
          (l.map (fun q => q.goal.id)).Nodup := by
        rw [List.map_cons] at hnd
        exact List.nodup_cons.mp hnd
      apply ih
      · exact goalStep_MonInv uid c st p hinv (hng p (List.mem_cons_self p l))
      · intro q hq a ha hk
        rcases goalStep_newkeys uid c st p a ha with h | h
        · exact hng q (List.mem_cons_of_mem p hq) a h hk
        · rw [h] at hk
          have hid : p.goal.id = q.goal.id := by
            have h2 := congrArg Prod.snd hk
            simpa using h2
          exact hnd2.1 (by rw [hid]; exact List.mem_map.mpr ⟨q, hq, rfl⟩)
      · exact hnd2.2

theorem monitorGoals_ext (uid : String) (c : Clock) (s : Db) :
    DbExt s (NotificationService.monitorGoals uid c s) := by
  unfold NotificationService.monitorGoals
  exact foldl_preserve (NotificationService.goalStep uid c) (fun st => DbExt s st)
    (fun st v hv => by
      show DbExt s (NotificationService.goalStep uid c st v)
      exact DbExt_trans hv (goalStep_ext uid c st v)) _ s (DbExt_refl s)

/-- After the goal phase, both guards of every progress entry hold. -/
theorem monitorGoals_post (uid : String) (c : Clock) (s : Db) :
    ∀ p ∈ GoalRepository.getGoalProgress uid c s,
      gBlk uid c (NotificationService.monitorGoals uid c s) p := by
  unfold NotificationService.monitorGoals
  exact foldl_all_blocked (NotificationService.goalStep uid c) (gBlk uid c)
    (fun st v w h => gBlk_mono uid c v (goalStep_ext uid c st w) h)
    (fun st v => goalStep_estab uid c st v) _ s

theorem monitorGoals_id (uid : String) (c : Clock) (s : Db)
    (h : ∀ p ∈ GoalRepository.getGoalProgress uid c s, gBlk uid c s p) :
    NotificationService.monitorGoals uid c s = s := by
  unfold NotificationService.monitorGoals
  exact foldl_all_blocked_id _ (gBlk uid c)
    (fun st v hb => goalStep_id uid c st v hb) _ s h

theorem monitorGoals_MonInv (uid : String) (c : Clock) (s : Db) (hinv : MonInv uid c s)
    (hng : ∀ p ∈ GoalRepository.getGoalProgress uid c s, NoGoalKey uid c s p.goal.id)
    (hnd : ((GoalRepository.getGoalProgress uid c s).map (fun p => p.goal.id)).Nodup) :
    MonInv uid c (NotificationService.monitorGoals uid c s) := by
  unfold NotificationService.monitorGoals
  exact goalLoop_MonInv uid c _ s hinv hng hnd

theorem monitorGoals_newkeys (uid : String) (c : Clock) (s : Db) :
    ∀ a ∈ todayAlerts uid c (NotificationService.monitorGoals uid c s),
      a ∈ todayAlerts uid c s ∨
        ∃ g, keyOf a = (AlertType.goal_progress, some (Discr.goalD g)) := by
  unfold NotificationService.monitorGoals
  exact foldl_preserve (NotificationService.goalStep uid c)
    (fun st => ∀ a ∈ todayAlerts uid c st, a ∈ todayAlerts uid c s ∨
      ∃ g, keyOf a = (AlertType.goal_progress, some (Discr.goalD g)))
    (fun st v hv => by
      intro a ha
      rcases goalStep_newkeys uid c st v a ha with h | h
      · exact hv a h
      · exact Or.inr ⟨v.goal.id, h⟩) _ s (fun a ha => Or.inl ha)

/-! ### The trend phase -/

theorem trendBlocked_mono (uid : String) (c : Clock) (kw : String) {st st2 : Db}
    (he : DbExt st st2) (h : NotificationService.trendBlocked uid c kw st = true) :
    NotificationService.trendBlocked uid c kw st2 = true := by
  unfold NotificationService.trendBlocked at h ⊢
  exact getAlerts_any_mono uid false false _ he.2.2.2.1 h

theorem trendRevPart_ext (uid : String) (c : Clock) (lt pv : AnalyticsRepository.TrendData)
    (s : Db) : DbExt s (NotificationService.trendRevPart uid c lt pv s) := by
  unfold NotificationService.trendRevPart
  by_cases h : lt.income < pv.income * (4 / 5)
  · rw [if_pos h]
    by_cases hb : NotificationService.trendBlocked uid c "revenue" s = true
    · rw [if_pos hb]
      exact DbExt_refl s
    · rw [if_neg hb]
      exact createAlert_ext _ _ _ _ _ _ _ _
  · rw [if_neg h]
    exact DbExt_refl s

theorem trendExpPart_ext (uid : String) (c : Clock) (lt pv : AnalyticsRepository.TrendData)
    (s : Db) : DbExt s (NotificationService.trendExpPart uid c lt pv s) := by
  unfold NotificationService.trendExpPart
  by_cases h : pv.expenses * (6 / 5) < lt.expenses
  · rw [if_pos h]
    by_cases hb : NotificationService.trendBlocked uid c "expenses" s = true
    · rw [if_pos hb]
      exact DbExt_refl s
    · rw [if_neg hb]
      exact createAlert_ext _ _ _ _ _ _ _ _
  · rw [if_neg h]
    exact DbExt_refl s

theorem trendRevPart_post (uid : String) (c : Clock) (lt pv : AnalyticsRepository.TrendData)
    (s : Db) (h : lt.income < pv.income * (4 / 5)) :
    NotificationService.trendBlocked uid c "revenue"
      (NotificationService.trendRevPart uid c lt pv s) = true := by
  unfold NotificationService.trendRevPart
  rw [if_pos h]
  by_cases hb : NotificationService.trendBlocked uid c "revenue" s = true
  · rw [if_pos hb]
    exact hb
  · rw [if_neg hb]
    unfold NotificationService.trendBlocked
    apply any_after_create
    simp only [Bool.and_eq_true, decide_eq_true_eq]
    refine ⟨⟨by trivial, msg_contains_revenue pv.income lt.income⟩, by trivial⟩

theorem trendExpPart_post (uid : String) (c : Clock) (lt pv : AnalyticsRepository.TrendData)
    (s : Db) (h : pv.expenses * (6 / 5) < lt.expenses) :
    NotificationService.trendBlocked uid c "expenses"
      (NotificationService.trendExpPart uid c lt pv s) = true := by
  unfold NotificationService.trendExpPart
  rw [if_pos h]
  by_cases hb : NotificationService.trendBlocked uid c "expenses" s = true
  · rw [if_pos hb]
    exact hb
  · rw [if_neg hb]
    unfold NotificationService.trendBlocked
    apply any_after_create
    simp only [Bool.and_eq_true, decide_eq_true_eq]
    refine ⟨⟨by trivial, msg_contains_expenses pv.expenses lt.expenses⟩, by trivial⟩

theorem trendRevPart_id (uid : String) (c : Clock) (lt pv : AnalyticsRepository.TrendData)
    (s : Db) (h : lt.income < pv.income * (4 / 5) →
      NotificationService.trendBlocked uid c "revenue" s = true) :
    NotificationService.trendRevPart uid c lt pv s = s := by
  unfold NotificationService.trendRevPart
  by_cases h1 : lt.income < pv.income * (4 / 5)
  · rw [if_pos h1, if_pos (h h1)]
  · rw [if_neg h1]

theorem trendExpPart_id (uid : String) (c : Clock) (lt pv : AnalyticsRepository.TrendData)
    (s : Db) (h : pv.expenses * (6 / 5) < lt.expenses →
      NotificationService.trendBlocked uid c "expenses" s = true) :
    NotificationService.trendExpPart uid c lt pv s = s := by
  unfold NotificationService.trendExpPart
  by_cases h1 : pv.expenses * (6 / 5) < lt.expenses
  · rw [if_pos h1, if_pos (h h1)]
  · rw [if_neg h1]

theorem trendRevPart_MonInv (uid : String) (c : Clock) (lt pv : AnalyticsRepository.TrendData)
    (s : Db) (hinv : MonInv uid c s) :
    MonInv uid c (NotificationService.trendRevPart uid c lt pv s) := by
  unfold NotificationService.trendRevPart
  by_cases h : lt.income < pv.income * (4 / 5)
  · rw [if_pos h]
    by_cases hb : NotificationService.trendBlocked uid c "revenue" s = true
    · rw [if_pos hb]
      exact hinv
    · rw [if_neg hb]
      apply MonInv_insert uid c s _ _ _ _ _ hinv
      · intro a ha hk
        apply hb
        have ha2 := (mem_todayAlerts uid c s a).mp ha
        have hvis := hinv.2.1 a ha
        have hty : a.alert_type = AlertType.trend := congrArg Prod.fst hk
        have hdd : discrOfData a.data = some (Discr.trendD true) := congrArg Prod.snd hk
        have hmsg := hinv.2.2.1 a ha hdd
        unfold NotificationService.trendBlocked
        rw [List.any_eq_true]
        refine ⟨a, ?_, ?_⟩
        · unfold AlertRepository.getAlerts
          apply List.mem_filter.mpr
          exact ⟨ha2.1, by simp [ha2.2.1, hvis.1, hvis.2]⟩
        · simp only [Bool.and_eq_true, decide_eq_true_eq]
          exact ⟨⟨hty, hmsg⟩, ha2.2.2⟩
      · intro hd
        exact msg_contains_revenue pv.income lt.income
      · intro hd
        simp [discrOfData] at hd
      · intro tid hd
        simp [discrOfData] at hd
  · rw [if_neg h]
    exact hinv

theorem trendExpPart_MonInv (uid : String) (c : Clock) (lt pv : AnalyticsRepository.TrendData)
    (s : Db) (hinv : MonInv uid c s) :
    MonInv uid c (NotificationService.trendExpPart uid c lt pv s) := by
  unfold NotificationService.trendExpPart
  by_cases h : pv.expenses * (6 / 5) < lt.expenses
  · rw [if_pos h]
    by_cases hb : NotificationService.trendBlocked uid c "expenses" s = true
    · rw [if_pos hb]
      exact hinv
    · rw [if_neg hb]
      apply MonInv_insert uid c s _ _ _ _ _ hinv
      · intro a ha hk
        apply hb
        have ha2 := (mem_todayAlerts uid c s a).mp ha
        have hvis := hinv.2.1 a ha
        have hty : a.alert_type = AlertType.trend := congrArg Prod.fst hk
        have hdd : discrOfData a.data = some (Discr.trendD false) := congrArg Prod.snd hk
        have hmsg := hinv.2.2.2.1 a ha hdd
        unfold NotificationService.trendBlocked
        rw [List.any_eq_true]
        refine ⟨a, ?_, ?_⟩
        · unfold AlertRepository.getAlerts
          apply List.mem_filter.mpr
          exact ⟨ha2.1, by simp [ha2.2.1, hvis.1, hvis.2]⟩
        · simp only [Bool.and_eq_true, decide_eq_true_eq]
          exact ⟨⟨hty, hmsg⟩, ha2.2.2⟩
      · intro hd
        simp [discrOfData] at hd
      · intro hd
        exact msg_contains_expenses pv.expenses lt.expenses
      · intro tid hd
        simp [discrOfData] at hd
  · rw [if_neg h]
    exact hinv

theorem trendRevPart_newkeys (uid : String) (c : Clock) (lt pv : AnalyticsRepository.TrendData)
    (s : Db) : ∀ a ∈ todayAlerts uid c (NotificationService.trendRevPart uid c lt pv s),
      a ∈ todayAlerts uid c s ∨ keyOf a = (AlertType.trend, some (Discr.trendD true)) := by
  intro a ha
  unfold NotificationService.trendRevPart at ha
  by_cases h : lt.income < pv.income * (4 / 5)
  · rw [if_pos h] at ha
    by_cases hb : NotificationService.trendBlocked uid c "revenue" s = true
    · rw [if_pos hb] at ha
      exact Or.inl ha
    · rw [if_neg hb, todayAlerts_create] at ha
      rcases List.mem_append.mp ha with h2 | h2
      · exact Or.inl h2
      · rw [List.mem_singleton] at h2
        subst h2
        exact Or.inr rfl
  · rw [if_neg h] at ha
    exact Or.inl ha

theorem trendExpPart_newkeys (uid : String) (c : Clock) (lt pv : AnalyticsRepository.TrendData)
    (s : Db) : ∀ a ∈ todayAlerts uid c (NotificationService.trendExpPart uid c lt pv s),
      a ∈ todayAlerts uid c s ∨ keyOf a = (AlertType.trend, some (Discr.trendD false)) := by
  intro a ha
  unfold NotificationService.trendExpPart at ha
  by_cases h : pv.expenses * (6 / 5) < lt.expenses
  · rw [if_pos h] at ha
    by_cases hb : NotificationService.trendBlocked uid c "expenses" s = true
    · rw [if_pos hb] at ha
      exact Or.inl ha
    · rw [if_neg hb, todayAlerts_create] at ha
      rcases List.mem_append.mp ha with h2 | h2
      · exact Or.inl h2
      · rw [List.mem_singleton] at h2
        subst h2
        exact Or.inr rfl
  · rw [if_neg h] at ha
    exact Or.inl ha

theorem monitorTrends_ext (uid : String) (c : Clock) (s : Db) :
    DbExt s (NotificationService.monitorTrends uid c s) := by
  unfold NotificationService.monitorTrends
  match htr : AnalyticsRepository.getMonthlyTrends uid 3 c s with
  | [] => exact DbExt_refl s
  | [lt] => exact DbExt_refl s
  | lt :: pv :: rest =>
      exact DbExt_trans (trendRevPart_ext uid c lt pv s) (trendExpPart_ext uid c lt pv _)

theorem monitorTrends_MonInv (uid : String) (c : Clock) (s : Db) (hinv : MonInv uid c s) :
    MonInv uid c (NotificationService.monitorTrends uid c s) := by
  unfold NotificationService.monitorTrends
  match htr : AnalyticsRepository.getMonthlyTrends uid 3 c s with
  | [] => exact hinv
  | [lt] => exact hinv
  | lt :: pv :: rest =>
      exact trendExpPart_MonInv uid c lt pv _ (trendRevPart_MonInv uid c lt pv s hinv)

theorem monitorTrends_newkeys (uid : String) (c : Clock) (s : Db) :
    ∀ a ∈ todayAlerts uid c (NotificationService.monitorTrends uid c s),
      a ∈ todayAlerts uid c s ∨
        ∃ r, keyOf a = (AlertType.trend, some (Discr.trendD r)) := by
  unfold NotificationService.monitorTrends
  match htr : AnalyticsRepository.getMonthlyTrends uid 3 c s with
  | [] => exact fun a ha => Or.inl ha
  | [lt] => exact fun a ha => Or.inl ha
  | lt :: pv :: rest =>
      intro a ha
      rcases trendExpPart_newkeys uid c lt pv _ a ha with h | h
      · rcases trendRevPart_newkeys uid c lt pv s a h with h2 | h2
        · exact Or.inl h2
        · exact Or.inr ⟨true, h2⟩
      · exact Or.inr ⟨false, h⟩

/-- After the trend phase, any due trend alert is guarded. -/
theorem monitorTrends_post (uid : String) (c : Clock) (s : Db)
    (lt pv : AnalyticsRepository.TrendData) (rest : List AnalyticsRepository.TrendData)
    (htr : AnalyticsRepository.getMonthlyTrends uid 3 c s = lt :: pv :: rest) :
    (lt.income < pv.income * (4 / 5) →
      NotificationService.trendBlocked uid c "revenue"
        (NotificationService.monitorTrends uid c s) = true) ∧
    (pv.expenses * (6 / 5) < lt.expenses →
      NotificationService.trendBlocked uid c "expenses"
        (NotificationService.monitorTrends uid c s) = true) := by
  have hred : NotificationService.monitorTrends uid c s =
      NotificationService.trendExpPart uid c lt pv
        (NotificationService.trendRevPart uid c lt pv s) := by
    unfold NotificationService.monitorTrends
    rw [htr]
  rw [hred]
  constructor
  · intro h
    exact trendBlocked_mono uid c "revenue" (trendExpPart_ext uid c lt pv _)
      (trendRevPart_post uid c lt pv s h)
  · intro h
    exact trendExpPart_post uid c lt pv _ h

/-- The trend phase is a no-op when any due alert is already guarded. -/
theorem monitorTrends_id (uid : String) (c : Clock) (s : Db)
    (h : ∀ lt pv rest, AnalyticsRepository.getMonthlyTrends uid 3 c s = lt :: pv :: rest →
      (lt.income < pv.income * (4 / 5) →
        NotificationService.trendBlocked uid c "revenue" s = true) ∧
      (pv.expenses * (6 / 5) < lt.expenses →
        NotificationService.trendBlocked uid c "expenses" s = true)) :
    NotificationService.monitorTrends uid c s = s := by
  unfold NotificationService.monitorTrends
  match htr : AnalyticsRepository.getMonthlyTrends uid 3 c s with
  | [] => rfl
  | [lt] => rfl
  | lt :: pv :: rest =>
      obtain ⟨h1, h2⟩ := h lt pv rest htr
      show NotificationService.trendExpPart uid c lt pv
        (NotificationService.trendRevPart uid c lt pv s) = s
      rw [trendRevPart_id uid c lt pv s h1]
      exact trendExpPart_id uid c lt pv s h2

/-- `getMonthlyTrends` depends only on the transaction table. -/
theorem getMonthlyTrends_congr (uid : String) (months : Nat) (c : Clock) (st s : Db)
    (h : st.transactions = s.transactions) :
    AnalyticsRepository.getMonthlyTrends uid months c st =
      AnalyticsRepository.getMonthlyTrends uid months c s := by
  unfold AnalyticsRepository.getMonthlyTrends
  rw [h]

/-! ### The anomaly phase and item congruences -/

theorem anomalyStep_ext (uid : String) (c : Clock) (st : Db) (t : Txn) :
    DbExt st (FinancialIntelligenceService.anomalyStep uid c st t) := by
  simp only [FinancialIntelligenceService.anomalyStep]
  by_cases h1 : ((AlertRepository.getAnomalies uid false st).any
      (fun a2 => a2.transaction_id == t.id)) = true
  · rw [if_pos h1]
    exact DbExt_refl st
  · rw [if_neg h1]
    by_cases h2 : (t.id == 0) = true
    · rw [if_pos h2]
      exact DbExt_refl st
    · rw [if_neg h2]
      exact DbExt_trans (createAnomaly_ext _ _ _ _ _ _) (createAlert_ext _ _ _ _ _ _ _ _)

theorem detectAnomalies_ext (uid : String) (c : Clock) (s : Db) :
    DbExt s (FinancialIntelligenceService.detectAnomalies uid c s) := by
  unfold FinancialIntelligenceService.detectAnomalies
  exact foldl_preserve (FinancialIntelligenceService.anomalyStep uid c) (fun st => DbExt s st)
    (fun st v hv => by
      show DbExt s (FinancialIntelligenceService.anomalyStep uid c st v)
      exact DbExt_trans hv (anomalyStep_ext uid c st v)) _ s (DbExt_refl s)

/-- The anomaly row just recorded backs the alert about it. -/
theorem anomaly_record_link (uid : String) (tid : Nat) (aty : String) (sev : ℚ)
    (desc : String) (st : Db) (tid2 : Nat) (heq : tid2 = tid) :
    ∃ rec2 ∈ (AlertRepository.createAnomaly uid tid aty sev desc st).anomalies,
      rec2.user_id = uid ∧ rec2.reviewed = 0 ∧ rec2.transaction_id = tid2 := by
  refine ⟨⟨st.nextAnomalyId, uid, tid, aty, sev, desc, 0, 0⟩, ?_, rfl, rfl, heq.symm⟩
  show _ ∈ st.anomalies ++ _
  exact List.mem_append.mpr (Or.inr (List.mem_singleton.mpr rfl))

theorem anomalyStep_MonInv (uid : String) (c : Clock) (st : Db) (t : Txn)
    (hinv : MonInv uid c st) :
    MonInv uid c (FinancialIntelligenceService.anomalyStep uid c st t) := by
  simp only [FinancialIntelligenceService.anomalyStep]
  by_cases h1 : ((AlertRepository.getAnomalies uid false st).any
      (fun a2 => a2.transaction_id == t.id)) = true
  · rw [if_pos h1]
    exact hinv
  · rw [if_neg h1]
    by_cases h2 : (t.id == 0) = true
    · rw [if_pos h2]
      exact hinv
    · rw [if_neg h2]
      apply MonInv_insert uid c _ _ _ _ _ _
        (MonInv_createAnomaly uid c st t.id _ _ _ hinv)
      · intro a ha hk
        apply h1
        rw [todayAlerts_createAnomaly] at ha
        have hdd : discrOfData a.data = some (Discr.anomalyD t.id) := congrArg Prod.snd hk
        obtain ⟨r, hr, hru, hrv, hrt⟩ := hinv.2.2.2.2 a ha t.id hdd
        unfold AlertRepository.getAnomalies
        rw [List.any_eq_true]
        refine ⟨r, ?_, by simp [hrt]⟩
        apply List.mem_filter.mpr
        exact ⟨hr, by simp [hru, hrv]⟩
      · intro hd
        simp [discrOfData] at hd
      · intro hd
        simp [discrOfData] at hd
      · intro tid hd
        have heq : t.id = tid := by simpa [discrOfData] using hd
        exact anomaly_record_link uid t.id _ _ _ st tid heq.symm

theorem detectAnomalies_MonInv (uid : String) (c : Clock) (s : Db) (hinv : MonInv uid c s) :
    MonInv uid c (FinancialIntelligenceService.detectAnomalies uid c s) := by
  unfold FinancialIntelligenceService.detectAnomalies
  exact foldl_preserve (FinancialIntelligenceService.anomalyStep uid c) (MonInv uid c)
    (fun st v hv => by
      show MonInv uid c (FinancialIntelligenceService.anomalyStep uid c st v)
      exact anomalyStep_MonInv uid c st v hv) _ s hinv

theorem getFinancialSummary_congr (uid : String) (st s : Db)
    (h : st.transactions = s.transactions) :
    TransactionRepository.getFinancialSummary uid st =
      TransactionRepository.getFinancialSummary uid s := by
  unfold TransactionRepository.getFinancialSummary
  rw [h]

theorem varianceOf_congr (uid : String) (sd ed : CalDate) (st s : Db)
    (htx : st.transactions = s.transactions) :
    BudgetRepository.varianceOf uid sd ed st = BudgetRepository.varianceOf uid sd ed s := by
  funext b
  unfold BudgetRepository.varianceOf BudgetRepository.actualSpend
  rw [htx]

theorem getActiveBudgets_congr (uid : String) (c : Clock) (st s : Db)
    (hb : st.budgets = s.budgets) :
    BudgetRepository.getActiveBudgets uid c st = BudgetRepository.getActiveBudgets uid c s := by
  unfold BudgetRepository.getActiveBudgets
  rw [hb]

theorem checkBudgetAlerts_congr (uid : String) (c : Clock) (st s : Db)
    (htx : st.transactions = s.transactions) (hb : st.budgets = s.budgets) :
    BudgetRepository.checkBudgetAlerts uid c st = BudgetRepository.checkBudgetAlerts uid c s := by
  unfold BudgetRepository.checkBudgetAlerts BudgetRepository.getBudgetVariance
  rw [getActiveBudgets_congr uid c st s hb, varianceOf_congr uid _ _ st s htx]

/-- The budget of every reported variance is a row of the budget
table. -/
theorem checkBudgetAlerts_budget_mem (uid : String) (c : Clock) (s : Db) (v : BudgetVariance)
    (hv : v ∈ BudgetRepository.checkBudgetAlerts uid c s) : v.budget ∈ s.budgets := by
  unfold BudgetRepository.checkBudgetAlerts BudgetRepository.getBudgetVariance at hv
  rw [List.mem_filter] at hv
  obtain ⟨hv1, _⟩ := hv
  rw [List.mem_map] at hv1
  obtain ⟨b, hb, hbv⟩ := hv1
  have hvb : v.budget = b := by
    rw [← hbv]
    rfl
  rw [hvb]
  unfold BudgetRepository.getActiveBudgets at hb
  exact (List.mem_filter.mp hb).1

theorem getGoals_congr (uid : String) (stat : Option GoalStatus) (st s : Db)
    (hg : st.goals = s.goals) :
    GoalRepository.getGoals uid stat st = GoalRepository.getGoals uid stat s := by
  unfold GoalRepository.getGoals
  rw [hg]

theorem getGoalProgress_congr (uid : String) (c : Clock) (st s : Db)
    (hg : st.goals = s.goals) :
    GoalRepository.getGoalProgress uid c st = GoalRepository.getGoalProgress uid c s := by
  unfold GoalRepository.getGoalProgress
  rw [getGoals_congr uid _ st s hg]

/-! ### Assembly: a second same-day run is a no-op -/

/-- `runAllMonitoring` is idempotent at a fixed clock: every alert the
second run would raise is blocked by the dedup guard the first run's
insert (or an existing alert) satisfies. -/
theorem runAll_idem (uid : String) (c : Clock) (s : Db)
    (hplain : ∀ b ∈ s.budgets, jsonPlain b.category) :
    NotificationService.runAllMonitoring uid c (NotificationService.runAllMonitoring uid c s) =
      NotificationService.runAllMonitoring uid c s := by
  unfold NotificationService.runAllMonitoring
  set s1 := NotificationService.monitorCashBalance uid 5000 c s with hs1
  set s2 := NotificationService.monitorBudgets uid c s1 with hs2
  set s3 := NotificationService.monitorGoals uid c s2 with hs3
  set s4 := NotificationService.monitorTrends uid c s3 with hs4
  set s5 := FinancialIntelligenceService.detectAnomalies uid c s4 with hs5
  have e1 : DbExt s s1 := monitorCashBalance_ext uid 5000 c s
  have e2 : DbExt s1 s2 := monitorBudgets_ext uid c s1
  have e3 : DbExt s2 s3 := monitorGoals_ext uid c s2
  have e4 : DbExt s3 s4 := monitorTrends_ext uid c s3
  have e5 : DbExt s4 s5 := detectAnomalies_ext uid c s4
  have e35 : DbExt s3 s5 := DbExt_trans e4 e5
  have e25 : DbExt s2 s5 := DbExt_trans e3 e35
  have e15 : DbExt s1 s5 := DbExt_trans e2 e25
  have eS5 : DbExt s s5 := DbExt_trans e1 e15
  have hA : NotificationService.monitorCashBalance uid 5000 c s5 = s5 := by
    apply monitorCashBalance_id
    intro hprof
    rw [getFinancialSummary_congr uid s5 s eS5.1] at hprof
    exact cashBlocked_mono uid c e15 (monitorCashBalance_post uid 5000 c s hprof)
  have hB : NotificationService.monitorBudgets uid c s5 = s5 := by
    apply monitorBudgets_id
    intro v hv
    rw [checkBudgetAlerts_congr uid c s5 s1 e15.1 e15.2.1] at hv
    have hplv : jsonPlain v.budget.category := by
      apply hplain
      have hmem := checkBudgetAlerts_budget_mem uid c s1 v hv
      rw [e1.2.1] at hmem
      exact hmem
    exact budgetBlocked_mono uid c v e25 (monitorBudgets_post uid c s1 v hv hplv)
  have hC : NotificationService.monitorGoals uid c s5 = s5 := by
    apply monitorGoals_id
    intro p hp
    rw [getGoalProgress_congr uid c s5 s2 e25.2.2.1] at hp
    exact gBlk_mono uid c p e35 (monitorGoals_post uid c s2 p hp)
  have hD : NotificationService.monitorTrends uid c s5 = s5 := by
    apply monitorTrends_id
    intro lt pv rest htr
    rw [getMonthlyTrends_congr uid 3 c s5 s3 e35.1] at htr
    have hpost := monitorTrends_post uid c s3 lt pv rest htr
    exact ⟨fun h => trendBlocked_mono uid c "revenue" e5 (hpost.1 h),
           fun h => trendBlocked_mono uid c "expenses" e5 (hpost.2 h)⟩
  have hE : FinancialIntelligenceService.detectAnomalies uid c s5 = s5 := by
    rw [hs5]
    exact detectAnomalies_idem uid c s4
  rw [hA, hB, hC, hD, hE]

/-- Any number of same-day repeats collapses to a single run. -/
theorem runAll_iterate (uid : String) (c : Clock) (s : Db)
    (hplain : ∀ b ∈ s.budgets, jsonPlain b.category) (n : Nat) :
    (NotificationService.runAllMonitoring uid c)^[n + 1] s =
      NotificationService.runAllMonitoring uid c s := by
  induction n with
  | zero => rfl
  | succ k ih =>
      rw [Function.iterate_succ_apply', ih]
      exact runAll_idem uid c s hplain

/-- The progress rows' goal ids are the active goals' ids. -/
theorem goalProgress_ids (uid : String) (c : Clock) (s : Db) :
    (GoalRepository.getGoalProgress uid c s).map (fun p => p.goal.id)
      = (GoalRepository.getGoals uid (some GoalStatus.active) s).map (fun g => g.id) := by
  unfold GoalRepository.getGoalProgress
  rw [List.map_map]
  apply List.map_congr_left
  intro g hg
  simp only [Function.comp_apply]
  cases hd : g.deadline
  · rfl
  · rfl

/-- From a state with no same-day alert of the owner and pairwise
distinct goal rowids, a monitoring run establishes the invariant — in
particular pairwise distinct (type, discriminator) keys among the
owner's same-day alerts. -/
theorem runAll_MonInv (uid : String) (c : Clock) (s : Db)
    (hclean : todayAlerts uid c s = [])
    (hnodup : (s.goals.map FinancialGoal.id).Nodup)
    (hplain : ∀ b ∈ s.budgets, jsonPlain b.category) :
    MonInv uid c (NotificationService.runAllMonitoring uid c s) := by
  have hinv0 : MonInv uid c s := by
    refine ⟨?_, ?_, ?_, ?_, ?_⟩ <;> rw [hclean] <;> simp
  unfold NotificationService.runAllMonitoring
  set s1 := NotificationService.monitorCashBalance uid 5000 c s with hs1
  set s2 := NotificationService.monitorBudgets uid c s1 with hs2
  set s3 := NotificationService.monitorGoals uid c s2 with hs3
  set s4 := NotificationService.monitorTrends uid c s3 with hs4
  have e1 : DbExt s s1 := monitorCashBalance_ext uid 5000 c s
  have e2 : DbExt s1 s2 := monitorBudgets_ext uid c s1
  have hinv1 : MonInv uid c s1 := monitorCashBalance_MonInv uid 5000 c s hinv0
  have hpl1 : ∀ v ∈ BudgetRepository.checkBudgetAlerts uid c s1, jsonPlain v.budget.category := by
    intro v hv
    apply hplain
    have hmem := checkBudgetAlerts_budget_mem uid c s1 v hv
    rw [e1.2.1] at hmem
    exact hmem
  have hinv2 : MonInv uid c s2 := monitorBudgets_MonInv uid c s1 hinv1 hpl1
  have hng : ∀ p ∈ GoalRepository.getGoalProgress uid c s2, NoGoalKey uid c s2 p.goal.id := by
    intro p hp a ha hk
    rcases monitorBudgets_newkeys uid c s1 a ha with h | h
    · rcases monitorCashBalance_newkeys uid 5000 c s a h with h2 | h2
      · rw [hclean] at h2
        cases h2
      · rw [h2] at hk
        simp at hk
    · obtain ⟨ct, hct⟩ := h
      rw [hct] at hk
      simp at hk
  have hnd : ((GoalRepository.getGoalProgress uid c s2).map (fun p => p.goal.id)).Nodup := by
    rw [goalProgress_ids uid c s2]
    have hgoals : s2.goals = s.goals := (DbExt_trans e1 e2).2.2.1
    unfold GoalRepository.getGoals
    rw [hgoals]
    exact List.Nodup.sublist (List.Sublist.map _ (List.filter_sublist _)) hnodup
  have hinv3 : MonInv uid c s3 := monitorGoals_MonInv uid c s2 hinv2 hng hnd
  have hinv4 : MonInv uid c s4 := monitorTrends_MonInv uid c s3 hinv3
  exact detectAnomalies_MonInv uid c s4 hinv4

/-- C1, the guarantee part: the claimed per-day dedup invariant does
hold whenever every budget category is a string `JSON.stringify` leaves
unescaped (no quote, backslash, or control character) — the code's
substring dedup check `a.data?.includes(category)` sees the blob only
then.  Starting the day with no alert of the owner (and with distinct
goal rowids, which SQLite guarantees), a `runAllMonitoring` run leaves
the owner's same-day alerts pairwise distinct in their
(alert_type, discriminator) key — category for budget alerts, goal id
for goal alerts, transaction id for anomaly alerts; a second run the
same day with nothing changed in between is a no-op (zero additional
alerts), and any longer same-day sequence of runs equals a single run.
For a category containing a quote the guarantee fails in the source:
see the counterexample. -/
theorem C1_alert_deduplication (uid : String) (c : Clock) (s : Db)
    (hclean : todayAlerts uid c s = [])
    (hnodup : (s.goals.map FinancialGoal.id).Nodup)
    (hplain : ∀ b ∈ s.budgets, jsonPlain b.category) :
    NotificationService.runAllMonitoring uid c (NotificationService.runAllMonitoring uid c s) =
      NotificationService.runAllMonitoring uid c s ∧
    (∀ n : Nat, (NotificationService.runAllMonitoring uid c)^[n + 1] s =
      NotificationService.runAllMonitoring uid c s) ∧
    (todayAlerts uid c (NotificationService.runAllMonitoring uid c s)).Pairwise
      (fun a b => keyOf a ≠ keyOf b) :=
  ⟨runAll_idem uid c s hplain, fun n => runAll_iterate uid c s hplain n,
   (runAll_MonInv uid c s hclean hnodup hplain).1⟩

theorem C1_alert_deduplication_witness :
    todayAlerts "u" clock0 emptyDb = [] ∧
    (emptyDb.goals.map FinancialGoal.id).Nodup ∧
    (∀ b ∈ emptyDb.budgets, jsonPlain b.category) ∧
    (NotificationService.runAllMonitoring "u" clock0
        (NotificationService.runAllMonitoring "u" clock0 emptyDb) =
      NotificationService.runAllMonitoring "u" clock0 emptyDb) :=
  ⟨rfl, by simp [emptyDb], by simp [emptyDb],
   (C1_alert_deduplication "u" clock0 emptyDb rfl (by simp [emptyDb])
     (by simp [emptyDb])).1⟩

/-! ### C1 counterexample: a JSON-escaped budget category defeats the
substring dedup guard -/

theorem monitorGoals_nil (uid : String) (c : Clock) (st : Db) (h : st.goals = []) :
    NotificationService.monitorGoals uid c st = st := by
  unfold NotificationService.monitorGoals GoalRepository.getGoalProgress GoalRepository.getGoals
  rw [h]
  rfl

theorem monitorTrends_short (uid : String) (c : Clock) (s : Db)
    (h : (AnalyticsRepository.getMonthlyTrends uid 3 c s).length < 2) :
    NotificationService.monitorTrends uid c s = s := by
  unfold NotificationService.monitorTrends
  match htr : AnalyticsRepository.getMonthlyTrends uid 3 c s with
  | [] => rfl
  | [lt] => rfl
  | lt :: pv :: rest =>
      rw [htr] at h
      simp only [List.length_cons] at h
      exact absurd h (by omega)

theorem detectAnomalies_nil (uid : String) (c : Clock) (s : Db)
    (h : TransactionRepository.getAnomalousTransactions uid 3 s = []) :
    FinancialIntelligenceService.detectAnomalies uid c s = s := by
  unfold FinancialIntelligenceService.detectAnomalies
  rw [h]
  rfl

/-- A budget category `JSON.stringify` escapes (it contains a quote). -/
def catQ : String := "A\"B"

/-- One over-spent budget of category `catQ` and its expense. -/
def dbC1 : Db :=
  ⟨[⟨1, "u", ⟨2025, 6, 10⟩, "supplies", 150, catQ, TxnType.expense⟩],
   [⟨1, "u", catQ, 100, Period.monthly, ⟨2025, 1, 1⟩, none, none⟩],
   [], [], [], [], [], [], [], 2, 1, 1, 1, 1, 1, 1⟩

/-- `dbC1` after the first run's cash phase. -/
def dbA : Db :=
  ⟨[⟨1, "u", ⟨2025, 6, 10⟩, "supplies", 150, catQ, TxnType.expense⟩],
   [⟨1, "u", catQ, 100, Period.monthly, ⟨2025, 1, 1⟩, none, none⟩],
   [], [⟨1, "u", AlertType.low_cash, Severity.critical, "Low Cash Reserves",
        NotificationService.lowCashMessage (-150) 5000,
        some (AlertData.cashLow (-150) 5000), 0, 0, clock0.today⟩],
   [], [], [], [], [], 2, 2, 1, 1, 1, 1, 1⟩

/-- The variance `checkBudgetAlerts` reports for the `catQ` budget. -/
def vC1 : BudgetVariance :=
  ⟨⟨1, "u", catQ, 100, Period.monthly, ⟨2025, 1, 1⟩, none, none⟩, 150, -50, -50, BStatus.over⟩

/-- `dbC1` after the first full run: one low-cash and one budget alert. -/
def dbB : Db :=
  ⟨[⟨1, "u", ⟨2025, 6, 10⟩, "supplies", 150, catQ, TxnType.expense⟩],
   [⟨1, "u", catQ, 100, Period.monthly, ⟨2025, 1, 1⟩, none, none⟩],
   [], [⟨1, "u", AlertType.low_cash, Severity.critical, "Low Cash Reserves",
        NotificationService.lowCashMessage (-150) 5000,
        some (AlertData.cashLow (-150) 5000), 0, 0, clock0.today⟩,
       ⟨2, "u", AlertType.budget_overrun, Severity.critical, catQ ++ " Budget Alert",
        NotificationService.budgetAlertMessage vC1,
        some (AlertData.budgetCat catQ 100 150), 0, 0, clock0.today⟩],
   [], [], [], [], [], 2, 3, 1, 1, 1, 1, 1⟩

/-- `dbC1` after the second run: a duplicate same-day budget alert of
the same category. -/
def dbB2 : Db :=
  ⟨[⟨1, "u", ⟨2025, 6, 10⟩, "supplies", 150, catQ, TxnType.expense⟩],
   [⟨1, "u", catQ, 100, Period.monthly, ⟨2025, 1, 1⟩, none, none⟩],
   [], [⟨1, "u", AlertType.low_cash, Severity.critical, "Low Cash Reserves",
        NotificationService.lowCashMessage (-150) 5000,
        some (AlertData.cashLow (-150) 5000), 0, 0, clock0.today⟩,
       ⟨2, "u", AlertType.budget_overrun, Severity.critical, catQ ++ " Budget Alert",
        NotificationService.budgetAlertMessage vC1,
        some (AlertData.budgetCat catQ 100 150), 0, 0, clock0.today⟩,
       ⟨3, "u", AlertType.budget_overrun, Severity.critical, catQ ++ " Budget Alert",
        NotificationService.budgetAlertMessage vC1,
        some (AlertData.budgetCat catQ 100 150), 0, 0, clock0.today⟩],
   [], [], [], [], [], 2, 4, 1, 1, 1, 1, 1⟩

theorem runC1_cash : NotificationService.monitorCashBalance "u" 5000 clock0 dbC1 = dbA := by
  have hprof : (TransactionRepository.getFinancialSummary "u" dbC1).profit = -150 := by
    norm_num +decide [TransactionRepository.getFinancialSummary, dbC1]
  simp only [NotificationService.monitorCashBalance]
  rw [hprof]
  rw [if_pos (by norm_num : (-150 : ℚ) < 5000)]
  rw [if_neg (by decide : ¬((AlertRepository.getAlerts "u" false false dbC1).any (fun a =>
    decide (a.alert_type = AlertType.low_cash) && decide (a.created_at = clock0.today))) = true)]
  rw [if_pos (by norm_num : (-150 : ℚ) < 5000 * (1 / 2))]
  rfl

theorem runC1_cba : BudgetRepository.checkBudgetAlerts "u" clock0 dbA = [vC1] := by
  norm_num +decide [BudgetRepository.checkBudgetAlerts, BudgetRepository.getBudgetVariance,
    BudgetRepository.getActiveBudgets, BudgetRepository.varianceOf, BudgetRepository.actualSpend,
    BudgetRepository.nearThreshold, BudgetRepository.thresholdOr, dbA, vC1, clock0]

theorem runC1_budget : NotificationService.monitorBudgets "u" clock0 dbA = dbB := by
  unfold NotificationService.monitorBudgets
  rw [runC1_cba]
  show NotificationService.budgetStep "u" clock0 dbA vC1 = dbB
  simp only [NotificationService.budgetStep]
  rw [if_neg (by decide : ¬NotificationService.budgetBlocked "u" clock0 dbA vC1 = true)]
  rw [if_pos (by norm_num [vC1] : vC1.budget.amount * (6 / 5) < vC1.actual)]
  rfl

theorem runC1_run1 : NotificationService.runAllMonitoring "u" clock0 dbC1 = dbB := by
  unfold NotificationService.runAllMonitoring
  rw [runC1_cash, runC1_budget, monitorGoals_nil "u" clock0 dbB rfl,
    monitorTrends_short "u" clock0 dbB (by decide),
    detectAnomalies_nil "u" clock0 dbB (by decide)]

theorem runC1_cash2 : NotificationService.monitorCashBalance "u" 5000 clock0 dbB = dbB := by
  have hprof : (TransactionRepository.getFinancialSummary "u" dbB).profit = -150 := by
    norm_num +decide [TransactionRepository.getFinancialSummary, dbB]
  simp only [NotificationService.monitorCashBalance]
  rw [hprof]
  rw [if_pos (by norm_num : (-150 : ℚ) < 5000)]
  rw [if_pos (by decide : ((AlertRepository.getAlerts "u" false false dbB).any (fun a =>
    decide (a.alert_type = AlertType.low_cash) && decide (a.created_at = clock0.today))) = true)]

theorem runC1_cba2 : BudgetRepository.checkBudgetAlerts "u" clock0 dbB = [vC1] := by
  norm_num +decide [BudgetRepository.checkBudgetAlerts, BudgetRepository.getBudgetVariance,
    BudgetRepository.getActiveBudgets, BudgetRepository.varianceOf, BudgetRepository.actualSpend,
    BudgetRepository.nearThreshold, BudgetRepository.thresholdOr, dbB, vC1, clock0]

/-- The second run's budget phase inserts again: the stored blob holds
the category escaped, the substring check misses it. -/
theorem runC1_budget2 : NotificationService.monitorBudgets "u" clock0 dbB = dbB2 := by
  unfold NotificationService.monitorBudgets
  rw [runC1_cba2]
  show NotificationService.budgetStep "u" clock0 dbB vC1 = dbB2
  simp only [NotificationService.budgetStep]
  rw [if_neg (by decide : ¬NotificationService.budgetBlocked "u" clock0 dbB vC1 = true)]
  rw [if_pos (by norm_num [vC1] : vC1.budget.amount * (6 / 5) < vC1.actual)]
  rfl

theorem runC1_run2 : NotificationService.runAllMonitoring "u" clock0 dbB = dbB2 := by
  unfold NotificationService.runAllMonitoring
  rw [runC1_cash2, runC1_budget2, monitorGoals_nil "u" clock0 dbB2 rfl,
    monitorTrends_short "u" clock0 dbB2 (by decide),
    detectAnomalies_nil "u" clock0 dbB2 (by decide)]

/-- C1 counterexample (code bug): for a budget category containing a
quote, `JSON.stringify` stores the escaped blob while the dedup guard
greps for the raw category, so a second same-day `runAllMonitoring`
with nothing changed inserts a third alert — a duplicate same-day
(budget_overrun, category) pair — falsifying both the zero-additional-
alerts and the at-most-one-per-key parts of the claim. -/
theorem C1_counterexample :
    todayAlerts "u" clock0 dbC1 = [] ∧
    (NotificationService.runAllMonitoring "u" clock0 dbC1).alerts.length = 2 ∧
    (NotificationService.runAllMonitoring "u" clock0
        (NotificationService.runAllMonitoring "u" clock0 dbC1)).alerts.length = 3 ∧
    ¬ (todayAlerts "u" clock0 (NotificationService.runAllMonitoring "u" clock0
        (NotificationService.runAllMonitoring "u" clock0 dbC1))).Pairwise
      (fun a b => keyOf a ≠ keyOf b) := by
  refine ⟨rfl, ?_, ?_, ?_⟩
  · rw [runC1_run1]
    rfl
  · rw [runC1_run1, runC1_run2]
    rfl
  · rw [runC1_run1, runC1_run2]
    decide

end AuditAI
